import Mathlib

/-!
# CodeFest: problem lifecycle and triage engine

A shallow embedding of the server code of the repository
(`server/controllers/adminController.js`, `server/controllers/aiController.js`,
`server/models/Problem.js`, `server/models/User.js`) and theorems about it.

Conventions of the embedding.

* MongoDB object ids are natural numbers; dates are integers (milliseconds since the epoch).
* JavaScript numbers are embedded twice. `calculatePriorityScore`,
  `calculateAverageResolution` and `adjustForPriority` compute in exact rationals and carry
  the properties of order and structure. Their counterparts with the suffix `Double`
  compute in IEEE 754 double precision and carry the properties that compare a computed
  score or number of days with a decimal value, where the rounding of the operations
  shows. The doubles are the type `Dbl`; `roundRatio_nearest` and the theorems after it
  show that its operations round to nearest, ties to even.
* JavaScript strings are Lean strings; `String.prototype.toLowerCase`, a built-in whose
  case-mapping tables are not part of the repository, is a parameter `toLowerCase` of the
  functions that call it.
* The database is a `Store`: the list of problem documents, in the order `Problem.find`
  returns them, and the list of user documents.
* Of a document only the fields read or written by the embedded functions are kept.
-/

namespace CodeFest

/-! ## Data model (`models/Problem.js`, `models/User.js`) -/

/-- One entry of `problemSchema.comments`. -/
structure Comment where
  user : Option Nat
  text : String
  isAnonymous : Bool
  createdAt : Int
deriving DecidableEq, Repr

/-- The nested path `problemSchema.resolutionDetails`; it is also the shape of the
`resolutionDetails` payload of a status-change request. -/
structure ResolutionDetails where
  resolvedAt : Option Int
  resolvedBy : Option Nat
  resolutionImages : List String
  resolutionDescription : Option String
  costIncurred : Option ℚ
deriving DecidableEq, Repr

/-- A document of `problemSchema`. `status` and `priority` are strings, checked against
their `enum` when the document is saved. -/
structure Problem where
  id : Nat
  title : String
  description : String
  category : String
  municipality : String
  ward : Int
  reporter : Nat
  status : String
  priority : String
  upvotes : List Nat
  upvoteCount : Int
  comments : List Comment
  assignedTo : Option Nat
  resolutionDetails : Option ResolutionDetails
  createdAt : Int
deriving DecidableEq, Repr

/-- The field `workload` of a department user, read by `calculateWorkloadScore`. -/
structure Workload where
  activeCases : ℚ
  completionRate : ℚ
deriving DecidableEq, Repr

/-- A stored user. `workload` is what the stored record carries under that name;
`userSchema` declares no such path and no code of the repository writes one. -/
structure User where
  id : Nat
  name : String
  points : Int
  role : String
  department : String
  municipality : String
  workload : Option Workload
deriving DecidableEq, Repr

/-- The two collections of the database. -/
structure Store where
  problems : List Problem
  users : List User
deriving DecidableEq, Repr

/-- The `enum` of `problemSchema.status`. -/
def statusEnum : List String := ["pending", "in_progress", "resolved", "rejected"]

/-- The `enum` of `problemSchema.priority`. -/
def priorityEnum : List String := ["low", "medium", "high", "critical"]

/-- `Problem.findById(id)`. -/
def findById (problems : List Problem) (id : Nat) : Option Problem :=
  problems.find? (fun p => p.id == id)

/-- Validation run by `problem.save()`: the `enum` validators of `status` and `priority`,
the two validated paths a status change writes. A stored document passed them when it was
saved, so checking them on every save is checking them on the modified paths. -/
def validateProblem (p : Problem) : Bool :=
  decide (p.status ∈ statusEnum) && decide (p.priority ∈ priorityEnum)

/-- The write of `problem.save()`: the stored document with the same id is replaced. -/
def saveProblem (problems : List Problem) (p : Problem) : List Problem :=
  problems.map (fun q => if q.id = p.id then p else q)

/-- `User.findByIdAndUpdate(id, { $inc: { points: n } })`; no effect when no user has
this id. -/
def incPoints (users : List User) (id : Nat) (n : Int) : List User :=
  users.map (fun u => if u.id = id then { u with points := u.points + n } else u)

/-- The point balance of user `id` (0 when there is no such user). -/
def pointsOf (users : List User) (id : Nat) : Int :=
  match users.find? (fun u => u.id == id) with
  | some u => u.points
  | none => 0

/-! ## `updateProblemStatus` (`controllers/adminController.js`) -/

/-- The fields `req.body` is destructured into. `none` is an absent field. -/
structure UpdateBody where
  status : Option String
  assignedTo : Option Nat
  priority : Option String
  resolutionDetails : Option ResolutionDetails
deriving DecidableEq, Repr

/-- JavaScript truthiness of an optional string: present and not empty. -/
def truthy : Option String → Bool
  | some s => s != ""
  | none => false

/-- The three outcomes of the handler: 404, 200 with the problem, 500. -/
inductive Response where
  | notFound
  | ok (problem : Problem)
  | serverError
deriving DecidableEq, Repr

/-- The condition `status === 'resolved' && resolutionDetails`. -/
def isResolveRequest (body : UpdateBody) : Bool :=
  body.status == some "resolved" && body.resolutionDetails.isSome

/-- The in-memory assignments of `updateProblemStatus` (lines 170-180) to the loaded
document, for the user `userId = req.user.id` at time `now = new Date()`. -/
def applyUpdate (problem : Problem) (userId : Nat) (now : Int) (body : UpdateBody) : Problem :=
  let p1 := if truthy body.status then { problem with status := body.status.getD "" } else problem
  let p2 := match body.assignedTo with
    | some d => { p1 with assignedTo := some d }
    | none => p1
  let p3 := if truthy body.priority then { p2 with priority := body.priority.getD "" } else p2
  match body.status == some "resolved", body.resolutionDetails with
  | true, some rd =>
      let stored : ResolutionDetails :=
        { rd with resolvedAt := some now, resolvedBy := some userId }
      { p3 with resolutionDetails := some stored }
  | _, _ => p3

/-- `updateProblemStatus`: load the problem (404 when absent), assign the supplied fields,
on a resolve request store the resolution details and award 10 points to the reporter,
then save (500 when validation rejects the document; the award has already been written). -/
def updateProblemStatus (s : Store) (id userId : Nat) (now : Int) (body : UpdateBody) :
    Store × Response :=
  match findById s.problems id with
  | none => (s, Response.notFound)
  | some problem =>
    let updated := applyUpdate problem userId now body
    let users := if isResolveRequest body then incPoints s.users problem.reporter 10 else s.users
    if validateProblem updated then
      ({ problems := saveProblem s.problems updated, users := users }, Response.ok updated)
    else
      ({ problems := s.problems, users := users }, Response.serverError)

/-! ## Upvotes and operation sequences -/

/-- Modelled from the spec: the change `upvoteProblem` (see `toggleUpvote`) makes to the
document: the spec's toggle adds `userId` to the upvoters if absent and increments
`upvoteCount`, or removes it if present and decrements. -/
def applyToggle (problem : Problem) (userId : Nat) : Problem :=
  if userId ∈ problem.upvotes then
    { problem with
        upvotes := problem.upvotes.filter (fun u => u != userId),
        upvoteCount := problem.upvoteCount - 1 }
  else
    { problem with
        upvotes := problem.upvotes ++ [userId],
        upvoteCount := problem.upvoteCount + 1 }

/-- Modelled from the spec: `upvoteProblem` of `controllers/problemController.js`
(routed at `POST /problems/:id/upvote`), which is not among the sources. The spec's
`toggleUpvote(problemId, userId)` adds `userId` to the upvoters if absent and increments
`upvoteCount`, or removes it if present and decrements; it fails (here `none`) when the
problem is unknown and otherwise returns the new upvoted flag and the new count. -/
def toggleUpvote (s : Store) (problemId userId : Nat) : Store × Option (Bool × Int) :=
  match findById s.problems problemId with
  | none => (s, none)
  | some problem =>
    let updated := applyToggle problem userId
    ({ problems := saveProblem s.problems updated, users := s.users },
      some (decide (userId ∈ updated.upvotes), updated.upvoteCount))

/-- A request that mutates a problem: an upvote toggle or a status change. -/
inductive Op where
  | upvote (problemId userId : Nat)
  | statusChange (problemId userId : Nat) (now : Int) (body : UpdateBody)
deriving DecidableEq, Repr

/-- The store after one request. -/
def step (s : Store) : Op → Store
  | Op.upvote problemId userId => (toggleUpvote s problemId userId).1
  | Op.statusChange problemId userId now body => (updateProblemStatus s problemId userId now body).1

/-- The store after a sequence of requests, served one after the other. -/
def runOps (s : Store) (ops : List Op) : Store :=
  ops.foldl step s

/-- A problem as the schema defaults leave it at creation: status `pending`, priority
`medium`, no upvotes, `upvoteCount` 0, no resolution details. -/
def isNewProblem (p : Problem) : Bool :=
  p.status == "pending" && p.priority == "medium" && p.upvotes == [] && p.upvoteCount == 0
    && p.resolutionDetails == none

/-- A status change asks for a priority the schema accepts: none, or one of the `enum`. -/
def priorityAccepted (body : UpdateBody) : Bool :=
  !truthy body.priority || decide (body.priority.getD "" ∈ priorityEnum)

/-- The request `op` is a resolve request for problem `id` that the schema accepts. -/
def isAcceptedResolveOf (id : Nat) : Op → Bool
  | Op.upvote _ _ => false
  | Op.statusChange problemId _ _ body =>
      problemId == id && isResolveRequest body && priorityAccepted body

/-! ## Priority scoring (`controllers/aiController.js`) -/

/-- `Math.round`: the nearest integer, halves rounded up. -/
def mathRound (x : ℚ) : Int :=
  ⌊x + 1 / 2⌋

/-- The object literal `categoryWeights` of `calculatePriorityScore`. The schema admits
only these five categories for a stored problem, so no stored category names a property
the object inherits. -/
def categoryWeights : List (String × ℚ) :=
  [("electrical", 10), ("water", 8), ("waste", 6), ("street", 5), ("other", 3)]

/-- `calculatePriorityScore(problem)` in exact arithmetic, evaluated when the clock
`new Date()` reads `now`; `calculatePriorityScoreDouble` is the same computation on
doubles. -/
def calculatePriorityScore (now : Int) (problem : Problem) : ℚ :=
  let score0 : ℚ := 0
  let score1 := score0 + (problem.upvoteCount : ℚ) * 2
  let score2 := score1 + (categoryWeights.lookup problem.category).getD 0
  let daysOld : ℚ := ((now - problem.createdAt : Int) : ℚ) / (1000 * 60 * 60 * 24)
  let score3 := score2 + min (daysOld * (1 / 2)) 10
  let score4 := score3 + (problem.comments.length : ℚ) * (1 / 2)
  (mathRound (score4 * 100) : ℚ) / 100

/-- `getPriorityLevel(score)`. -/
def getPriorityLevel (score : ℚ) : String :=
  if score ≥ 20 then "critical"
  else if score ≥ 15 then "high"
  else if score ≥ 10 then "medium"
  else "low"

/-- An element of the ranked list: the problem with `priorityScore` and `priorityLevel`
attached. -/
structure PrioritizedProblem where
  problem : Problem
  priorityScore : ℚ
  priorityLevel : String
deriving DecidableEq, Repr

/-- The callback of `problems.map` in `prioritizeProblems`. The clock is read anew for each
problem; the readings within one request are taken to be the one instant `now`. -/
def attachPriority (now : Int) (problem : Problem) : PrioritizedProblem :=
  let priorityScore := calculatePriorityScore now problem
  { problem := problem, priorityScore := priorityScore,
    priorityLevel := getPriorityLevel priorityScore }

/-- The comparator `(a, b) => b.priorityScore - a.priorityScore` is not positive: `a` need
not move behind `b`. -/
def rankedBefore (a b : PrioritizedProblem) : Prop :=
  b.priorityScore ≤ a.priorityScore

instance : DecidableRel rankedBefore :=
  fun a b => inferInstanceAs (Decidable (b.priorityScore ≤ a.priorityScore))

instance : IsTotal PrioritizedProblem rankedBefore :=
  ⟨fun a b => le_total b.priorityScore a.priorityScore⟩

instance : IsTrans PrioritizedProblem rankedBefore :=
  ⟨fun _ _ _ hab hbc => le_trans hbc hab⟩

/-- `Array.prototype.sort` with the comparator of `prioritizeProblems`. The sort is stable,
which fixes its result; insertion sort computes it. -/
def sortByScore (l : List PrioritizedProblem) : List PrioritizedProblem :=
  l.insertionSort rankedBefore

/-- The array `prioritized` of `prioritizeProblems`: the pending problems, in the order
the store returns them, scored and sorted. -/
def prioritized (s : Store) (now : Int) : List PrioritizedProblem :=
  sortByScore ((s.problems.filter (fun p => p.status == "pending")).map (attachPriority now))

/-- The `data` of the response of `prioritizeProblems`. -/
structure PrioritizeResult where
  prioritizedProblems : List PrioritizedProblem
  totalCount : Nat
deriving DecidableEq, Repr

/-- `prioritizeProblems`: the first ten of the ranked pending problems and their number. -/
def prioritizeProblems (s : Store) (now : Int) : PrioritizeResult :=
  { prioritizedProblems := (prioritized s now).take 10,
    totalCount := (prioritized s now).length }

/-- The score the spec writes out, for a category with weight `w`: twice the upvotes, the
weight, half the age in days capped at 10, half the number of comments, rounded to two
decimal places. -/
def specPriorityScore (upvoteCount : Int) (w : ℚ) (ageInDays : ℚ) (comments : Nat) : ℚ :=
  (⌊(2 * (upvoteCount : ℚ) + w + min (ageInDays / 2) 10 + (comments : ℚ) / 2) * 100
      + 1 / 2⌋ : ℚ) / 100

/-- The weights the spec lists for the five categories. -/
def specCategoryWeight (category : String) : ℚ :=
  if category = "electrical" then 10
  else if category = "water" then 8
  else if category = "waste" then 6
  else if category = "street" then 5
  else 3

/-- The age of a problem in days when the clock reads `now`. -/
def ageInDays (now : Int) (problem : Problem) : ℚ :=
  ((now - problem.createdAt : Int) : ℚ) / 86400000

/-! ## Double-precision numbers -/

/-- A finite IEEE 754 double: the number `mant * 2 ^ exp`. A result of the operations
below is zero, written `0 * 2 ^ 0`, or has a significand of exactly 53 bits. The exponent
is not bounded: overflow, subnormal numbers, infinities, `NaN` and the sign of zero are
not modelled; the scores and day counts computed here stay far from those ranges. -/
structure Dbl where
  mant : Int
  exp : Int
deriving DecidableEq, Repr

/-- The rational number a double stands for. -/
def Dbl.toRat (x : Dbl) : ℚ :=
  (x.mant : ℚ) * (2 : ℚ) ^ x.exp

/-- The binary digits of `n`, counted by halving at most `fuel` times. -/
def bitLengthAux : Nat → Nat → Nat
  | 0, _ => 0
  | fuel + 1, n => if n = 0 then 0 else bitLengthAux fuel (n / 2) + 1

/-- The number of binary digits of a natural number. -/
def bitLength (n : Nat) : Nat :=
  bitLengthAux n n

/-- Whether `2 ^ k ≤ a / d`. -/
def reaches (a d : Nat) (k : Int) : Bool :=
  if 0 ≤ k then decide (d * 2 ^ k.toNat ≤ a) else decide (d ≤ a * 2 ^ (-k).toNat)

/-- The exponent `e` with `2 ^ (e + 52) ≤ a / d < 2 ^ (e + 53)`, for positive `a` and `d`:
the exponent of the unit in the last place of a 53-bit significand for `a / d`. -/
def significandExp (a d : Nat) : Int :=
  let guess : Int := (bitLength a : Int) - (bitLength d : Int)
  (if reaches a d guess then guess else guess - 1) - 52

/-- The integer nearest to `num / den`, a tie going to the even one. -/
def roundQuotient (num den : Nat) : Nat :=
  let q := num / den
  let r := num % den
  if 2 * r < den then q
  else if den < 2 * r then q + 1
  else if q % 2 = 0 then q else q + 1

/-- The double nearest to `n / d` for `d > 0`, a tie going to the even significand: the
rounding every arithmetic operation on doubles ends with, and the value of a decimal
literal such as `0.7`, the double nearest to `7 / 10`. -/
def roundRatio (n : Int) (d : Nat) : Dbl :=
  if n = 0 then { mant := 0, exp := 0 }
  else
    let a := n.natAbs
    let e := significandExp a d
    let m := roundQuotient (a * 2 ^ (-e).toNat) (d * 2 ^ e.toNat)
    let sign : Int := if n < 0 then -1 else 1
    if m = 2 ^ 53 then { mant := sign * 2 ^ 52, exp := e + 1 }
    else { mant := sign * (m : Int), exp := e }

/-- The double nearest to `m * 2 ^ e`. -/
def roundDyadic (m e : Int) : Dbl :=
  if 0 ≤ e then roundRatio (m * 2 ^ e.toNat) 1 else roundRatio m (2 ^ (-e).toNat)

/-- The double of an integer: exact below `2 ^ 53` in absolute value. -/
def Dbl.ofInt (n : Int) : Dbl :=
  roundRatio n 1

/-- The sum `x + y`: the exact sum, rounded; a zero operand leaves the other as it is. -/
def Dbl.add (x y : Dbl) : Dbl :=
  if x.mant = 0 then y
  else if y.mant = 0 then x
  else
    let e := min x.exp y.exp
    roundDyadic (x.mant * 2 ^ (x.exp - e).toNat + y.mant * 2 ^ (y.exp - e).toNat) e

/-- The product `x * y`: the exact product, rounded. -/
def Dbl.mul (x y : Dbl) : Dbl :=
  roundDyadic (x.mant * y.mant) (x.exp + y.exp)

/-- The quotient `x / y` for `y` other than zero: the exact quotient, rounded. -/
def Dbl.div (x y : Dbl) : Dbl :=
  let e := x.exp - y.exp
  let n : Int := if y.mant < 0 then -x.mant else x.mant
  if 0 ≤ e then roundRatio (n * 2 ^ e.toNat) y.mant.natAbs
  else roundRatio n (y.mant.natAbs * 2 ^ (-e).toNat)

/-- The comparison `x <= y`. -/
def Dbl.le (x y : Dbl) : Bool :=
  let e := min x.exp y.exp
  decide (x.mant * 2 ^ (x.exp - e).toNat ≤ y.mant * 2 ^ (y.exp - e).toNat)

/-- `Math.min(x, y)`. -/
def Dbl.mathMin (x y : Dbl) : Dbl :=
  if x.le y then x else y

/-- `Math.round(x)`: the integer `⌊x + 1/2⌋`, computed exactly. -/
def Dbl.round (x : Dbl) : Int :=
  if 0 ≤ x.exp then x.mant * 2 ^ x.exp.toNat
  else (2 * x.mant + 2 ^ (-x.exp).toNat) / (2 * 2 ^ (-x.exp).toNat)

/-- The double `x` is the double nearest to the rational `q`, a tie going to the even
significand: with `e` the exponent for which `2 ^ (e + 52) ≤ |q| < 2 ^ (e + 53)`, `x` is an
integer multiple `m * 2 ^ e` at most `2 ^ e / 2` away from `q`, with `m` even when it is
exactly that far away; and `x` is written with a significand of exactly 53 bits. -/
def IsNearest (x : Dbl) (q : ℚ) : Prop :=
  2 ^ 52 ≤ x.mant.natAbs ∧ x.mant.natAbs < 2 ^ 53
    ∧ ∃ e m : Int, (2 : ℚ) ^ (e + 52) ≤ |q| ∧ |q| < (2 : ℚ) ^ (e + 53)
        ∧ x.toRat = (m : ℚ) * (2 : ℚ) ^ e
        ∧ |x.toRat - q| ≤ (2 : ℚ) ^ (e - 1)
        ∧ (|x.toRat - q| = (2 : ℚ) ^ (e - 1) → 2 ∣ m)

/-! ## Priority scoring in double precision -/

/-- The product `1000 * 60 * 60 * 24`, the milliseconds of a day. -/
def millisecondsPerDay : Dbl :=
  (((Dbl.ofInt 1000).mul (Dbl.ofInt 60)).mul (Dbl.ofInt 60)).mul (Dbl.ofInt 24)

/-- The object literal `categoryWeights` of `calculatePriorityScore`, its values as the
doubles they are. -/
def categoryWeightsDouble : List (String × Dbl) :=
  [("electrical", Dbl.ofInt 10), ("water", Dbl.ofInt 8), ("waste", Dbl.ofInt 6),
   ("street", Dbl.ofInt 5), ("other", Dbl.ofInt 3)]

/-- `calculatePriorityScore(problem)` as the engine computes it, evaluated when the clock
`new Date()` reads `now`: every number is a double and every operation rounds its result
to the nearest double. -/
def calculatePriorityScoreDouble (now : Int) (problem : Problem) : Dbl :=
  let score0 := Dbl.ofInt 0
  let score1 := score0.add ((Dbl.ofInt problem.upvoteCount).mul (Dbl.ofInt 2))
  let score2 := score1.add ((categoryWeightsDouble.lookup problem.category).getD (Dbl.ofInt 0))
  let daysOld := (Dbl.ofInt (now - problem.createdAt)).div millisecondsPerDay
  let score3 := score2.add (Dbl.mathMin (daysOld.mul (roundRatio 1 2)) (Dbl.ofInt 10))
  let score4 := score3.add ((Dbl.ofInt problem.comments.length).mul (roundRatio 1 2))
  (Dbl.ofInt (Dbl.round (score4.mul (Dbl.ofInt 100)))).div (Dbl.ofInt 100)

/-- The score the spec writes out, for a category with weight `w`, with its operations
carried out on doubles from left to right: twice the upvotes, plus the weight, plus half
the age in days capped at 10, plus half the number of comments; the sum is multiplied by
100, rounded to the nearest integer and divided by 100. -/
def specPriorityScoreDouble (upvoteCount : Int) (w ageInDays : Dbl) (comments : Nat) : Dbl :=
  let sum :=
    ((((Dbl.ofInt 2).mul (Dbl.ofInt upvoteCount)).add w).add
        (Dbl.mathMin ((roundRatio 1 2).mul ageInDays) (Dbl.ofInt 10))).add
      ((roundRatio 1 2).mul (Dbl.ofInt comments))
  (Dbl.ofInt (Dbl.round (sum.mul (Dbl.ofInt 100)))).div (Dbl.ofInt 100)

/-- The weights the spec lists for the five categories, as doubles. -/
def specCategoryWeightDouble (category : String) : Dbl :=
  if category = "electrical" then Dbl.ofInt 10
  else if category = "water" then Dbl.ofInt 8
  else if category = "waste" then Dbl.ofInt 6
  else if category = "street" then Dbl.ofInt 5
  else Dbl.ofInt 3

/-- The age of a problem in days when the clock reads `now`, as a double. -/
def ageInDaysDouble (now : Int) (problem : Problem) : Dbl :=
  (Dbl.ofInt (now - problem.createdAt)).div (Dbl.ofInt 86400000)

/-! ## Text similarity (`controllers/aiController.js`) -/

/-- The class `\w` of the regular expression: `[A-Za-z0-9_]`. -/
def isWordChar (c : Char) : Bool :=
  c.isAlphanum || c == '_'

/-- The scan behind `split(/\W+/)`: `inSeparator` tells whether the previous character
belonged to a run of non-word characters. The head of the result is the piece being read. -/
def splitNonWordAux : List Char → Bool → List (List Char)
  | [], _ => [[]]
  | c :: cs, inSeparator =>
    if isWordChar c then
      match splitNonWordAux cs false with
      | piece :: pieces => (c :: piece) :: pieces
      | [] => [[c]]
    else if inSeparator then splitNonWordAux cs true
    else [] :: splitNonWordAux cs true

/-- The call `text.split(/\W+/)`: the pieces between the maximal runs of non-word characters;
a leading or trailing run leaves an empty piece, and the empty string gives one empty
piece. -/
def splitNonWord (text : String) : List String :=
  (splitNonWordAux text.toList false).map String.mk

/-- The constructor `new Set(array)`: the distinct elements, in order of first occurrence. -/
def mkSet (xs : List String) : List String :=
  xs.foldl (fun acc x => if x ∈ acc then acc else acc ++ [x]) []

/-- `calculateSimilarity(text1, text2)`: the size of the intersection of the two word sets
over the size of their union. -/
def calculateSimilarity (toLowerCase : String → String) (text1 text2 : String) : ℚ :=
  let words1 := mkSet (splitNonWord (toLowerCase text1))
  let words2 := mkSet (splitNonWord (toLowerCase text2))
  let intersection := mkSet (words1.filter (fun x => decide (x ∈ words2)))
  let union := mkSet (words1 ++ words2)
  (intersection.length : ℚ) / (union.length : ℚ)

/-- Lower-casing of the letters `A` to `Z`, on which every `toLowerCase` agrees. -/
def asciiLower (text : String) : String :=
  String.mk (text.toList.map Char.toLower)

/-- The word tokens the spec speaks of: the maximal runs of word characters of a text,
obtained by cutting it at every non-word character and dropping the empty pieces. -/
def wordTokens (text : String) : List String :=
  ((text.toList.splitOnP (fun c => !isWordChar c)).filter (fun run => !run.isEmpty)).map String.mk

/-- The similarity the spec writes out: the Jaccard quotient of the sets of lower-cased
word tokens of the two texts. -/
def jaccardOfTokens (toLowerCase : String → String) (text1 text2 : String) : ℚ :=
  let tokens1 := mkSet (wordTokens (toLowerCase text1))
  let tokens2 := mkSet (wordTokens (toLowerCase text2))
  ((mkSet (tokens1.filter (fun x => decide (x ∈ tokens2)))).length : ℚ)
    / ((mkSet (tokens1 ++ tokens2)).length : ℚ)

/-! ## Duplicate check (`controllers/aiController.js`) -/

/-- The fields `checkDuplicates` reads from `req.body`; `municipality` is
`location.municipality`. -/
structure Draft where
  title : String
  description : String
  category : String
  municipality : String
deriving DecidableEq, Repr

/-- The `data` of the response of `checkDuplicates`. -/
structure DuplicateResult where
  isDuplicate : Bool
  similarProblems : List Problem
  similarityScore : ℚ
deriving DecidableEq, Repr

/-- The query of `checkDuplicates`: same category, same municipality, status `pending` or
`in_progress`. -/
def isCandidate (draft : Draft) (problem : Problem) : Bool :=
  problem.category == draft.category && problem.municipality == draft.municipality
    && (problem.status == "pending" || problem.status == "in_progress")

/-- The callback of `similarProblems.filter` in `checkDuplicates`. -/
def isSimilar (toLowerCase : String → String) (draft : Draft) (problem : Problem) : Bool :=
  let titleSimilarity := calculateSimilarity toLowerCase draft.title problem.title
  let descSimilarity := calculateSimilarity toLowerCase draft.description problem.description
  decide (titleSimilarity > 7 / 10) || decide (descSimilarity > 6 / 10)

/-- `checkDuplicates`: the candidates the query returns, filtered by similarity; the flag,
the first three of them and the fixed score 0.8 (0 when there is none). -/
def checkDuplicates (toLowerCase : String → String) (s : Store) (draft : Draft) :
    DuplicateResult :=
  let similarProblems := s.problems.filter (isCandidate draft)
  let duplicates := similarProblems.filter (isSimilar toLowerCase draft)
  { isDuplicate := decide (duplicates.length > 0),
    similarProblems := duplicates.take 3,
    similarityScore := if duplicates.length > 0 then 8 / 10 else 0 }

/-! ## Resolution time prediction (`controllers/aiController.js`) -/

/-- The callback of `problems.reduce` in `calculateAverageResolution`: a problem with a
`resolvedAt` adds its resolution time in days, any other leaves the sum as it is. -/
def addResolutionDays (sum : ℚ) (problem : Problem) : ℚ :=
  match problem.resolutionDetails.bind (fun d => d.resolvedAt) with
  | some resolvedAt =>
      let resolutionTime : Int := resolvedAt - problem.createdAt
      sum + (resolutionTime : ℚ) / (1000 * 60 * 60 * 24)
  | none => sum

/-- `calculateAverageResolution(problems)` in exact arithmetic: 7 for no problem, else the
rounded quotient of the summed days by the number of problems;
`calculateAverageResolutionDouble` is the same computation on doubles. -/
def calculateAverageResolution (problems : List Problem) : ℚ :=
  if problems.length = 0 then 7
  else
    let totalDays := problems.foldl addResolutionDays 0
    (mathRound (totalDays / (problems.length : ℚ)) : ℚ)

/-- The object literal `multipliers` of `adjustForPriority`. -/
def multipliers : List (String × ℚ) :=
  [("critical", 1 / 2), ("high", 7 / 10), ("medium", 1), ("low", 13 / 10)]

/-- The property names an object literal inherits from `Object.prototype`: looked up in
`multipliers` they give a function or an object, which is truthy and not a number. -/
def objectPrototypeKeys : List String :=
  ["constructor", "toString", "toLocaleString", "valueOf", "hasOwnProperty",
   "isPrototypeOf", "propertyIsEnumerable", "__proto__", "__defineGetter__",
   "__defineSetter__", "__lookupGetter__", "__lookupSetter__"]

/-- `adjustForPriority(avgDays, priority)`; `priority` is `none` when the request has none.
The factor `multipliers[priority] || 1` is the listed multiplier (all are non-zero), 1 for
a key the object does not have, and for an inherited key a value whose product with
`avgDays` is `NaN`: the result is then `none`, `Math.round(NaN)`. The product is exact
here; `adjustForPriorityDouble` forms it on doubles. -/
def adjustForPriority (avgDays : ℚ) (priority : Option String) : Option Int :=
  match priority with
  | none => some (mathRound (avgDays * 1))
  | some q =>
    match multipliers.lookup q with
    | some k => some (mathRound (avgDays * k))
    | none =>
      if q ∈ objectPrototypeKeys then none else some (mathRound (avgDays * 1))

/-- `calculateConfidence(sampleSize)`. -/
def calculateConfidence (sampleSize : Nat) : ℚ :=
  min (3 / 10 + (sampleSize : ℚ) * (7 / 100)) (95 / 100)

/-- The `data` of the response of `predictResolutionTime`; `predictedDays` is `none` when
it is `NaN` (sent as `null`). -/
structure Prediction where
  predictedDays : Option Int
  confidence : ℚ
  basedOnPastCases : Nat
deriving DecidableEq, Repr

/-- The query of `predictResolutionTime`: the resolved problems of the category and
municipality. -/
def resolvedPool (s : Store) (category municipality : String) : List Problem :=
  s.problems.filter (fun p =>
    p.category == category && p.municipality == municipality && p.status == "resolved")

/-- `predictResolutionTime`; the handler answers 200 with this `data` for every request. -/
def predictResolutionTime (s : Store) (category municipality : String)
    (priority : Option String) : Prediction :=
  let similarResolved := resolvedPool s category municipality
  let avgResolutionTime := calculateAverageResolution similarResolved
  let predictedTime := adjustForPriority avgResolutionTime priority
  { predictedDays := predictedTime,
    confidence := calculateConfidence similarResolved.length,
    basedOnPastCases := similarResolved.length }

/-- The resolution time of a problem in days; 0 when it has no `resolvedAt`. -/
def resolutionDays (problem : Problem) : ℚ :=
  match problem.resolutionDetails.bind (fun d => d.resolvedAt) with
  | some resolvedAt => ((resolvedAt - problem.createdAt : Int) : ℚ) / 86400000
  | none => 0

/-- The exact mean the spec speaks of: the mean of `resolvedAt - createdAt` in days over
the pool, not rounded. -/
def meanResolutionDays (pool : List Problem) : ℚ :=
  (pool.map resolutionDays).sum / (pool.length : ℚ)

/-! ## Resolution time prediction in double precision -/

/-- The callback of `problems.reduce` in `calculateAverageResolution`, on doubles. -/
def addResolutionDaysDouble (sum : Dbl) (problem : Problem) : Dbl :=
  match problem.resolutionDetails.bind (fun d => d.resolvedAt) with
  | some resolvedAt =>
      let resolutionTime : Int := resolvedAt - problem.createdAt
      sum.add ((Dbl.ofInt resolutionTime).div millisecondsPerDay)
  | none => sum

/-- `calculateAverageResolution(problems)` as the engine computes it: 7 for no problem,
else the sum of the days, each division and addition rounded to a double, divided by the
number of problems and rounded to an integer. -/
def calculateAverageResolutionDouble (problems : List Problem) : Dbl :=
  if problems.length = 0 then Dbl.ofInt 7
  else
    let totalDays := problems.foldl addResolutionDaysDouble (Dbl.ofInt 0)
    Dbl.ofInt (Dbl.round (totalDays.div (Dbl.ofInt problems.length)))

/-- The object literal `multipliers` of `adjustForPriority`, its values as the doubles the
literals `0.5`, `0.7`, `1` and `1.3` denote. -/
def multipliersDouble : List (String × Dbl) :=
  [("critical", roundRatio 1 2), ("high", roundRatio 7 10), ("medium", Dbl.ofInt 1),
   ("low", roundRatio 13 10)]

/-- `adjustForPriority(avgDays, priority)` as the engine computes it: the product is a
double, rounded to an integer; `none` is `NaN`, as in `adjustForPriority`. -/
def adjustForPriorityDouble (avgDays : Dbl) (priority : Option String) : Option Int :=
  match priority with
  | none => some (Dbl.round (avgDays.mul (Dbl.ofInt 1)))
  | some q =>
    match multipliersDouble.lookup q with
    | some k => some (Dbl.round (avgDays.mul k))
    | none =>
      if q ∈ objectPrototypeKeys then none
      else some (Dbl.round (avgDays.mul (Dbl.ofInt 1)))

/-- The field `predictedDays` of the response of `predictResolutionTime` as the engine
computes it. -/
def predictedDaysDouble (s : Store) (category municipality : String)
    (priority : Option String) : Option Int :=
  let similarResolved := resolvedPool s category municipality
  let avgResolutionTime := calculateAverageResolutionDouble similarResolved
  adjustForPriorityDouble avgResolutionTime priority

/-- The resolution time of a problem in days, as a double; none when the problem has no
`resolvedAt`. -/
def resolutionDaysDouble (problem : Problem) : Option Dbl :=
  (problem.resolutionDetails.bind (fun d => d.resolvedAt)).map (fun resolvedAt =>
    (Dbl.ofInt (resolvedAt - problem.createdAt)).div (Dbl.ofInt 86400000))

/-- The mean the engine can form: the resolution times in days of the problems that have
a `resolvedAt`, added up in pool order in double arithmetic, divided by the number of
problems of the pool. -/
def meanResolutionDaysDouble (pool : List Problem) : Dbl :=
  ((pool.filterMap resolutionDaysDouble).foldl Dbl.add (Dbl.ofInt 0)).div
    (Dbl.ofInt pool.length)

/-! ## Department assignment (`controllers/aiController.js`) -/

/-- The operator `x || 0` on a number: `none` stands for `NaN`, the product with the
field of a missing `workload`. -/
def orZero : Option ℚ → ℚ
  | some v => if v = 0 then 0 else v
  | none => 0

/-- `calculateWorkloadScore(department)`. A user document without `workload` (the user
schema declares no such path) has penalty and bonus 0 and so scores 100. -/
def calculateWorkloadScore (department : User) : ℚ :=
  let baseScore : ℚ := 100
  let workloadPenalty := orZero (department.workload.map (fun w => w.activeCases * 5))
  let completionRateBonus := orZero (department.workload.map (fun w => w.completionRate * 20))
  max 0 (baseScore - workloadPenalty + completionRateBonus)

/-- The object `suggestedDepartment` of the response (`contact` is not a path of the user
schema and is left out). -/
structure SuggestedDepartment where
  id : Nat
  name : String
  department : String
  workload : Option Workload
deriving DecidableEq, Repr

/-- An element of `alternativeDepartments`. -/
structure AlternativeDepartment where
  id : Nat
  name : String
  score : ℚ
deriving DecidableEq, Repr

/-- The `data` of the 200 response of `suggestDepartmentAssignment`. -/
structure Suggestion where
  suggestedDepartment : SuggestedDepartment
  assignmentScore : ℚ
  alternativeDepartments : List AlternativeDepartment
deriving DecidableEq, Repr

/-- The outcomes of `suggestDepartmentAssignment`: 404 for no department, 200 with the
suggestion, 500 (the problem does not exist, so reading its category throws). -/
inductive SuggestResponse where
  | noDepartments
  | ok (data : Suggestion)
  | serverError
deriving DecidableEq, Repr

/-- A user as the query hands it to the handler. A document exposes the paths that
`userSchema` declares; `workload` is not one of them, and `populate("workload")`, naming a
path without a reference, supplies nothing: whatever a stored user carries under that
name, `department.workload` reads `undefined`. -/
def hydrateUser (u : User) : User :=
  { u with workload := none }

/-- The query of `suggestDepartmentAssignment`: the users of role `department` whose
department is the category of the problem and whose municipality is its municipality, in
stored order, each as the document the handler sees. -/
def findDepartments (s : Store) (problem : Problem) : List User :=
  (s.users.filter (fun u =>
    u.role == "department" && u.department == problem.category
      && u.municipality == problem.municipality)).map hydrateUser

/-- The callback of `departments.reduce`: the current department replaces the best one
only when it scores strictly more. -/
def betterOf (best current : User) : User :=
  let currentScore := calculateWorkloadScore current
  let bestScore := calculateWorkloadScore best
  if currentScore > bestScore then current else best

/-- The call `departments.reduce(callback)` without initial value, on a non-empty array:
the first department is the first best one. -/
def selectDepartment (first : User) (others : List User) : User :=
  others.foldl betterOf first

/-- `suggestDepartmentAssignment` for the problem of id `id`. -/
def suggestDepartmentAssignment (s : Store) (id : Nat) : SuggestResponse :=
  match findById s.problems id with
  | none => SuggestResponse.serverError
  | some problem =>
    match findDepartments s problem with
    | [] => SuggestResponse.noDepartments
    | first :: others =>
      let suggestedDept := selectDepartment first others
      SuggestResponse.ok
        { suggestedDepartment :=
            { id := suggestedDept.id, name := suggestedDept.name,
              department := suggestedDept.department, workload := suggestedDept.workload },
          assignmentScore := calculateWorkloadScore suggestedDept,
          alternativeDepartments :=
            ((first :: others).take 3).map (fun dept =>
              { id := dept.id, name := dept.name, score := calculateWorkloadScore dept }) }

/-! ## Comment sentiment (`controllers/aiController.js`) -/

/-- The array `positiveWords` of `analyzeSentimentWithAI`. -/
def positiveWords : List String :=
  ["good", "great", "excellent", "thanks", "appreciate", "helpful", "quick", "efficient"]

/-- The array `negativeWords` of `analyzeSentimentWithAI`. -/
def negativeWords : List String :=
  ["bad", "terrible", "awful", "slow", "useless", "waste", "never", "failed"]

/-- The callback of `words.forEach`, on the pair of counters `positiveCount` and
`negativeCount`. -/
def countWord (counts : Nat × Nat) (word : String) : Nat × Nat :=
  (if word ∈ positiveWords then counts.1 + 1 else counts.1,
   if word ∈ negativeWords then counts.2 + 1 else counts.2)

/-- The object `analyzeSentimentWithAI` returns. -/
structure Sentiment where
  sentiment : String
  score : ℚ
  positiveWords : Nat
  negativeWords : Nat
deriving DecidableEq, Repr

/-- `analyzeSentimentWithAI(text)`. -/
def analyzeSentimentWithAI (toLowerCase : String → String) (text : String) : Sentiment :=
  let words := splitNonWord (toLowerCase text)
  let counts := words.foldl countWord (0, 0)
  let positiveCount := counts.1
  let negativeCount := counts.2
  let total := positiveCount + negativeCount
  let score : ℚ :=
    if total > 0 then ((positiveCount : ℚ) - (negativeCount : ℚ)) / (total : ℚ) else 0
  { sentiment := if score > 0 then "positive" else if score < 0 then "negative" else "neutral",
    score := score,
    positiveWords := positiveCount,
    negativeWords := negativeCount }

/-- The `data` of the response of `analyzeCommentSentiment`. -/
structure SentimentResult where
  sentiment : String
  score : ℚ
  isPositive : Bool
  isNegative : Bool
  isNeutral : Bool
deriving DecidableEq, Repr

/-- `analyzeCommentSentiment` for the text of the request. -/
def analyzeCommentSentiment (toLowerCase : String → String) (text : String) :
    SentimentResult :=
  let sentiment := analyzeSentimentWithAI toLowerCase text
  { sentiment := sentiment.sentiment,
    score := sentiment.score,
    isPositive := decide (sentiment.score > 3 / 10),
    isNegative := decide (sentiment.score < -(3 / 10)),
    isNeutral := decide (sentiment.score ≥ -(3 / 10)) && decide (sentiment.score ≤ 3 / 10) }

/-! ## Sample data -/

/-- A freshly reported waste problem. -/
def sampleProblem : Problem :=
  { id := 1, title := "Garbage overflow near market",
    description := "Bins are overflowing", category := "waste",
    municipality := "Butwal", ward := 4, reporter := 7, status := "pending",
    priority := "medium", upvotes := [], upvoteCount := 0, comments := [],
    assignedTo := none, resolutionDetails := none, createdAt := 0 }

/-- The reporter of `sampleProblem`. -/
def sampleReporter : User :=
  { id := 7, name := "Asha", points := 0, role := "user", department := "",
    municipality := "Butwal", workload := none }

/-- A store holding `sampleProblem` and its reporter. -/
def sampleStore : Store :=
  { problems := [sampleProblem], users := [sampleReporter] }

/-- A resolution payload with a description only. -/
def samplePayload : ResolutionDetails :=
  { resolvedAt := none, resolvedBy := none, resolutionImages := [],
    resolutionDescription := some "Bins emptied", costIncurred := none }

/-- A request body that only sets the status. -/
def statusOnly (status : String) : UpdateBody :=
  { status := some status, assignedTo := none, priority := none, resolutionDetails := none }

/-- A resolve request carrying `samplePayload`. -/
def resolveBody : UpdateBody :=
  { status := some "resolved", assignedTo := none, priority := none,
    resolutionDetails := some samplePayload }

/-- Two pending street problems of equal score, both older than twenty days; the store
returns the one created later first. -/
def tiedStore : Store :=
  { problems :=
      [{ sampleProblem with id := 2, category := "street", createdAt := 86400000 },
       { sampleProblem with id := 3, category := "street", createdAt := 0 }],
    users := [sampleReporter] }

/-- A clock reading thirty days after the epoch. -/
def thirtyDays : Int := 30 * 86400000

/-- The entry of the ranked list for the problem of `tiedStore` created later. -/
def tiedEntryLater : PrioritizedProblem :=
  { problem := { sampleProblem with id := 2, category := "street", createdAt := 86400000 },
    priorityScore := 15, priorityLevel := "high" }

/-- The entry of the ranked list for the problem of `tiedStore` created earlier. -/
def tiedEntryEarlier : PrioritizedProblem :=
  { problem := { sampleProblem with id := 3, category := "street", createdAt := 0 },
    priorityScore := 15, priorityLevel := "high" }

/-- A waste problem with 10 upvotes and 3 comments, created at the epoch. -/
def scoredProblem : Problem :=
  { sampleProblem with
      upvotes := [11, 12, 13, 14, 15, 16, 17, 18, 19, 20], upvoteCount := 10,
      comments :=
        [{ user := some 11, text := "still there", isAnonymous := false, createdAt := 10 },
         { user := none, text := "smells", isAnonymous := true, createdAt := 20 },
         { user := some 12, text := "please fix", isAnonymous := false, createdAt := 30 }] }

/-- A store whose only problem is already resolved. -/
def resolvedStore : Store :=
  (updateProblemStatus sampleStore 1 9 1000 resolveBody).1

/-- A draft with the title and description of `sampleProblem`. -/
def sampleDraft : Draft :=
  { title := "Garbage overflow near market", description := "Bins are overflowing",
    category := "waste", municipality := "Butwal" }

/-- A pending problem whose title is close to that of `sampleDraft` and whose description
shares no word with it. -/
def nearDuplicate (id : Nat) : Problem :=
  { sampleProblem with id := id, title := "Garbage overflow near the market",
                       description := "Smell" }

/-- Three near duplicates of `sampleDraft`, then `sampleProblem`, whose title and
description are those of the draft. -/
def duplicateStore : Store :=
  { problems := [nearDuplicate 2, nearDuplicate 3, nearDuplicate 4, sampleProblem],
    users := [sampleReporter] }

/-- A waste problem of Butwal resolved a day and a half after its creation. -/
def resolvedProblem : Problem :=
  { sampleProblem with
      id := 5, status := "resolved",
      resolutionDetails :=
        some { samplePayload with resolvedAt := some 129600000, resolvedBy := some 9 } }

/-- A store whose only problem is `resolvedProblem`. -/
def historyStore : Store :=
  { problems := [resolvedProblem], users := [sampleReporter] }

/-- Department A of the spec, as a stored user: 2 active cases, completion rate 0.9. -/
def deptA : User :=
  { id := 21, name := "A", points := 0, role := "department", department := "waste",
    municipality := "Butwal", workload := some { activeCases := 2, completionRate := 9 / 10 } }

/-- Department B of the spec, as a stored user: no active case, completion rate 0.5. -/
def deptB : User :=
  { id := 22, name := "B", points := 0, role := "department", department := "waste",
    municipality := "Butwal", workload := some { activeCases := 0, completionRate := 1 / 2 } }

/-- `sampleProblem` with the departments A and B, A first. -/
def deptStoreAB : Store :=
  { problems := [sampleProblem], users := [sampleReporter, deptA, deptB] }

/-- `sampleProblem` with the departments A and B, B first. -/
def deptStoreBA : Store :=
  { problems := [sampleProblem], users := [deptB, sampleReporter, deptA] }

/-- A stored department with 4 active cases and completion rate 1: score 100. -/
def deptBusy : User :=
  { id := 23, name := "Busy", points := 0, role := "department", department := "waste",
    municipality := "Butwal", workload := some { activeCases := 4, completionRate := 1 } }

/-- A stored department with no active case and completion rate 0: score 100. -/
def deptIdle : User :=
  { id := 24, name := "Idle", points := 0, role := "department", department := "waste",
    municipality := "Butwal", workload := some { activeCases := 0, completionRate := 0 } }

/-- `sampleProblem` with two departments of equal score, the busier one first. -/
def deptStoreTie : Store :=
  { problems := [sampleProblem], users := [deptBusy, deptIdle] }

/-- An electrical problem without upvotes or comments, created at the epoch. -/
def electricalProblem : Problem :=
  { sampleProblem with id := 8, category := "electrical" }

/-- A water problem with 3 comments and no upvote, created at the epoch. -/
def waterProblem : Problem :=
  { sampleProblem with
      id := 9, category := "water",
      comments :=
        [{ user := some 11, text := "no water", isAnonymous := false, createdAt := 10 },
         { user := none, text := "dry tap", isAnonymous := true, createdAt := 20 },
         { user := some 12, text := "please fix", isAnonymous := false, createdAt := 30 }] }

/-- A waste problem of Butwal resolved `ms` milliseconds after its creation. -/
def resolvedAfter (id : Nat) (ms : Int) : Problem :=
  { sampleProblem with
      id := id, status := "resolved",
      resolutionDetails :=
        some { samplePayload with resolvedAt := some ms, resolvedBy := some 9 } }

/-- A store whose only problem was resolved after exactly 45 days. -/
def slowStore : Store :=
  { problems := [resolvedAfter 6 (45 * 86400000)], users := [sampleReporter] }

/-- A store of three problems resolved after 1.4, 2.8 and 3.3 days. -/
def mixedStore : Store :=
  { problems :=
      [resolvedAfter 31 120960000, resolvedAfter 32 241920000, resolvedAfter 33 285120000],
    users := [sampleReporter] }

/-- A resolution payload that itself supplies `resolvedAt` and `resolvedBy`. -/
def forgedPayload : ResolutionDetails :=
  { resolvedAt := some 1, resolvedBy := some 99, resolutionImages := ["after.jpg"],
    resolutionDescription := some "Bins emptied", costIncurred := some 250 }

/-- A resolve request carrying `forgedPayload`. -/
def forgedResolveBody : UpdateBody :=
  { status := some "resolved", assignedTo := none, priority := none,
    resolutionDetails := some forgedPayload }

/-- A request body that supplies only `assignedTo`. -/
def assignOnly (department : Nat) : UpdateBody :=
  { status := none, assignedTo := some department, priority := none,
    resolutionDetails := none }

/-! # Theorems

## Lemmas on the store -/

theorem findById_some_mem {problems : List Problem} {id : Nat} {p : Problem}
    (h : findById problems id = some p) : p ∈ problems ∧ p.id = id := by
  unfold findById at h
  have h1 := List.mem_of_find?_eq_some h
  have h2 := List.find?_some h
  exact ⟨h1, by simpa using h2⟩

theorem findById_saveProblem {problems : List Problem} {id : Nat} {p q : Problem}
    (h : findById problems id = some p) (hq : q.id = p.id) :
    findById (saveProblem problems q) id = some q := by
  have hid : p.id = id := (findById_some_mem h).2
  unfold findById saveProblem at *
  induction problems with
  | nil => simp at h
  | cons a l ih =>
    by_cases ha : a.id = id
    · simp [List.find?_cons, ha, hq, hid]
    · have hne : ¬ a.id = q.id := by rw [hq, hid]; exact ha
      have hb : (a.id == id) = false := by simpa using ha
      rw [List.find?_cons, hb] at h
      simp only [List.map_cons, if_neg hne, List.find?_cons, hb]
      exact ih h

theorem applyUpdate_status (p : Problem) (userId : Nat) (now : Int) (body : UpdateBody) :
    (applyUpdate p userId now body).status
      = if truthy body.status then body.status.getD "" else p.status := by
  unfold applyUpdate
  cases hb : body.status == some "resolved" <;> cases body.resolutionDetails <;>
    cases body.assignedTo <;> by_cases h1 : truthy body.status = true <;>
    by_cases h2 : truthy body.priority = true <;> simp [h1, h2]

theorem applyUpdate_priority (p : Problem) (userId : Nat) (now : Int) (body : UpdateBody) :
    (applyUpdate p userId now body).priority
      = if truthy body.priority then body.priority.getD "" else p.priority := by
  unfold applyUpdate
  cases hb : body.status == some "resolved" <;> cases body.resolutionDetails <;>
    cases body.assignedTo <;> by_cases h1 : truthy body.status = true <;>
    by_cases h2 : truthy body.priority = true <;> simp [h1, h2]

theorem applyUpdate_id (p : Problem) (userId : Nat) (now : Int) (body : UpdateBody) :
    (applyUpdate p userId now body).id = p.id := by
  unfold applyUpdate
  cases hb : body.status == some "resolved" <;> cases body.resolutionDetails <;>
    cases body.assignedTo <;> by_cases h1 : truthy body.status = true <;>
    by_cases h2 : truthy body.priority = true <;> simp [h1, h2]

theorem applyUpdate_reporter (p : Problem) (userId : Nat) (now : Int) (body : UpdateBody) :
    (applyUpdate p userId now body).reporter = p.reporter := by
  unfold applyUpdate
  cases hb : body.status == some "resolved" <;> cases body.resolutionDetails <;>
    cases body.assignedTo <;> by_cases h1 : truthy body.status = true <;>
    by_cases h2 : truthy body.priority = true <;> simp [h1, h2]

theorem truthy_of_mem_statusEnum {t : String} (ht : t ∈ statusEnum) : truthy (some t) = true := by
  simp only [statusEnum, List.mem_cons, List.mem_singleton, List.not_mem_nil, or_false] at ht
  rcases ht with h | h | h | h <;> subst h <;> decide

theorem applyUpdate_priority_mem (p : Problem) (userId : Nat) (now : Int) (body : UpdateBody)
    (hprio : p.priority ∈ priorityEnum) (hacc : priorityAccepted body = true) :
    (applyUpdate p userId now body).priority ∈ priorityEnum := by
  rw [applyUpdate_priority]
  by_cases h2 : truthy body.priority = true
  · rw [if_pos h2]; simpa [priorityAccepted, h2] using hacc
  · rw [if_neg h2]; exact hprio

theorem validateProblem_applyUpdate (p : Problem) (userId : Nat) (now : Int) (body : UpdateBody)
    (t : String) (ht : t ∈ statusEnum) (hbody : body.status = some t)
    (hprio : p.priority ∈ priorityEnum) (hacc : priorityAccepted body = true) :
    validateProblem (applyUpdate p userId now body) = true
      ∧ (applyUpdate p userId now body).status = t := by
  have htr : truthy body.status = true := by rw [hbody]; exact truthy_of_mem_statusEnum ht
  have hst : (applyUpdate p userId now body).status = t := by
    rw [applyUpdate_status, if_pos htr, hbody]; rfl
  have hpr := applyUpdate_priority_mem p userId now body hprio hacc
  exact ⟨by simp [validateProblem, hst, ht, hpr], hst⟩

theorem updateProblemStatus_of_valid (s : Store) (id userId : Nat) (now : Int)
    (body : UpdateBody) (p : Problem) (hfind : findById s.problems id = some p)
    (hval : validateProblem (applyUpdate p userId now body) = true) :
    updateProblemStatus s id userId now body
      = ({ problems := saveProblem s.problems (applyUpdate p userId now body),
           users := if isResolveRequest body then incPoints s.users p.reporter 10 else s.users },
         Response.ok (applyUpdate p userId now body)) := by
  simp [updateProblemStatus, hfind, hval]

theorem isResolveRequest_status {body : UpdateBody} (h : isResolveRequest body = true) :
    body.status = some "resolved" := by
  simp only [isResolveRequest, Bool.and_eq_true, beq_iff_eq] at h
  exact h.1

theorem pointsOf_incPoints (users : List User) (id : Nat) (n : Int)
    (h : ∃ u ∈ users, u.id = id) :
    pointsOf (incPoints users id n) id = pointsOf users id + n := by
  unfold pointsOf incPoints
  induction users with
  | nil => simp at h
  | cons a l ih =>
    by_cases ha : a.id = id
    · simp [List.find?_cons, ha]
    · have hb : (a.id == id) = false := by simpa using ha
      have h' : ∃ u ∈ l, u.id = id := by
        obtain ⟨u, hu, hid⟩ := h
        rcases List.mem_cons.1 hu with rfl | hu
        · exact absurd hid ha
        · exact ⟨u, hu, hid⟩
      simp only [List.map_cons, if_neg ha, List.find?_cons, hb]
      exact ih h'

theorem exists_user_incPoints (users : List User) (id id' : Nat) (n : Int)
    (h : ∃ u ∈ users, u.id = id) : ∃ u ∈ incPoints users id' n, u.id = id := by
  obtain ⟨u, hu, hid⟩ := h
  unfold incPoints
  refine ⟨_, List.mem_map.2 ⟨u, hu, rfl⟩, ?_⟩
  by_cases h' : u.id = id'
  · rw [if_pos h']; exact hid
  · rw [if_neg h']; exact hid

/-- C1 (as amended): a status change on a stored problem, a resolved or rejected one
included, to any of the four statuses and with a priority the schema accepts, is not
refused: the handler answers 200 and the stored problem has the requested status. -/
theorem updateProblemStatus_any_transition (s : Store) (id userId : Nat) (now : Int)
    (body : UpdateBody) (p : Problem) (t : String)
    (hfind : findById s.problems id = some p)
    (ht : t ∈ statusEnum) (hbody : body.status = some t)
    (hprio : p.priority ∈ priorityEnum) (hacc : priorityAccepted body = true) :
    ∃ p', (updateProblemStatus s id userId now body).2 = Response.ok p' ∧ p'.status = t
      ∧ findById (updateProblemStatus s id userId now body).1.problems id = some p' := by
  obtain ⟨hval, hst⟩ := validateProblem_applyUpdate p userId now body t ht hbody hprio hacc
  rw [updateProblemStatus_of_valid s id userId now body p hfind hval]
  exact ⟨_, rfl, hst, findById_saveProblem hfind (applyUpdate_id _ _ _ _)⟩

/-- C1 (witness): the only problem of `resolvedStore` is resolved and is set back to `pending`. -/
theorem updateProblemStatus_any_transition_witness :
    ∃ p', (updateProblemStatus resolvedStore 1 9 2000 (statusOnly "pending")).2 = Response.ok p'
      ∧ p'.status = "pending"
      ∧ findById (updateProblemStatus resolvedStore 1 9 2000 (statusOnly "pending")).1.problems 1
          = some p' :=
  updateProblemStatus_any_transition resolvedStore 1 9 2000 (statusOnly "pending")
    { sampleProblem with
        status := "resolved",
        resolutionDetails :=
          some { samplePayload with resolvedAt := some 1000, resolvedBy := some 9 } }
    "pending" (by decide) (by decide) (by decide) (by decide) (by decide)

/-- C1 (counterexample): the only problem of `resolvedStore` is resolved, yet a change to
`pending` is answered 200 with the status set to `pending`, and that is what is stored. -/
theorem updateProblemStatus_leaves_resolved :
    (findById resolvedStore.problems 1).map (fun p => p.status) = some "resolved"
      ∧ (updateProblemStatus resolvedStore 1 9 2000 (statusOnly "pending")).2
          = Response.ok
              { sampleProblem with
                  status := "pending",
                  resolutionDetails :=
                    some { samplePayload with resolvedAt := some 1000, resolvedBy := some 9 } }
      ∧ (findById
            (updateProblemStatus resolvedStore 1 9 2000 (statusOnly "pending")).1.problems 1).map
          (fun p => p.status) = some "pending" := by
  decide

/-- C2 (as amended): two resolve requests in a row on a stored problem, each with a
priority the schema accepts, are both answered 200, and each awards 10 points: the
balance of the reporter rises by 20 in total. -/
theorem resolve_twice_awards_twice (s : Store) (id user1 user2 : Nat) (now1 now2 : Int)
    (body1 body2 : UpdateBody) (p : Problem)
    (hfind : findById s.problems id = some p)
    (hreporter : ∃ u ∈ s.users, u.id = p.reporter)
    (h1 : isResolveRequest body1 = true) (h2 : isResolveRequest body2 = true)
    (hprio : p.priority ∈ priorityEnum)
    (hacc1 : priorityAccepted body1 = true) (hacc2 : priorityAccepted body2 = true) :
    (∃ p1, (updateProblemStatus s id user1 now1 body1).2 = Response.ok p1)
      ∧ (∃ p2, (updateProblemStatus (updateProblemStatus s id user1 now1 body1).1
            id user2 now2 body2).2 = Response.ok p2)
      ∧ pointsOf (updateProblemStatus (updateProblemStatus s id user1 now1 body1).1
            id user2 now2 body2).1.users p.reporter
          = pointsOf s.users p.reporter + 20 := by
  have hres : "resolved" ∈ statusEnum := by decide
  obtain ⟨hval1, _⟩ := validateProblem_applyUpdate p user1 now1 body1 "resolved" hres
    (isResolveRequest_status h1) hprio hacc1
  rw [updateProblemStatus_of_valid s id user1 now1 body1 p hfind hval1]
  have hfind1 := findById_saveProblem hfind (applyUpdate_id p user1 now1 body1)
  have hprio1 := applyUpdate_priority_mem p user1 now1 body1 hprio hacc1
  obtain ⟨hval2, _⟩ := validateProblem_applyUpdate (applyUpdate p user1 now1 body1) user2 now2
    body2 "resolved" hres (isResolveRequest_status h2) hprio1 hacc2
  rw [updateProblemStatus_of_valid _ id user2 now2 body2 _ hfind1 hval2]
  refine ⟨⟨_, rfl⟩, ⟨_, rfl⟩, ?_⟩
  simp only [h1, h2, if_true, applyUpdate_reporter]
  rw [pointsOf_incPoints _ _ _ (exists_user_incPoints _ _ _ _ hreporter),
    pointsOf_incPoints _ _ _ hreporter]
  ring

/-- C2 (witness): two resolve requests on `sampleStore` give the reporter 20 points. -/
theorem resolve_twice_awards_twice_witness :
    (∃ p1, (updateProblemStatus sampleStore 1 9 1000 resolveBody).2 = Response.ok p1)
      ∧ (∃ p2, (updateProblemStatus (updateProblemStatus sampleStore 1 9 1000 resolveBody).1
            1 9 2000 resolveBody).2 = Response.ok p2)
      ∧ pointsOf (updateProblemStatus (updateProblemStatus sampleStore 1 9 1000 resolveBody).1
            1 9 2000 resolveBody).1.users sampleProblem.reporter
          = pointsOf sampleStore.users sampleProblem.reporter + 20 :=
  resolve_twice_awards_twice sampleStore 1 9 9 1000 2000 resolveBody resolveBody sampleProblem
    (by decide) (by decide) (by decide) (by decide) (by decide) (by decide) (by decide)

/-- C2 (counterexample): `sampleProblem` is pending and its reporter has no points; after
two resolve requests in a row the second is answered 200 and the reporter has 20 points,
not 10. -/
theorem resolve_twice_not_ten :
    findById sampleStore.problems 1 = some sampleProblem
      ∧ sampleProblem.status = "pending" ∧ sampleProblem.reporter = 7
      ∧ pointsOf sampleStore.users 7 = 0
      ∧ (updateProblemStatus (updateProblemStatus sampleStore 1 9 1000 resolveBody).1
            1 9 2000 resolveBody).2
          = Response.ok
              { sampleProblem with
                  status := "resolved",
                  resolutionDetails :=
                    some { samplePayload with resolvedAt := some 2000, resolvedBy := some 9 } }
      ∧ pointsOf (updateProblemStatus (updateProblemStatus sampleStore 1 9 1000 resolveBody).1
            1 9 2000 resolveBody).1.users 7 = 20 := by
  decide

theorem findById_none_ne {problems : List Problem} {id : Nat}
    (h : findById problems id = none) : ∀ p ∈ problems, p.id ≠ id := by
  intro p hp hid
  unfold findById at h
  have := List.find?_eq_none.1 h p hp
  simp [hid] at this

theorem mem_saveProblem {problems : List Problem} {q p' : Problem} :
    p' ∈ saveProblem problems q ↔ ∃ p ∈ problems, (if p.id = q.id then q else p) = p' := by
  unfold saveProblem
  exact List.mem_map

theorem applyUpdate_resolutionDetails (p : Problem) (userId : Nat) (now : Int)
    (body : UpdateBody) :
    (applyUpdate p userId now body).resolutionDetails.isSome
      = (isResolveRequest body || p.resolutionDetails.isSome) := by
  unfold applyUpdate isResolveRequest
  cases hb : body.status == some "resolved" <;> cases body.resolutionDetails <;>
    cases body.assignedTo <;> by_cases h1 : truthy body.status = true <;>
    by_cases h2 : truthy body.priority = true <;> simp [h1, h2]

theorem priorityAccepted_of_valid (p : Problem) (userId : Nat) (now : Int) (body : UpdateBody)
    (hprio : p.priority ∈ priorityEnum) :
    priorityAccepted body = true
      ↔ (applyUpdate p userId now body).priority ∈ priorityEnum := by
  rw [applyUpdate_priority]
  by_cases h2 : truthy body.priority = true
  · simp [priorityAccepted, h2]
  · simp [priorityAccepted, h2, hprio]

theorem validateProblem_iff (p : Problem) :
    validateProblem p = true ↔ p.status ∈ statusEnum ∧ p.priority ∈ priorityEnum := by
  simp [validateProblem]

/-- One request keeps every stored problem valid, and a stored problem has resolution
details afterwards exactly when it had them or the request was an accepted resolve
request for it. -/
theorem step_resolutionDetails (s : Store) (op : Op) (H : Nat → Prop)
    (h : ∀ p ∈ s.problems,
      validateProblem p = true ∧ (p.resolutionDetails.isSome = true ↔ H p.id)) :
    ∀ p ∈ (step s op).problems,
      validateProblem p = true
        ∧ (p.resolutionDetails.isSome = true
            ↔ (H p.id ∨ isAcceptedResolveOf p.id op = true)) := by
  cases op with
  | upvote problemId userId =>
    intro p' hp'
    simp only [step, toggleUpvote] at hp'
    cases hfind : findById s.problems problemId with
    | none =>
      simp only [hfind] at hp'
      simpa [isAcceptedResolveOf] using h p' hp'
    | some q =>
      simp only [hfind] at hp'
      obtain ⟨hq, hqid⟩ := findById_some_mem hfind
      obtain ⟨p, hp, rfl⟩ := mem_saveProblem.1 hp'
      have hq' := h q hq
      by_cases hid : p.id = (applyToggle q userId).id
      · rw [if_pos hid]
        have e1 : (applyToggle q userId).resolutionDetails = q.resolutionDetails := by
          unfold applyToggle; split <;> rfl
        have e2 : (applyToggle q userId).id = q.id := by
          unfold applyToggle; split <;> rfl
        have e3 : validateProblem (applyToggle q userId) = validateProblem q := by
          unfold applyToggle; split <;> rfl
        rw [e1, e2, e3]
        simpa [isAcceptedResolveOf] using hq'
      · rw [if_neg hid]
        simpa [isAcceptedResolveOf] using h p hp
  | statusChange problemId userId now body =>
    intro p' hp'
    simp only [step, updateProblemStatus] at hp'
    cases hfind : findById s.problems problemId with
    | none =>
      simp only [hfind] at hp'
      have hne := findById_none_ne hfind p' hp'
      have hne' : ¬ problemId = p'.id := fun e => hne e.symm
      simpa [isAcceptedResolveOf, hne'] using h p' hp'
    | some q =>
      simp only [hfind] at hp'
      obtain ⟨hq, hqid⟩ := findById_some_mem hfind
      have hq' := h q hq
      have hqprio : q.priority ∈ priorityEnum := ((validateProblem_iff q).1 hq'.1).2
      have hacc := priorityAccepted_of_valid q userId now body hqprio
      by_cases hval : validateProblem (applyUpdate q userId now body) = true
      · simp only [hval, if_true] at hp'
        obtain ⟨p, hp, rfl⟩ := mem_saveProblem.1 hp'
        rw [applyUpdate_id]
        by_cases hid : p.id = q.id
        · rw [if_pos hid]
          refine ⟨hval, ?_⟩
          have hpr := ((validateProblem_iff _).1 hval).2
          rw [applyUpdate_resolutionDetails, applyUpdate_id, hqid]
          simp only [isAcceptedResolveOf, beq_self_eq_true, Bool.true_and, Bool.or_eq_true,
            Bool.and_eq_true, hacc.2 hpr, and_true]
          rw [hq'.2, hqid]
          tauto
        · rw [if_neg hid]
          have hne' : ¬ problemId = p.id := fun e => hid (by rw [hqid, e])
          simpa [isAcceptedResolveOf, hne'] using h p hp
      · simp only [hval] at hp'
        have hp := h p' hp'
        refine ⟨hp.1, ?_⟩
        rw [hp.2]
        have hno : isAcceptedResolveOf p'.id (Op.statusChange problemId userId now body)
            = false := by
          by_contra hyes
          simp only [Bool.not_eq_false, isAcceptedResolveOf, Bool.and_eq_true] at hyes
          obtain ⟨⟨_, hres⟩, hpa⟩ := hyes
          have hres' : "resolved" ∈ statusEnum := by decide
          exact hval (validateProblem_applyUpdate q userId now body "resolved" hres'
            (isResolveRequest_status hres) hqprio hpa).1
        simp [hno]

theorem runOps_resolutionDetails (ops : List Op) :
    ∀ (s : Store) (H : Nat → Prop),
      (∀ p ∈ s.problems,
        validateProblem p = true ∧ (p.resolutionDetails.isSome = true ↔ H p.id)) →
      ∀ p ∈ (runOps s ops).problems,
        validateProblem p = true
          ∧ (p.resolutionDetails.isSome = true
              ↔ (H p.id ∨ ∃ op ∈ ops, isAcceptedResolveOf p.id op = true)) := by
  induction ops with
  | nil =>
    intro s H h p hp
    simpa [runOps] using h p hp
  | cons op ops ih =>
    intro s H h p hp
    have h1 := step_resolutionDetails s op H h
    have h2 := ih (step s op) (fun id => H id ∨ isAcceptedResolveOf id op = true) h1 p
      (by simpa [runOps] using hp)
    refine ⟨h2.1, ?_⟩
    rw [h2.2]
    simp only [List.mem_cons, exists_eq_or_imp]
    tauto

theorem isNewProblem_valid {p : Problem} (h : isNewProblem p = true) :
    validateProblem p = true ∧ p.resolutionDetails = none := by
  simp only [isNewProblem, Bool.and_eq_true, beq_iff_eq] at h
  obtain ⟨⟨⟨⟨hs, hp⟩, _⟩, _⟩, hr⟩ := h
  refine ⟨?_, hr⟩
  rw [validateProblem_iff, hs, hp]
  decide

/-- C3 (as amended): in a store reached from newly created problems by any sequence of
status changes and upvote toggles, a problem has `resolutionDetails` if and only if some
request of the sequence was a resolve request for it (status `resolved` with a payload)
that the schema accepted; and a status change without a payload leaves `resolutionDetails`
as they were, whatever the status it sets. -/
theorem resolutionDetails_iff_resolve_request (s : Store) (ops : List Op)
    (hnew : ∀ p ∈ s.problems, isNewProblem p = true) :
    (∀ p ∈ (runOps s ops).problems,
        (p.resolutionDetails.isSome = true ↔ ∃ op ∈ ops, isAcceptedResolveOf p.id op = true))
      ∧ (∀ (p : Problem) (userId : Nat) (now : Int) (body : UpdateBody),
          body.resolutionDetails = none →
            (applyUpdate p userId now body).resolutionDetails = p.resolutionDetails) := by
  constructor
  · intro p hp
    have h := runOps_resolutionDetails ops s (fun _ => False)
      (fun q hq => by
        obtain ⟨hv, hr⟩ := isNewProblem_valid (hnew q hq)
        simp [hv, hr]) p hp
    simpa using h.2
  · intro p userId now body hnone
    unfold applyUpdate
    rw [hnone]
    cases hb : body.status == some "resolved" <;>
      cases body.assignedTo <;> by_cases h1 : truthy body.status = true <;>
      by_cases h2 : truthy body.priority = true <;> simp [h1, h2]

/-- C3 (witness): `sampleStore` after a resolve request and a change back to `pending`. -/
theorem resolutionDetails_iff_resolve_request_witness :
    ∃ p ∈ (runOps sampleStore
          [Op.statusChange 1 9 1000 resolveBody,
            Op.statusChange 1 9 2000 (statusOnly "pending")]).problems,
      p.status = "pending"
        ∧ (p.resolutionDetails.isSome = true
          ↔ ∃ op ∈ [Op.statusChange 1 9 1000 resolveBody,
                Op.statusChange 1 9 2000 (statusOnly "pending")],
              isAcceptedResolveOf p.id op = true) :=
  ⟨{ sampleProblem with
        status := "pending",
        resolutionDetails :=
          some { samplePayload with resolvedAt := some 1000, resolvedBy := some 9 } },
    by decide, rfl,
    (resolutionDetails_iff_resolve_request sampleStore
      [Op.statusChange 1 9 1000 resolveBody, Op.statusChange 1 9 2000 (statusOnly "pending")]
      (by decide)).1 _ (by decide)⟩

/-- C3 (counterexample): from the newly created `sampleProblem`, a change to `resolved`
without a payload stores a resolved problem without `resolutionDetails`; and a resolve
request followed by a change to `pending` stores a pending problem with them. -/
theorem resolved_without_resolutionDetails :
    isNewProblem sampleProblem = true
      ∧ (runOps sampleStore [Op.statusChange 1 9 1000 (statusOnly "resolved")]).problems
          = [{ sampleProblem with status := "resolved", resolutionDetails := none }]
      ∧ (runOps sampleStore
            [Op.statusChange 1 9 1000 resolveBody,
              Op.statusChange 1 9 2000 (statusOnly "pending")]).problems
          = [{ sampleProblem with
                status := "pending",
                resolutionDetails :=
                  some { samplePayload with resolvedAt := some 1000, resolvedBy := some 9 } }]
      ∧ ¬ (∀ p ∈ (runOps sampleStore
              [Op.statusChange 1 9 1000 (statusOnly "resolved")]).problems,
            (p.resolutionDetails.isSome = true ↔ p.status = "resolved")) := by
  decide

theorem applyUpdate_upvotes (p : Problem) (userId : Nat) (now : Int) (body : UpdateBody) :
    (applyUpdate p userId now body).upvotes = p.upvotes
      ∧ (applyUpdate p userId now body).upvoteCount = p.upvoteCount := by
  unfold applyUpdate
  cases hb : body.status == some "resolved" <;> cases body.resolutionDetails <;>
    cases body.assignedTo <;> by_cases h1 : truthy body.status = true <;>
    by_cases h2 : truthy body.priority = true <;> simp [h1, h2]

theorem applyToggle_upvotes (p : Problem) (userId : Nat)
    (h : p.upvotes.Nodup ∧ p.upvoteCount = (p.upvotes.length : Int)) :
    (applyToggle p userId).upvotes.Nodup
      ∧ (applyToggle p userId).upvoteCount = ((applyToggle p userId).upvotes.length : Int) := by
  obtain ⟨hnd, hcount⟩ := h
  unfold applyToggle
  by_cases hu : userId ∈ p.upvotes
  · rw [if_pos hu]
    refine ⟨hnd.filter _, ?_⟩
    have hlen : (p.upvotes.filter (fun u => u != userId)).length + 1 = p.upvotes.length := by
      have h1 := List.Nodup.erase_eq_filter hnd userId
      have h2 := List.length_erase_of_mem hu
      have h3 : 0 < p.upvotes.length := List.length_pos_of_mem hu
      rw [← h1, h2]
      omega
    show p.upvoteCount - 1 = ((p.upvotes.filter (fun u => u != userId)).length : Int)
    rw [hcount, ← hlen]
    push_cast
    ring
  · rw [if_neg hu]
    refine ⟨?_, ?_⟩
    · show (p.upvotes ++ [userId]).Nodup
      rw [List.nodup_append]
      refine ⟨hnd, List.nodup_singleton _, ?_⟩
      intro a ha hb
      rw [List.mem_singleton] at hb
      exact hu (hb ▸ ha)
    · show p.upvoteCount + 1 = ((p.upvotes ++ [userId]).length : Int)
      rw [hcount]
      simp

/-- One request keeps, for every stored problem, the upvoters free of repetition and
`upvoteCount` equal to their number. -/
theorem step_upvotes (s : Store) (op : Op)
    (h : ∀ p ∈ s.problems, p.upvotes.Nodup ∧ p.upvoteCount = (p.upvotes.length : Int)) :
    ∀ p ∈ (step s op).problems,
      p.upvotes.Nodup ∧ p.upvoteCount = (p.upvotes.length : Int) := by
  cases op with
  | upvote problemId userId =>
    intro p' hp'
    simp only [step, toggleUpvote] at hp'
    cases hfind : findById s.problems problemId with
    | none =>
      simp only [hfind] at hp'
      exact h p' hp'
    | some q =>
      simp only [hfind] at hp'
      obtain ⟨p, hp, rfl⟩ := mem_saveProblem.1 hp'
      by_cases hid : p.id = (applyToggle q userId).id
      · rw [if_pos hid]
        exact applyToggle_upvotes q userId (h q (findById_some_mem hfind).1)
      · rw [if_neg hid]
        exact h p hp
  | statusChange problemId userId now body =>
    intro p' hp'
    simp only [step, updateProblemStatus] at hp'
    cases hfind : findById s.problems problemId with
    | none =>
      simp only [hfind] at hp'
      exact h p' hp'
    | some q =>
      simp only [hfind] at hp'
      by_cases hval : validateProblem (applyUpdate q userId now body) = true
      · simp only [hval, if_true] at hp'
        obtain ⟨p, hp, rfl⟩ := mem_saveProblem.1 hp'
        by_cases hid : p.id = (applyUpdate q userId now body).id
        · rw [if_pos hid, (applyUpdate_upvotes q userId now body).1,
            (applyUpdate_upvotes q userId now body).2]
          exact h q (findById_some_mem hfind).1
        · rw [if_neg hid]
          exact h p hp
      · simp only [hval] at hp'
        exact h p' hp'

theorem runOps_upvotes (ops : List Op) :
    ∀ s : Store,
      (∀ p ∈ s.problems, p.upvotes.Nodup ∧ p.upvoteCount = (p.upvotes.length : Int)) →
      ∀ p ∈ (runOps s ops).problems,
        p.upvotes.Nodup ∧ p.upvoteCount = (p.upvotes.length : Int) := by
  induction ops with
  | nil => intro s h; simpa [runOps] using h
  | cons op ops ih =>
    intro s h p hp
    exact ih (step s op) (step_upvotes s op h) p (by simpa [runOps] using hp)

/-- C4: in a store reached from newly created problems (no upvoters, `upvoteCount` 0) by
any sequence of upvote toggles and status changes, every problem has `upvoteCount` equal
to the number of distinct user ids among its upvoters, and no user id occurs twice. -/
theorem upvoteCount_eq_card_upvotes (s : Store) (ops : List Op)
    (hnew : ∀ p ∈ s.problems, isNewProblem p = true) :
    ∀ p ∈ (runOps s ops).problems,
      p.upvoteCount = (p.upvotes.toFinset.card : Int) ∧ p.upvotes.Nodup := by
  intro p hp
  have h := runOps_upvotes ops s (fun q hq => by
    have hq' := hnew q hq
    simp only [isNewProblem, Bool.and_eq_true, beq_iff_eq] at hq'
    obtain ⟨⟨⟨_, hu⟩, hc⟩, _⟩ := hq'
    rw [hu, hc]
    simp) p hp
  refine ⟨?_, h.1⟩
  rw [List.toFinset_card_of_nodup h.1]
  exact h.2

/-- C4 (witness): `sampleStore` after three upvote toggles and a resolve request. -/
theorem upvoteCount_eq_card_upvotes_witness :
    ∃ p ∈ (runOps sampleStore
        [Op.upvote 1 11, Op.upvote 1 12, Op.statusChange 1 9 1000 resolveBody,
          Op.upvote 1 11]).problems,
      p.upvotes = [12] ∧ p.upvoteCount = (p.upvotes.toFinset.card : Int) ∧ p.upvotes.Nodup :=
  ⟨{ sampleProblem with
        status := "resolved", upvotes := [12], upvoteCount := 1,
        resolutionDetails :=
          some { samplePayload with resolvedAt := some 1000, resolvedBy := some 9 } },
    by decide, rfl,
    upvoteCount_eq_card_upvotes sampleStore
      [Op.upvote 1 11, Op.upvote 1 12, Op.statusChange 1 9 1000 resolveBody, Op.upvote 1 11]
      (by decide) _ (by decide)⟩

/-! ## The double-precision model rounds to nearest -/

theorem bitLengthAux_zero (fuel : Nat) : bitLengthAux fuel 0 = 0 := by
  cases fuel <;> simp [bitLengthAux]

theorem bitLengthAux_spec (fuel : Nat) :
    ∀ n : Nat, n ≤ fuel → 0 < n →
      2 ^ (bitLengthAux fuel n - 1) ≤ n ∧ n < 2 ^ bitLengthAux fuel n := by
  induction fuel with
  | zero => intro n h0 hn; omega
  | succ fuel ih =>
    intro n hle hn
    have hstep : bitLengthAux (fuel + 1) n = bitLengthAux fuel (n / 2) + 1 := by
      simp [bitLengthAux, Nat.pos_iff_ne_zero.1 hn]
    rw [hstep]
    by_cases h2 : n / 2 = 0
    · rw [h2, bitLengthAux_zero]
      have : n = 1 := by omega
      subst this
      simp
    · have hpos : 0 < n / 2 := Nat.pos_of_ne_zero h2
      obtain ⟨hlo, hhi⟩ := ih (n / 2) (by omega) hpos
      have hb : 1 ≤ bitLengthAux fuel (n / 2) := by
        by_contra hb
        have : bitLengthAux fuel (n / 2) = 0 := by omega
        rw [this] at hhi
        simp at hhi
        omega
      constructor
      · have : 2 ^ (bitLengthAux fuel (n / 2) + 1 - 1)
            = 2 * 2 ^ (bitLengthAux fuel (n / 2) - 1) := by
          rw [Nat.add_sub_cancel, ← pow_succ']
          congr 1
          omega
        rw [this]
        omega
      · rw [pow_succ]
        omega

/-- A positive number has `bitLength` binary digits. -/
theorem bitLength_spec (n : Nat) (hn : 0 < n) :
    1 ≤ bitLength n ∧ 2 ^ (bitLength n - 1) ≤ n ∧ n < 2 ^ bitLength n := by
  obtain ⟨hlo, hhi⟩ := bitLengthAux_spec n n le_rfl hn
  refine ⟨?_, hlo, hhi⟩
  by_contra hb
  have h0 : bitLengthAux n n = 0 := by
    have : bitLength n = 0 := by omega
    exact this
  rw [h0] at hhi
  simp at hhi
  omega

theorem reaches_iff (a d : Nat) (hd : 0 < d) (k : Int) :
    reaches a d k = true ↔ (2 : ℚ) ^ k ≤ (a : ℚ) / (d : ℚ) := by
  have hD : (0 : ℚ) < d := by exact_mod_cast hd
  unfold reaches
  by_cases hk : 0 ≤ k
  · obtain ⟨j, rfl⟩ := Int.eq_ofNat_of_zero_le hk
    rw [if_pos hk, decide_eq_true_iff, le_div_iff₀ hD]
    simp only [Int.toNat_ofNat, zpow_natCast]
    rw [mul_comm]
    exact_mod_cast Iff.rfl
  · obtain ⟨j, hj⟩ := Int.eq_ofNat_of_zero_le (show 0 ≤ -k by omega)
    have hk' : k = -(j : Int) := by omega
    subst hk'
    rw [if_neg hk, decide_eq_true_iff, le_div_iff₀ hD]
    simp only [neg_neg, Int.toNat_ofNat, zpow_neg, zpow_natCast]
    have hp : (0 : ℚ) < 2 ^ j := by positivity
    rw [inv_mul_le_iff₀ hp, mul_comm]
    exact_mod_cast Iff.rfl

/-- The exponent chosen for `a / d` leaves a significand of 53 bits. -/
theorem significandExp_spec (a d : Nat) (ha : 0 < a) (hd : 0 < d) :
    (2 : ℚ) ^ (significandExp a d + 52) ≤ (a : ℚ) / (d : ℚ)
      ∧ (a : ℚ) / (d : ℚ) < (2 : ℚ) ^ (significandExp a d + 53) := by
  have hD : (0 : ℚ) < d := by exact_mod_cast hd
  obtain ⟨ha1, halo, hahi⟩ := bitLength_spec a ha
  obtain ⟨hd1, hdlo, hdhi⟩ := bitLength_spec d hd
  have halo' : (2 : ℚ) ^ ((bitLength a : Int) - 1) ≤ (a : ℚ) := by
    have h : ((2 ^ (bitLength a - 1) : Nat) : ℚ) ≤ (a : ℚ) := by exact_mod_cast halo
    have e : ((bitLength a : Int) - 1) = ((bitLength a - 1 : Nat) : Int) := by omega
    rw [e, zpow_natCast]
    exact_mod_cast h
  have hahi' : (a : ℚ) < (2 : ℚ) ^ (bitLength a : Int) := by
    rw [zpow_natCast]
    exact_mod_cast hahi
  have hdlo' : (2 : ℚ) ^ ((bitLength d : Int) - 1) ≤ (d : ℚ) := by
    have h : ((2 ^ (bitLength d - 1) : Nat) : ℚ) ≤ (d : ℚ) := by exact_mod_cast hdlo
    have e : ((bitLength d : Int) - 1) = ((bitLength d - 1 : Nat) : Int) := by omega
    rw [e, zpow_natCast]
    exact_mod_cast h
  have hdhi' : (d : ℚ) < (2 : ℚ) ^ (bitLength d : Int) := by
    rw [zpow_natCast]
    exact_mod_cast hdhi
  have h2 : (2 : ℚ) ≠ 0 := by norm_num
  -- the quotient lies strictly between `2 ^ (guess - 1)` and `2 ^ (guess + 1)`
  have hupper : (a : ℚ) / (d : ℚ)
      < (2 : ℚ) ^ ((bitLength a : Int) - (bitLength d : Int) + 1) := by
    rw [div_lt_iff₀ hD]
    have e : (2 : ℚ) ^ ((bitLength a : Int) - (bitLength d : Int) + 1)
        * (2 : ℚ) ^ ((bitLength d : Int) - 1) = (2 : ℚ) ^ (bitLength a : Int) := by
      rw [← zpow_add₀ h2]
      congr 1
      ring
    have hpos : (0 : ℚ) < (2 : ℚ) ^ ((bitLength a : Int) - (bitLength d : Int) + 1) := by
      positivity
    calc (a : ℚ) < (2 : ℚ) ^ (bitLength a : Int) := hahi'
      _ = (2 : ℚ) ^ ((bitLength a : Int) - (bitLength d : Int) + 1)
            * (2 : ℚ) ^ ((bitLength d : Int) - 1) := e.symm
      _ ≤ (2 : ℚ) ^ ((bitLength a : Int) - (bitLength d : Int) + 1) * (d : ℚ) :=
          mul_le_mul_of_nonneg_left hdlo' hpos.le
  have hlower : (2 : ℚ) ^ ((bitLength a : Int) - (bitLength d : Int) - 1)
      < (a : ℚ) / (d : ℚ) := by
    rw [lt_div_iff₀ hD]
    have e : (2 : ℚ) ^ ((bitLength a : Int) - (bitLength d : Int) - 1)
        * (2 : ℚ) ^ (bitLength d : Int) = (2 : ℚ) ^ ((bitLength a : Int) - 1) := by
      rw [← zpow_add₀ h2]
      congr 1
      ring
    have hpos : (0 : ℚ) < (2 : ℚ) ^ ((bitLength a : Int) - (bitLength d : Int) - 1) := by
      positivity
    calc (2 : ℚ) ^ ((bitLength a : Int) - (bitLength d : Int) - 1) * (d : ℚ)
        < (2 : ℚ) ^ ((bitLength a : Int) - (bitLength d : Int) - 1)
            * (2 : ℚ) ^ (bitLength d : Int) := mul_lt_mul_of_pos_left hdhi' hpos
      _ = (2 : ℚ) ^ ((bitLength a : Int) - 1) := e
      _ ≤ (a : ℚ) := halo'
  unfold significandExp
  dsimp only
  by_cases hr : reaches a d ((bitLength a : Int) - (bitLength d : Int)) = true
  · rw [if_pos hr]
    have hge := (reaches_iff a d hd _).1 hr
    constructor
    · have e : (bitLength a : Int) - (bitLength d : Int) - 52 + 52
          = (bitLength a : Int) - (bitLength d : Int) := by ring
      rw [e]
      exact hge
    · have e : (bitLength a : Int) - (bitLength d : Int) - 52 + 53
          = (bitLength a : Int) - (bitLength d : Int) + 1 := by ring
      rw [e]
      exact hupper
  · rw [if_neg hr]
    have hlt : (a : ℚ) / (d : ℚ) < (2 : ℚ) ^ ((bitLength a : Int) - (bitLength d : Int)) := by
      by_contra hcon
      exact hr ((reaches_iff a d hd _).2 (not_lt.1 hcon))
    constructor
    · have e : (bitLength a : Int) - (bitLength d : Int) - 1 - 52 + 52
          = (bitLength a : Int) - (bitLength d : Int) - 1 := by ring
      rw [e]
      exact hlower.le
    · have e : (bitLength a : Int) - (bitLength d : Int) - 1 - 52 + 53
          = (bitLength a : Int) - (bitLength d : Int) := by ring
      rw [e]
      exact hlt

/-- `roundQuotient` is the floor of the quotient or the next integer, at most one half
away from the quotient, and even when the quotient lies halfway between two integers. -/
theorem roundQuotient_spec (num den : Nat) (hden : 0 < den) :
    num / den ≤ roundQuotient num den ∧ roundQuotient num den ≤ num / den + 1
      ∧ |((roundQuotient num den : Nat) : ℚ) - (num : ℚ) / (den : ℚ)| ≤ 1 / 2
      ∧ (|((roundQuotient num den : Nat) : ℚ) - (num : ℚ) / (den : ℚ)| = 1 / 2 →
          2 ∣ roundQuotient num den) := by
  have hD : (0 : ℚ) < den := by exact_mod_cast hden
  have hr : num % den < den := Nat.mod_lt _ hden
  have hdecomp : (num : ℚ) = (den : ℚ) * ((num / den : Nat) : ℚ) + ((num % den : Nat) : ℚ) := by
    exact_mod_cast (Nat.div_add_mod num den).symm
  have hX : (num : ℚ) / (den : ℚ)
      = ((num / den : Nat) : ℚ) + ((num % den : Nat) : ℚ) / (den : ℚ) := by
    rw [eq_comm, ← sub_eq_zero]
    field_simp
    rw [hdecomp]
    ring
  have hfrac0 : (0 : ℚ) ≤ ((num % den : Nat) : ℚ) / (den : ℚ) := by positivity
  unfold roundQuotient
  dsimp only
  by_cases h1 : 2 * (num % den) < den
  · rw [if_pos h1]
    have hlt : ((num % den : Nat) : ℚ) / (den : ℚ) < 1 / 2 := by
      rw [div_lt_iff₀ hD]
      have : ((2 * (num % den) : Nat) : ℚ) < (den : ℚ) := by exact_mod_cast h1
      push_cast at this
      linarith
    refine ⟨le_rfl, Nat.le_succ _, ?_, fun h => ?_⟩
    · rw [hX, abs_le]
      constructor <;> linarith
    · exfalso
      rw [hX] at h
      rcases (abs_eq (by norm_num)).1 h with h | h <;> linarith
  · rw [if_neg h1]
    by_cases h2 : den < 2 * (num % den)
    · rw [if_pos h2]
      have hgt : 1 / 2 < ((num % den : Nat) : ℚ) / (den : ℚ) := by
        rw [lt_div_iff₀ hD]
        have : ((den : Nat) : ℚ) < ((2 * (num % den) : Nat) : ℚ) := by exact_mod_cast h2
        push_cast at this
        linarith
      have hlt1 : ((num % den : Nat) : ℚ) / (den : ℚ) < 1 := by
        rw [div_lt_iff₀ hD]
        have : ((num % den : Nat) : ℚ) < (den : ℚ) := by exact_mod_cast hr
        linarith
      refine ⟨Nat.le_succ _, le_rfl, ?_, fun h => ?_⟩
      · rw [hX, abs_le]
        push_cast
        constructor <;> linarith
      · exfalso
        rw [hX] at h
        push_cast at h
        rcases (abs_eq (by norm_num)).1 h with h | h <;> linarith
    · rw [if_neg h2]
      have htie : 2 * (num % den) = den := by omega
      have hhalf : ((num % den : Nat) : ℚ) / (den : ℚ) = 1 / 2 := by
        rw [div_eq_iff hD.ne']
        have : ((2 * (num % den) : Nat) : ℚ) = (den : ℚ) := by exact_mod_cast htie
        push_cast at this
        linarith
      by_cases h3 : num / den % 2 = 0
      · rw [if_pos h3]
        refine ⟨le_rfl, Nat.le_succ _, ?_, fun _ => Nat.dvd_of_mod_eq_zero h3⟩
        rw [hX, hhalf, abs_le]
        constructor <;> linarith
      · rw [if_neg h3]
        refine ⟨Nat.le_succ _, le_rfl, ?_, fun _ => by omega⟩
        rw [hX, hhalf, abs_le]
        push_cast
        constructor <;> linarith

theorem scaled_quotient (a d : Nat) (hd : 0 < d) (e : Int) :
    ((a * 2 ^ (-e).toNat : Nat) : ℚ) / ((d * 2 ^ e.toNat : Nat) : ℚ)
      = (a : ℚ) / (d : ℚ) * (2 : ℚ) ^ (-e) := by
  have hD : (d : ℚ) ≠ 0 := by exact_mod_cast hd.ne'
  by_cases he : 0 ≤ e
  · obtain ⟨j, rfl⟩ := Int.eq_ofNat_of_zero_le he
    have h0 : (-(j : Int)).toNat = 0 := by omega
    rw [h0]
    simp only [Int.toNat_ofNat, zpow_neg, zpow_natCast]
    push_cast
    field_simp
  · obtain ⟨j, hj⟩ := Int.eq_ofNat_of_zero_le (show 0 ≤ -e by omega)
    have he' : e = -(j : Int) := by omega
    subst he'
    have h0 : (-(j : Int)).toNat = 0 := by omega
    rw [h0]
    simp only [neg_neg, Int.toNat_ofNat, zpow_natCast]
    push_cast
    field_simp

/-- `roundRatio` rounds to nearest, ties to even: for `n ≠ 0` and `d > 0` the result has
a significand of exactly 53 bits, lies within half a unit in the last place of `n / d`,
and has an even significand when `n / d` is exactly half a unit away. -/
theorem roundRatio_nearest (n : Int) (d : Nat) (hn : n ≠ 0) (hd : 0 < d) :
    IsNearest (roundRatio n d) ((n : ℚ) / (d : ℚ)) := by
  unfold IsNearest
  have ha : 0 < n.natAbs := Int.natAbs_pos.2 hn
  have hD : (0 : ℚ) < d := by exact_mod_cast hd
  have h2 : (2 : ℚ) ≠ 0 := by norm_num
  obtain ⟨hlo, hhi⟩ := significandExp_spec n.natAbs d ha hd
  obtain ⟨e, he⟩ : ∃ e, e = significandExp n.natAbs d := ⟨_, rfl⟩
  rw [← he] at hlo hhi
  have hden : 0 < d * 2 ^ e.toNat := Nat.mul_pos hd (by positivity)
  obtain ⟨hq1, hq2, herr, heven⟩ :=
    roundQuotient_spec (n.natAbs * 2 ^ (-e).toNat) (d * 2 ^ e.toNat) hden
  obtain ⟨m, hm⟩ : ∃ m, m = roundQuotient (n.natAbs * 2 ^ (-e).toNat) (d * 2 ^ e.toNat) :=
    ⟨_, rfl⟩
  obtain ⟨s, hs⟩ : ∃ s : Int, s = if n < 0 then -1 else 1 := ⟨_, rfl⟩
  rw [← hm] at hq1 hq2 herr heven
  rw [scaled_quotient _ _ hd] at herr heven
  have hres : roundRatio n d
      = if m = 2 ^ 53 then { mant := s * 2 ^ 52, exp := e + 1 }
        else { mant := s * (m : Int), exp := e } := by
    unfold roundRatio
    rw [if_neg hn, hm, hs, he]
  -- the scaled quotient lies in `[2 ^ 52, 2 ^ 53)`
  have hpe : (0 : ℚ) < (2 : ℚ) ^ (-e) := by positivity
  have hX52 : (2 : ℚ) ^ (52 : Nat) ≤ (n.natAbs : ℚ) / (d : ℚ) * (2 : ℚ) ^ (-e) := by
    have e1 : (2 : ℚ) ^ (52 : Nat) = (2 : ℚ) ^ (e + 52) * (2 : ℚ) ^ (-e) := by
      rw [← zpow_add₀ h2, ← zpow_natCast]
      congr 1
      ring
    rw [e1]
    exact mul_le_mul_of_nonneg_right hlo hpe.le
  have hX53 : (n.natAbs : ℚ) / (d : ℚ) * (2 : ℚ) ^ (-e) < (2 : ℚ) ^ (53 : Nat) := by
    have e1 : (2 : ℚ) ^ (53 : Nat) = (2 : ℚ) ^ (e + 53) * (2 : ℚ) ^ (-e) := by
      rw [← zpow_add₀ h2, ← zpow_natCast]
      congr 1
      ring
    rw [e1]
    exact mul_lt_mul_of_pos_right hhi hpe
  have hDen : (0 : ℚ) < ((d * 2 ^ e.toNat : Nat) : ℚ) := by exact_mod_cast hden
  have hfloor52 : 2 ^ 52 ≤ n.natAbs * 2 ^ (-e).toNat / (d * 2 ^ e.toNat) := by
    rw [Nat.le_div_iff_mul_le hden]
    have h := hX52
    rw [← scaled_quotient _ _ hd, le_div_iff₀ hDen] at h
    exact_mod_cast h
  have hfloor53 : n.natAbs * 2 ^ (-e).toNat / (d * 2 ^ e.toNat) < 2 ^ 53 := by
    rw [Nat.div_lt_iff_lt_mul hden]
    have h := hX53
    rw [← scaled_quotient _ _ hd, div_lt_iff₀ hDen] at h
    exact_mod_cast h
  have hm52 : 2 ^ 52 ≤ m := le_trans hfloor52 hq1
  have hm53 : m ≤ 2 ^ 53 := le_trans hq2 hfloor53
  -- the sign
  have hsabs : |(s : ℚ)| = 1 := by
    rw [hs]
    split_ifs <;> simp
  have hsn : (n : ℚ) = (s : ℚ) * (n.natAbs : ℚ) := by
    rw [Nat.cast_natAbs, Int.cast_abs, hs]
    split_ifs with hneg
    · have : (n : ℚ) < 0 := by exact_mod_cast hneg
      rw [abs_of_neg this]
      push_cast
      ring
    · have : (0 : ℚ) ≤ (n : ℚ) := by exact_mod_cast not_lt.1 hneg
      rw [abs_of_nonneg this]
      push_cast
      ring
  have hquot : (n : ℚ) / (d : ℚ)
      = (s : ℚ) * ((n.natAbs : ℚ) / (d : ℚ) * (2 : ℚ) ^ (-e)) * (2 : ℚ) ^ e := by
    rw [hsn, zpow_neg]
    have : (2 : ℚ) ^ e ≠ 0 := zpow_ne_zero _ h2
    field_simp
    ring
  have hbound : |(s : ℚ) * ((m : ℚ) - (n.natAbs : ℚ) / (d : ℚ) * (2 : ℚ) ^ (-e))
      * (2 : ℚ) ^ e| ≤ (2 : ℚ) ^ (e - 1) := by
    have hp : (0 : ℚ) < (2 : ℚ) ^ e := by positivity
    rw [abs_mul, abs_mul, hsabs, one_mul, abs_of_pos hp]
    have e1 : (2 : ℚ) ^ (e - 1) = 1 / 2 * (2 : ℚ) ^ e := by
      rw [zpow_sub₀ h2, zpow_one]
      ring
    rw [e1]
    exact mul_le_mul_of_nonneg_right herr hp.le
  have habsq : |(n : ℚ) / (d : ℚ)| = (n.natAbs : ℚ) / (d : ℚ) := by
    rw [abs_div, abs_of_pos hD, Nat.cast_natAbs, Int.cast_abs]
  have hval : (roundRatio n d).toRat = ((s * (m : Int) : Int) : ℚ) * (2 : ℚ) ^ e := by
    rw [hres]
    by_cases h53 : m = 2 ^ 53
    · rw [if_pos h53, h53]
      unfold Dbl.toRat
      push_cast
      rw [zpow_add₀ h2, zpow_one]
      ring
    · rw [if_neg h53]
      rfl
  have hdiff : (roundRatio n d).toRat - (n : ℚ) / (d : ℚ)
      = (s : ℚ) * ((m : ℚ) - (n.natAbs : ℚ) / (d : ℚ) * (2 : ℚ) ^ (-e)) * (2 : ℚ) ^ e := by
    rw [hval, hquot]
    push_cast
    ring
  have hp : (0 : ℚ) < (2 : ℚ) ^ e := by positivity
  have e1 : (2 : ℚ) ^ (e - 1) = 1 / 2 * (2 : ℚ) ^ e := by
    rw [zpow_sub₀ h2, zpow_one]
    ring
  have hbits : 2 ^ 52 ≤ (roundRatio n d).mant.natAbs
      ∧ (roundRatio n d).mant.natAbs < 2 ^ 53 := by
    rw [hres]
    by_cases h53 : m = 2 ^ 53
    · rw [if_pos h53]
      have hnat : (s * 2 ^ 52 : Int).natAbs = 2 ^ 52 := by
        rw [Int.natAbs_mul, hs]
        split_ifs <;> simp
      exact ⟨by rw [hnat], by rw [hnat]; norm_num⟩
    · rw [if_neg h53]
      have hnat : (s * (m : Int)).natAbs = m := by
        rw [Int.natAbs_mul, hs]
        split_ifs <;> simp
      exact ⟨by rw [hnat]; exact hm52, by rw [hnat]; omega⟩
  refine ⟨hbits.1, hbits.2, e, s * (m : Int), by rw [habsq]; exact hlo,
    by rw [habsq]; exact hhi, hval, by rw [hdiff]; exact hbound, fun htie => ?_⟩
  rw [hdiff, abs_mul, abs_mul, hsabs, one_mul, abs_of_pos hp, e1] at htie
  exact Dvd.dvd.mul_left (Int.natCast_dvd_natCast.2 (heven (mul_right_cancel₀ hp.ne' htie))) s

theorem zpow_toNat_two (k : Int) (hk : 0 ≤ k) : ((2 : ℚ) ^ k.toNat) = (2 : ℚ) ^ k := by
  obtain ⟨j, rfl⟩ := Int.eq_ofNat_of_zero_le hk
  simp

theorem roundDyadic_zero (e : Int) : roundDyadic 0 e = { mant := 0, exp := 0 } := by
  unfold roundDyadic
  split_ifs <;> simp [roundRatio]

/-- `roundDyadic m e` is the double nearest to `m * 2 ^ e`. -/
theorem roundDyadic_nearest (m e : Int) (hm : m ≠ 0) :
    IsNearest (roundDyadic m e) ((m : ℚ) * (2 : ℚ) ^ e) := by
  unfold roundDyadic
  by_cases he : 0 ≤ e
  · rw [if_pos he]
    have h := roundRatio_nearest (m * 2 ^ e.toNat) 1 (mul_ne_zero hm (by positivity)) one_pos
    have hq : ((m * 2 ^ e.toNat : Int) : ℚ) / ((1 : Nat) : ℚ) = (m : ℚ) * (2 : ℚ) ^ e := by
      push_cast
      rw [zpow_toNat_two e he, div_one]
    rw [hq] at h
    exact h
  · rw [if_neg he]
    have h := roundRatio_nearest m (2 ^ (-e).toNat) hm (by positivity)
    have hq : (m : ℚ) / ((2 ^ (-e).toNat : Nat) : ℚ) = (m : ℚ) * (2 : ℚ) ^ e := by
      push_cast
      rw [zpow_toNat_two (-e) (by omega), zpow_neg, div_eq_mul_inv, inv_inv]
    rw [hq] at h
    exact h

/-- The double of a non-zero integer is the double nearest to it. -/
theorem Dbl.ofInt_nearest (n : Int) (hn : n ≠ 0) : IsNearest (Dbl.ofInt n) (n : ℚ) := by
  have h := roundRatio_nearest n 1 hn one_pos
  simp only [Nat.cast_one, div_one] at h
  exact h

/-- The product of two non-zero doubles is the double nearest to the exact product. -/
theorem Dbl.mul_nearest (x y : Dbl) (hx : x.mant ≠ 0) (hy : y.mant ≠ 0) :
    IsNearest (x.mul y) (x.toRat * y.toRat) := by
  have h := roundDyadic_nearest (x.mant * y.mant) (x.exp + y.exp) (mul_ne_zero hx hy)
  have hq : ((x.mant * y.mant : Int) : ℚ) * (2 : ℚ) ^ (x.exp + y.exp)
      = x.toRat * y.toRat := by
    unfold Dbl.toRat
    push_cast
    rw [zpow_add₀ (by norm_num : (2 : ℚ) ≠ 0)]
    ring
  rw [hq] at h
  exact h

/-- The quotient of two non-zero doubles is the double nearest to the exact quotient. -/
theorem Dbl.div_nearest (x y : Dbl) (hx : x.mant ≠ 0) (hy : y.mant ≠ 0) :
    IsNearest (x.div y) (x.toRat / y.toRat) := by
  have h2 : (2 : ℚ) ≠ 0 := by norm_num
  have hY : (y.mant : ℚ) ≠ 0 := by exact_mod_cast hy
  have hdn : 0 < y.mant.natAbs := Int.natAbs_pos.2 hy
  obtain ⟨n, hn⟩ : ∃ n : Int, n = if y.mant < 0 then -x.mant else x.mant := ⟨_, rfl⟩
  have hn0 : n ≠ 0 := by
    rw [hn]
    split_ifs <;> simpa using hx
  have hsign : (n : ℚ) / (y.mant.natAbs : ℚ) = (x.mant : ℚ) / (y.mant : ℚ) := by
    rw [Nat.cast_natAbs, Int.cast_abs, hn]
    split_ifs with hneg
    · have : (y.mant : ℚ) < 0 := by exact_mod_cast hneg
      rw [abs_of_neg this]
      push_cast
      rw [neg_div_neg_eq]
    · have : (0 : ℚ) ≤ (y.mant : ℚ) := by exact_mod_cast not_lt.1 hneg
      rw [abs_of_nonneg this]
  have hexact : x.toRat / y.toRat
      = (x.mant : ℚ) / (y.mant : ℚ) * (2 : ℚ) ^ (x.exp - y.exp) := by
    unfold Dbl.toRat
    rw [zpow_sub₀ h2]
    have : (2 : ℚ) ^ y.exp ≠ 0 := zpow_ne_zero _ h2
    field_simp
  unfold Dbl.div
  dsimp only
  rw [← hn, hexact, ← hsign]
  by_cases he : 0 ≤ x.exp - y.exp
  · rw [if_pos he]
    have h := roundRatio_nearest (n * 2 ^ (x.exp - y.exp).toNat) y.mant.natAbs
      (mul_ne_zero hn0 (by positivity)) hdn
    have hq : ((n * 2 ^ (x.exp - y.exp).toNat : Int) : ℚ) / (y.mant.natAbs : ℚ)
        = (n : ℚ) / (y.mant.natAbs : ℚ) * (2 : ℚ) ^ (x.exp - y.exp) := by
      push_cast
      rw [zpow_toNat_two _ he]
      ring
    rw [hq] at h
    exact h
  · rw [if_neg he]
    have h := roundRatio_nearest n (y.mant.natAbs * 2 ^ (-(x.exp - y.exp)).toNat) hn0
      (Nat.mul_pos hdn (by positivity))
    have hq : (n : ℚ) / ((y.mant.natAbs * 2 ^ (-(x.exp - y.exp)).toNat : Nat) : ℚ)
        = (n : ℚ) / (y.mant.natAbs : ℚ) * (2 : ℚ) ^ (x.exp - y.exp) := by
      push_cast
      rw [zpow_toNat_two _ (by omega), zpow_neg]
      have h1 : ((y.mant.natAbs : Nat) : ℚ) ≠ 0 := by exact_mod_cast hdn.ne'
      have h3 : (2 : ℚ) ^ (x.exp - y.exp) ≠ 0 := zpow_ne_zero _ h2
      field_simp
    rw [hq] at h
    exact h

theorem Dbl.add_exact (x y : Dbl) :
    ((x.mant * 2 ^ (x.exp - min x.exp y.exp).toNat
        + y.mant * 2 ^ (y.exp - min x.exp y.exp).toNat : Int) : ℚ)
        * (2 : ℚ) ^ (min x.exp y.exp)
      = x.toRat + y.toRat := by
  have h2 : (2 : ℚ) ≠ 0 := by norm_num
  unfold Dbl.toRat
  push_cast
  rw [zpow_toNat_two _ (by omega), zpow_toNat_two _ (by omega), add_mul, mul_assoc, mul_assoc,
    ← zpow_add₀ h2, ← zpow_add₀ h2]
  congr 2 <;> ring_nf

/-- The sum of two non-zero doubles is the double nearest to the exact sum, when that
sum is not zero; a zero operand leaves the other operand as it is. -/
theorem Dbl.add_nearest (x y : Dbl) (hx : x.mant ≠ 0) (hy : y.mant ≠ 0)
    (hsum : x.toRat + y.toRat ≠ 0) :
    IsNearest (x.add y) (x.toRat + y.toRat) := by
  unfold Dbl.add
  rw [if_neg hx, if_neg hy]
  dsimp only
  have hex := Dbl.add_exact x y
  have hm : x.mant * 2 ^ (x.exp - min x.exp y.exp).toNat
      + y.mant * 2 ^ (y.exp - min x.exp y.exp).toNat ≠ 0 := by
    intro h0
    rw [h0] at hex
    apply hsum
    rw [← hex]
    simp
  have h := roundDyadic_nearest _ (min x.exp y.exp) hm
  rw [hex] at h
  exact h

/-- The comparison of doubles is the comparison of the numbers they stand for. -/
theorem Dbl.le_iff (x y : Dbl) : x.le y = true ↔ x.toRat ≤ y.toRat := by
  have h2 : (2 : ℚ) ≠ 0 := by norm_num
  have hp : (0 : ℚ) < (2 : ℚ) ^ (min x.exp y.exp) := by positivity
  have hx : x.toRat
      = ((x.mant * 2 ^ (x.exp - min x.exp y.exp).toNat : Int) : ℚ)
          * (2 : ℚ) ^ (min x.exp y.exp) := by
    unfold Dbl.toRat
    push_cast
    rw [zpow_toNat_two _ (by omega), mul_assoc, ← zpow_add₀ h2]
    congr 2
    ring
  have hy : y.toRat
      = ((y.mant * 2 ^ (y.exp - min x.exp y.exp).toNat : Int) : ℚ)
          * (2 : ℚ) ^ (min x.exp y.exp) := by
    unfold Dbl.toRat
    push_cast
    rw [zpow_toNat_two _ (by omega), mul_assoc, ← zpow_add₀ h2]
    congr 2
    ring
  rw [hx, hy, mul_le_mul_right hp]
  unfold Dbl.le
  dsimp only
  rw [decide_eq_true_iff]
  exact Int.cast_le.symm

/-- `Math.min` on doubles is the minimum of the numbers they stand for. -/
theorem Dbl.mathMin_toRat (x y : Dbl) : (Dbl.mathMin x y).toRat = min x.toRat y.toRat := by
  unfold Dbl.mathMin
  by_cases h : x.le y = true
  · rw [if_pos h, min_eq_left ((Dbl.le_iff x y).1 h)]
  · rw [if_neg h, min_eq_right]
    exact le_of_lt (not_le.1 (fun hle => h ((Dbl.le_iff x y).2 hle)))

/-- `Math.round` on a double is `⌊x + 1/2⌋` of the number it stands for. -/
theorem Dbl.round_eq (x : Dbl) : Dbl.round x = ⌊x.toRat + 1 / 2⌋ := by
  unfold Dbl.round Dbl.toRat
  by_cases he : 0 ≤ x.exp
  · rw [if_pos he, ← zpow_toNat_two _ he]
    symm
    rw [Int.floor_eq_iff]
    push_cast
    constructor <;> linarith
  · rw [if_neg he]
    have hk : x.exp = -((-x.exp).toNat : Int) := by omega
    have hp : (0 : ℚ) < (2 : ℚ) ^ (-x.exp).toNat := by positivity
    have hval : (x.mant : ℚ) * (2 : ℚ) ^ x.exp + 1 / 2
        = ((2 * x.mant + 2 ^ (-x.exp).toNat : Int) : ℚ)
            / ((2 * 2 ^ (-x.exp).toNat : Nat) : ℚ) := by
      conv_lhs => rw [hk, zpow_neg, zpow_natCast]
      push_cast
      field_simp
      ring
    rw [hval, Rat.floor_intCast_div_natCast]
    push_cast
    rfl

/-! ## Priority scores in double precision -/

theorem Dbl.mul_comm (x y : Dbl) : x.mul y = y.mul x := by
  unfold Dbl.mul
  rw [Int.mul_comm, Int.add_comm]

theorem Dbl.zero_add (x : Dbl) : (Dbl.ofInt 0).add x = x := by
  have h : (Dbl.ofInt 0).mant = 0 := rfl
  unfold Dbl.add
  rw [if_pos h]

set_option maxRecDepth 100000 in
theorem millisecondsPerDay_eq : millisecondsPerDay = Dbl.ofInt 86400000 := by
  decide

theorem categoryWeightsDouble_lookup (category : String)
    (hcat : category ∈ ["electrical", "water", "waste", "street", "other"]) :
    (categoryWeightsDouble.lookup category).getD (Dbl.ofInt 0)
      = specCategoryWeightDouble category := by
  simp only [List.mem_cons, List.mem_singleton, List.not_mem_nil, or_false] at hcat
  rcases hcat with h | h | h | h | h <;> subst h <;>
    simp [categoryWeightsDouble, specCategoryWeightDouble, List.lookup]

theorem calculatePriorityScoreDouble_of_category (now : Int) (problem : Problem)
    (hcat : problem.category ∈ ["electrical", "water", "waste", "street", "other"]) :
    calculatePriorityScoreDouble now problem
      = specPriorityScoreDouble problem.upvoteCount (specCategoryWeightDouble problem.category)
          (ageInDaysDouble now problem) problem.comments.length := by
  unfold calculatePriorityScoreDouble specPriorityScoreDouble ageInDaysDouble
  dsimp only
  rw [categoryWeightsDouble_lookup _ hcat, Dbl.zero_add, millisecondsPerDay_eq,
    Dbl.mul_comm (Dbl.ofInt problem.upvoteCount), Dbl.mul_comm _ (roundRatio 1 2),
    Dbl.mul_comm (Dbl.ofInt (problem.comments.length : Int))]

set_option maxRecDepth 100000 in
theorem specCategoryWeightDouble_values :
    specCategoryWeightDouble "electrical" = { mant := 5629499534213120, exp := -49 }
      ∧ specCategoryWeightDouble "water" = { mant := 4503599627370496, exp := -49 }
      ∧ specCategoryWeightDouble "waste" = { mant := 6755399441055744, exp := -50 }
      ∧ specCategoryWeightDouble "street" = { mant := 5629499534213120, exp := -50 }
      ∧ specCategoryWeightDouble "other" = { mant := 6755399441055744, exp := -51 } := by
  decide

set_option maxRecDepth 100000 in
theorem specPriorityScoreDouble_example :
    specPriorityScoreDouble 10 (specCategoryWeightDouble "waste")
        ((Dbl.ofInt (4 * 86400000)).div (Dbl.ofInt 86400000)) 3
      = { mant := 8303511812964352, exp := -48 } := by
  decide

/-- C5 (as amended): for a problem of one of the five categories, `calculatePriorityScore`
is the score the spec writes out with every operation carried out in double precision:
twice the upvotes, plus the category weight, plus half the age in days capped at 10, plus
half the number of comments, then times 100, `Math.round`, divided by 100; the weights
are electrical 10, water 8, waste 6, street 5, other 3; and a waste problem with 10
upvotes, 3 comments and an age of exactly 4 days scores exactly 29.5. -/
theorem calculatePriorityScoreDouble_eq_spec :
    (∀ (now : Int) (problem : Problem),
        problem.category ∈ ["electrical", "water", "waste", "street", "other"] →
        calculatePriorityScoreDouble now problem
          = specPriorityScoreDouble problem.upvoteCount
              (specCategoryWeightDouble problem.category)
              (ageInDaysDouble now problem) problem.comments.length)
      ∧ (specCategoryWeightDouble "electrical").toRat = 10
      ∧ (specCategoryWeightDouble "water").toRat = 8
      ∧ (specCategoryWeightDouble "waste").toRat = 6
      ∧ (specCategoryWeightDouble "street").toRat = 5
      ∧ (specCategoryWeightDouble "other").toRat = 3
      ∧ (∀ (now : Int) (problem : Problem),
          problem.category = "waste" → problem.upvoteCount = 10 →
          problem.comments.length = 3 → now - problem.createdAt = 4 * 86400000 →
          (calculatePriorityScoreDouble now problem).toRat = 295 / 10) := by
  obtain ⟨h1, h2, h3, h4, h5⟩ := specCategoryWeightDouble_values
  refine ⟨calculatePriorityScoreDouble_of_category, ?_, ?_, ?_, ?_, ?_, ?_⟩
  · rw [h1]; norm_num [Dbl.toRat]
  · rw [h2]; norm_num [Dbl.toRat]
  · rw [h3]; norm_num [Dbl.toRat]
  · rw [h4]; norm_num [Dbl.toRat]
  · rw [h5]; norm_num [Dbl.toRat]
  · intro now problem hcat hup hcom hage
    rw [calculatePriorityScoreDouble_of_category now problem (by rw [hcat]; decide)]
    unfold ageInDaysDouble
    rw [hcat, hup, hcom, hage, specPriorityScoreDouble_example]
    norm_num [Dbl.toRat]

/-- C5 (witness): `scoredProblem`, four days after its creation, scores 29.5. -/
theorem calculatePriorityScoreDouble_eq_spec_witness :
    (calculatePriorityScoreDouble (4 * 86400000) scoredProblem).toRat = 295 / 10 :=
  calculatePriorityScoreDouble_eq_spec.2.2.2.2.2.2 (4 * 86400000) scoredProblem
    (by decide) (by decide) (by decide) (by decide)

set_option maxRecDepth 100000 in
theorem calculatePriorityScoreDouble_samples :
    calculatePriorityScoreDouble 12960000 electricalProblem
        = { mant := 5668906030952612, exp := -49 }
      ∧ roundRatio 1007 100 = { mant := 5668906030952612, exp := -49 }
      ∧ calculatePriorityScoreDouble 2592000 electricalProblem
        = { mant := 5640758533281546, exp := -49 }
      ∧ roundRatio 1002 100 = { mant := 5640758533281546, exp := -49 }
      ∧ calculatePriorityScoreDouble 85536000 waterProblem
        = { mant := 5623870034678907, exp := -49 }
      ∧ roundRatio 999 100 = { mant := 5623870034678907, exp := -49 } := by
  decide

/-- C5 (counterexample): an electrical problem without upvotes or comments. At the age of
12 960 000 ms the exact score is 10.075, which rounds to 10.08, but the engine returns
the double 10.07; at the age of 2 592 000 ms the exact score is 10.015 and the engine
returns 10.02. A water problem with 3 comments at the age of 85 536 000 ms has the exact
score 9.995, which rounds to 10 (`medium`), but the engine returns 9.99 (`low`). -/
theorem calculatePriorityScoreDouble_not_exact :
    specPriorityScore electricalProblem.upvoteCount
        (specCategoryWeight electricalProblem.category)
        (ageInDays 12960000 electricalProblem) electricalProblem.comments.length = 1008 / 100
      ∧ calculatePriorityScoreDouble 12960000 electricalProblem = roundRatio 1007 100
      ∧ (calculatePriorityScoreDouble 12960000 electricalProblem).toRat < 10075 / 1000
      ∧ specPriorityScore electricalProblem.upvoteCount
          (specCategoryWeight electricalProblem.category)
          (ageInDays 2592000 electricalProblem) electricalProblem.comments.length = 1002 / 100
      ∧ calculatePriorityScoreDouble 2592000 electricalProblem = roundRatio 1002 100
      ∧ specPriorityScore waterProblem.upvoteCount (specCategoryWeight waterProblem.category)
          (ageInDays 85536000 waterProblem) waterProblem.comments.length = 10
      ∧ getPriorityLevel 10 = "medium"
      ∧ calculatePriorityScoreDouble 85536000 waterProblem = roundRatio 999 100
      ∧ getPriorityLevel (calculatePriorityScoreDouble 85536000 waterProblem).toRat
          = "low" := by
  obtain ⟨hE, hE', hF, hF', hW, hW'⟩ := calculatePriorityScoreDouble_samples
  refine ⟨?_, by rw [hE, hE'], ?_, ?_, by rw [hF, hF'], ?_, ?_, by rw [hW, hW'], ?_⟩
  · simp only [specPriorityScore, specCategoryWeight, ageInDays, electricalProblem,
      sampleProblem]
    norm_num
  · rw [hE]
    norm_num [Dbl.toRat]
  · simp only [specPriorityScore, specCategoryWeight, ageInDays, electricalProblem,
      sampleProblem]
    norm_num
  · have hw : specCategoryWeight waterProblem.category = 8 := by decide
    rw [hw]
    simp only [specPriorityScore, ageInDays, waterProblem, sampleProblem]
    norm_num
  · norm_num [getPriorityLevel]
  · rw [hW]
    norm_num [getPriorityLevel, Dbl.toRat]

/-- C6: `getPriorityLevel` is `critical` exactly from 20 up, `high` exactly on [15, 20),
`medium` exactly on [10, 15) and `low` exactly below 10. -/
theorem getPriorityLevel_iff (score : ℚ) :
    (getPriorityLevel score = "critical" ↔ 20 ≤ score)
      ∧ (getPriorityLevel score = "high" ↔ 15 ≤ score ∧ score < 20)
      ∧ (getPriorityLevel score = "medium" ↔ 10 ≤ score ∧ score < 15)
      ∧ (getPriorityLevel score = "low" ↔ score < 10) := by
  unfold getPriorityLevel
  by_cases h20 : score ≥ 20
  · simp only [if_pos h20]
    refine ⟨?_, ?_, ?_, ?_⟩
    · simpa using h20
    · constructor
      · intro h; exact absurd h (by decide)
      · intro h; linarith [h.2]
    · constructor
      · intro h; exact absurd h (by decide)
      · intro h; linarith [h.2]
    · constructor
      · intro h; exact absurd h (by decide)
      · intro h; linarith
  · simp only [if_neg h20]
    by_cases h15 : score ≥ 15
    · simp only [if_pos h15]
      refine ⟨?_, ?_, ?_, ?_⟩
      · constructor
        · intro h; exact absurd h (by decide)
        · intro h; exact absurd h h20
      · constructor
        · intro _; exact ⟨h15, lt_of_not_ge h20⟩
        · intro _; trivial
      · constructor
        · intro h; exact absurd h (by decide)
        · intro h; linarith [h.2]
      · constructor
        · intro h; exact absurd h (by decide)
        · intro h; linarith
    · simp only [if_neg h15]
      by_cases h10 : score ≥ 10
      · simp only [if_pos h10]
        refine ⟨?_, ?_, ?_, ?_⟩
        · constructor
          · intro h; exact absurd h (by decide)
          · intro h; exact absurd h h20
        · constructor
          · intro h; exact absurd h (by decide)
          · intro h; exact absurd h.1 h15
        · constructor
          · intro _; exact ⟨h10, lt_of_not_ge h15⟩
          · intro _; trivial
        · constructor
          · intro h; exact absurd h (by decide)
          · intro h; linarith
      · simp only [if_neg h10]
        refine ⟨?_, ?_, ?_, ?_⟩
        · constructor
          · intro h; exact absurd h (by decide)
          · intro h; exact absurd h h20
        · constructor
          · intro h; exact absurd h (by decide)
          · intro h; exact absurd h.1 h15
        · constructor
          · intro h; exact absurd h (by decide)
          · intro h; exact absurd h.1 h10
        · constructor
          · intro _; exact lt_of_not_ge h10
          · intro _; trivial

theorem filter_orderedInsert_score (c : ℚ) (x : PrioritizedProblem)
    (l : List PrioritizedProblem) :
    (l.orderedInsert rankedBefore x).filter (fun e => decide (e.priorityScore = c))
      = if x.priorityScore = c then x :: l.filter (fun e => decide (e.priorityScore = c))
        else l.filter (fun e => decide (e.priorityScore = c)) := by
  induction l with
  | nil => by_cases hx : x.priorityScore = c <;> simp [List.filter_cons, hx]
  | cons b l ih =>
    rw [List.orderedInsert]
    by_cases hxb : rankedBefore x b
    · rw [if_pos hxb]
      by_cases hx : x.priorityScore = c <;> simp [List.filter_cons, hx]
    · rw [if_neg hxb, List.filter_cons, ih]
      have hlt : x.priorityScore < b.priorityScore := lt_of_not_ge hxb
      by_cases hx : x.priorityScore = c
      · have hb : ¬ b.priorityScore = c := by rw [← hx]; exact ne_of_gt hlt
        simp [List.filter_cons, hx, hb]
      · by_cases hb : b.priorityScore = c <;> simp [List.filter_cons, hx, hb]

/-- The sort is stable: among the entries of one score it keeps the order it was given. -/
theorem filter_sortByScore (c : ℚ) (l : List PrioritizedProblem) :
    (sortByScore l).filter (fun e => decide (e.priorityScore = c))
      = l.filter (fun e => decide (e.priorityScore = c)) := by
  unfold sortByScore
  induction l with
  | nil => rfl
  | cons x l ih =>
    rw [List.insertionSort, filter_orderedInsert_score, ih]
    by_cases hx : x.priorityScore = c <;> simp [List.filter_cons, hx]

theorem attachPriority_problem (now : Int) (l : List Problem) :
    (l.map (attachPriority now)).map (fun e => e.problem) = l := by
  induction l with
  | nil => rfl
  | cons a l ih => rw [List.map_cons, List.map_cons, ih]; rfl

/-- C7 (as amended): whenever two entries of the ranked list have identical priority
score, they stand in the order in which the store returned their problems: the sort is
stable and the creation time plays no part. -/
theorem prioritizeProblems_ties_keep_store_order (s : Store) (now : Int)
    (a b : PrioritizedProblem)
    (hab : [a, b].Sublist (prioritizeProblems s now).prioritizedProblems)
    (htie : a.priorityScore = b.priorityScore) :
    [a.problem, b.problem].Sublist (s.problems.filter (fun p => p.status == "pending")) := by
  have h1 : [a, b].Sublist (prioritized s now) :=
    hab.trans (List.take_sublist 10 _)
  have h2 := h1.filter (fun e => decide (e.priorityScore = b.priorityScore))
  unfold prioritized at h2
  rw [filter_sortByScore] at h2
  have h3 : [a, b].Sublist
      ((s.problems.filter (fun p => p.status == "pending")).map (attachPriority now)) := by
    refine List.Sublist.trans ?_ (h2.trans (List.filter_sublist _))
    simp [List.filter_cons, htie]
  have h4 := h3.map (fun e => e.problem)
  rw [attachPriority_problem] at h4
  simpa using h4

theorem sorted_take_ten (s : Store) (now : Int) :
    ((prioritizeProblems s now).prioritizedProblems).Pairwise
      (fun a b => b.priorityScore ≤ a.priorityScore) := by
  have h : (prioritized s now).Sorted rankedBefore := by
    unfold prioritized sortByScore
    exact List.sorted_insertionSort rankedBefore _
  exact List.Pairwise.sublist (List.take_sublist 10 _) h

/-- A street problem without upvotes or comments that is at least twenty days old
scores 15: weight 5 and the capped age term 10. -/
theorem calculatePriorityScore_street_old (now : Int) (problem : Problem)
    (hcat : problem.category = "street") (hup : problem.upvoteCount = 0)
    (hcom : problem.comments = []) (hage : 20 * 86400000 ≤ now - problem.createdAt) :
    calculatePriorityScore now problem = 15 := by
  unfold calculatePriorityScore mathRound
  have hw : (categoryWeights.lookup "street").getD 0 = 5 := by
    simp [categoryWeights, List.lookup]
  have hage' : (20 * 86400000 : ℚ) ≤ ((now - problem.createdAt : Int) : ℚ) := by
    exact_mod_cast hage
  have hmin : min (((now - problem.createdAt : Int) : ℚ) / (1000 * 60 * 60 * 24) * (1 / 2)) 10
      = 10 := by
    apply min_eq_right
    rw [div_mul_eq_mul_div, le_div_iff₀ (by norm_num)]
    linarith
  dsimp only
  rw [hcat, hup, hcom, hw, hmin]
  have hfloor : ⌊((0 + ((0 : Int) : ℚ) * 2 + 5 + 10
      + ((([] : List Comment).length : Nat) : ℚ) * (1 / 2)) * 100 + 1 / 2 : ℚ)⌋ = 1500 := by
    rw [Int.floor_eq_iff]
    norm_num
  rw [hfloor]
  norm_num

theorem prioritizeProblems_tiedStore :
    (prioritizeProblems tiedStore thirtyDays).prioritizedProblems
      = [tiedEntryLater, tiedEntryEarlier] := by
  have h2 := calculatePriorityScore_street_old thirtyDays
    { sampleProblem with id := 2, category := "street", createdAt := 86400000 }
    rfl rfl rfl (by decide)
  have h3 := calculatePriorityScore_street_old thirtyDays
    { sampleProblem with id := 3, category := "street", createdAt := 0 }
    rfl rfl rfl (by decide)
  have hlevel : getPriorityLevel 15 = "high" := by
    unfold getPriorityLevel
    norm_num
  have hpending : tiedStore.problems.filter (fun p => p.status == "pending")
      = [{ sampleProblem with id := 2, category := "street", createdAt := 86400000 },
         { sampleProblem with id := 3, category := "street", createdAt := 0 }] := by
    decide
  simp only [prioritizeProblems, prioritized, hpending, sortByScore, List.map_cons,
    List.map_nil, attachPriority, h2, h3, hlevel, List.insertionSort, List.orderedInsert,
    rankedBefore, le_refl, if_true, List.take]
  rfl

/-- C7 (witness): the two tied entries of `tiedStore` stand in the order of the store. -/
theorem prioritizeProblems_ties_keep_store_order_witness :
    [tiedEntryLater.problem, tiedEntryEarlier.problem].Sublist
      (tiedStore.problems.filter (fun p => p.status == "pending")) :=
  prioritizeProblems_ties_keep_store_order tiedStore thirtyDays tiedEntryLater tiedEntryEarlier
    (by rw [prioritizeProblems_tiedStore]) rfl

/-- C7 (counterexample): the two pending problems of `tiedStore` both score 15 when the
clock reads `thirtyDays`; the store returns the one created later first, and the ranked
list has it first, before the one created earlier. -/
theorem prioritizeProblems_later_first :
    tiedStore.problems.map (fun p => (p.id, p.status, p.createdAt))
        = [(2, "pending", 86400000), (3, "pending", 0)]
      ∧ (prioritizeProblems tiedStore thirtyDays).prioritizedProblems
        = [tiedEntryLater, tiedEntryEarlier]
      ∧ tiedEntryLater.priorityScore = tiedEntryEarlier.priorityScore
      ∧ tiedEntryEarlier.problem.createdAt < tiedEntryLater.problem.createdAt :=
  ⟨by decide, prioritizeProblems_tiedStore, rfl, by decide⟩

/-- C8: every entry of the list produced by `prioritizeProblems` is a stored problem of
status `pending` carrying `priorityScore = calculatePriorityScore(problem)` and
`priorityLevel = getPriorityLevel(priorityScore)`, and the list is in non-increasing order
of `priorityScore`. -/
theorem prioritizeProblems_pending_scored_sorted (s : Store) (now : Int) :
    (∀ e ∈ (prioritizeProblems s now).prioritizedProblems,
        e.problem ∈ s.problems ∧ e.problem.status = "pending"
          ∧ e.priorityScore = calculatePriorityScore now e.problem
          ∧ e.priorityLevel = getPriorityLevel e.priorityScore)
      ∧ ((prioritizeProblems s now).prioritizedProblems).Pairwise
          (fun a b => b.priorityScore ≤ a.priorityScore) := by
  refine ⟨?_, sorted_take_ten s now⟩
  intro e he
  have h1 : e ∈ prioritized s now := List.mem_of_mem_take he
  unfold prioritized sortByScore at h1
  rw [List.mem_insertionSort, List.mem_map] at h1
  obtain ⟨p, hp, rfl⟩ := h1
  rw [List.mem_filter] at hp
  exact ⟨hp.1, by simpa using hp.2, rfl, rfl⟩

theorem splitNonWordAux_ne_nil (cs : List Char) (inSeparator : Bool) :
    splitNonWordAux cs inSeparator ≠ [] := by
  induction cs generalizing inSeparator with
  | nil => simp [splitNonWordAux]
  | cons c cs ih =>
    unfold splitNonWordAux
    by_cases hc : isWordChar c = true
    · rw [if_pos hc]
      cases h : splitNonWordAux cs false with
      | nil => simp
      | cons piece pieces => simp
    · rw [if_neg hc]
      cases inSeparator with
      | true => simpa using ih true
      | false => simp

theorem splitNonWord_ne_nil (text : String) : splitNonWord text ≠ [] := by
  unfold splitNonWord
  intro h
  exact splitNonWordAux_ne_nil _ _ (List.map_eq_nil_iff.1 h)

/-- Adding to a set elements it already has leaves it as it is. -/
theorem foldl_insert_of_subset (xs acc : List String) (h : ∀ x ∈ xs, x ∈ acc) :
    xs.foldl (fun acc x => if x ∈ acc then acc else acc ++ [x]) acc = acc := by
  induction xs with
  | nil => rfl
  | cons x xs ih =>
    rw [List.foldl_cons, if_pos (h x (List.mem_cons_self x xs))]
    exact ih (fun y hy => h y (List.mem_cons_of_mem x hy))

/-- Adding to a set distinct elements it does not have appends them. -/
theorem foldl_insert_of_nodup (xs acc : List String) (h : (acc ++ xs).Nodup) :
    xs.foldl (fun acc x => if x ∈ acc then acc else acc ++ [x]) acc = acc ++ xs := by
  induction xs generalizing acc with
  | nil => simp
  | cons x xs ih =>
    have hx : x ∉ acc := by
      intro hmem
      rw [List.nodup_append] at h
      exact h.2.2 hmem (List.mem_cons_self x xs)
    rw [List.foldl_cons, if_neg hx, ih (acc ++ [x]) (by simpa using h)]
    simp

theorem foldl_insert_nodup (xs acc : List String) (h : acc.Nodup) :
    (xs.foldl (fun acc x => if x ∈ acc then acc else acc ++ [x]) acc).Nodup := by
  induction xs generalizing acc with
  | nil => exact h
  | cons x xs ih =>
    rw [List.foldl_cons]
    by_cases hx : x ∈ acc
    · rw [if_pos hx]; exact ih acc h
    · rw [if_neg hx]
      apply ih
      rw [List.nodup_append]
      refine ⟨h, List.nodup_singleton x, ?_⟩
      intro a ha hb
      rw [List.mem_singleton] at hb
      exact hx (hb ▸ ha)

theorem mem_foldl_insert (xs acc : List String) (y : String) :
    y ∈ xs.foldl (fun acc x => if x ∈ acc then acc else acc ++ [x]) acc
      ↔ y ∈ acc ∨ y ∈ xs := by
  induction xs generalizing acc with
  | nil => simp
  | cons x xs ih =>
    rw [List.foldl_cons, ih]
    by_cases hx : x ∈ acc
    · rw [if_pos hx, List.mem_cons]
      constructor
      · rintro (h | h)
        · exact Or.inl h
        · exact Or.inr (Or.inr h)
      · rintro (h | h | h)
        · exact Or.inl h
        · exact Or.inl (h ▸ hx)
        · exact Or.inr h
    · rw [if_neg hx, List.mem_append, List.mem_singleton, List.mem_cons]
      tauto

theorem mkSet_nodup (xs : List String) : (mkSet xs).Nodup :=
  foldl_insert_nodup xs [] List.nodup_nil

theorem mem_mkSet (xs : List String) (y : String) : y ∈ mkSet xs ↔ y ∈ xs := by
  unfold mkSet
  rw [mem_foldl_insert]
  simp

theorem mkSet_ne_nil (xs : List String) (h : xs ≠ []) : mkSet xs ≠ [] := by
  obtain ⟨x, hx⟩ := List.exists_mem_of_ne_nil xs h
  exact List.ne_nil_of_mem ((mem_mkSet xs x).2 hx)

theorem mkSet_of_nodup (xs : List String) (h : xs.Nodup) : mkSet xs = xs := by
  unfold mkSet
  rw [foldl_insert_of_nodup xs [] (by simpa using h)]
  simp

/-- A text compared with itself: both sets are the same non-empty set of pieces, so the
quotient is 1. -/
theorem calculateSimilarity_same (toLowerCase : String → String) (text : String) :
    calculateSimilarity toLowerCase text text = 1 := by
  unfold calculateSimilarity
  have hnd := mkSet_nodup (splitNonWord (toLowerCase text))
  have hne := mkSet_ne_nil _ (splitNonWord_ne_nil (toLowerCase text))
  have hinter : (mkSet (splitNonWord (toLowerCase text))).filter
      (fun x => decide (x ∈ mkSet (splitNonWord (toLowerCase text))))
      = mkSet (splitNonWord (toLowerCase text)) := by
    rw [List.filter_eq_self]
    intro a ha
    simpa using ha
  have hunion : mkSet (mkSet (splitNonWord (toLowerCase text))
      ++ mkSet (splitNonWord (toLowerCase text))) = mkSet (splitNonWord (toLowerCase text)) := by
    conv_lhs => unfold mkSet
    rw [List.foldl_append]
    have h1 := mkSet_of_nodup _ hnd
    unfold mkSet at h1 ⊢
    rw [h1]
    exact foldl_insert_of_subset _ _ (fun x hx => hx)
  dsimp only
  rw [hinter, mkSet_of_nodup _ hnd, hunion]
  have hlen : ((mkSet (splitNonWord (toLowerCase text))).length : ℚ) ≠ 0 := by
    have : 0 < (mkSet (splitNonWord (toLowerCase text))).length := List.length_pos.2 hne
    exact_mod_cast this.ne'
  exact div_self hlen

/-- C9: the similarity of a string with itself is 1, for every string (a non-empty one
in particular) and every lower-casing. -/
theorem calculateSimilarity_self (toLowerCase : String → String) (x : String) :
    calculateSimilarity toLowerCase x x = 1 :=
  calculateSimilarity_same toLowerCase x

/-- C10 (as amended): `calculateSimilarity` has no case for empty input. For two empty
strings, as for any two texts, the result is the size of the intersection of the two word
sets over the size of their union, and it is not 0. -/
theorem calculateSimilarity_empty_unguarded (toLowerCase : String → String) :
    (∀ text1 text2 : String,
        calculateSimilarity toLowerCase text1 text2
          = ((mkSet ((mkSet (splitNonWord (toLowerCase text1))).filter
                (fun x => decide (x ∈ mkSet (splitNonWord (toLowerCase text2)))))).length : ℚ)
            / ((mkSet (mkSet (splitNonWord (toLowerCase text1))
                ++ mkSet (splitNonWord (toLowerCase text2)))).length : ℚ))
      ∧ calculateSimilarity toLowerCase "" "" ≠ 0 := by
  refine ⟨fun _ _ => rfl, ?_⟩
  rw [calculateSimilarity_same]
  exact one_ne_zero

/-- C10 (counterexample): the similarity of two empty strings is 1, not 0. -/
theorem calculateSimilarity_empty_strings_ne_zero :
    calculateSimilarity asciiLower "" "" = 1 ∧ calculateSimilarity asciiLower "" "" ≠ 0 := by
  have h : calculateSimilarity asciiLower "" "" = 1 := by
    simp [calculateSimilarity, mkSet, splitNonWord, splitNonWordAux, asciiLower]
  exact ⟨h, by rw [h]; norm_num⟩

/-! ## Similarity and the word tokens of the spec -/

theorem calculateSimilarity_unfold (toLowerCase : String → String) (text1 text2 : String) :
    calculateSimilarity toLowerCase text1 text2
      = ((mkSet ((mkSet (splitNonWord (toLowerCase text1))).filter
            (fun x => decide (x ∈ mkSet (splitNonWord (toLowerCase text2)))))).length : ℚ)
        / ((mkSet (mkSet (splitNonWord (toLowerCase text1))
            ++ mkSet (splitNonWord (toLowerCase text2)))).length : ℚ) :=
  rfl

/-- The pieces of `split(/\W+/)` and the runs between single non-word characters differ
only in empty pieces. -/
theorem splitNonWordAux_runs (cs : List Char) :
    (∃ h t t', splitNonWordAux cs false = h :: t
        ∧ cs.splitOnP (fun c => !isWordChar c) = h :: t'
        ∧ t.filter (fun run => !run.isEmpty) = t'.filter (fun run => !run.isEmpty))
      ∧ (splitNonWordAux cs true).filter (fun run => !run.isEmpty)
          = (cs.splitOnP (fun c => !isWordChar c)).filter (fun run => !run.isEmpty) := by
  induction cs with
  | nil => exact ⟨⟨[], [], [], rfl, rfl, rfl⟩, rfl⟩
  | cons c cs ih =>
    obtain ⟨⟨h, t, t', h1, h2, h3⟩, h4⟩ := ih
    by_cases hc : isWordChar c = true
    · have e1 : ∀ b, splitNonWordAux (c :: cs) b = (c :: h) :: t := by
        intro b
        rw [splitNonWordAux, if_pos hc, h1]
      have e2 : (c :: cs).splitOnP (fun c => !isWordChar c) = (c :: h) :: t' := by
        rw [List.splitOnP_cons, h2]
        simp [hc]
      refine ⟨⟨c :: h, t, t', e1 false, e2, h3⟩, ?_⟩
      rw [e1 true, e2, List.filter_cons, List.filter_cons, h3]
    · have e2 : (c :: cs).splitOnP (fun c => !isWordChar c)
          = [] :: cs.splitOnP (fun c => !isWordChar c) := by
        rw [List.splitOnP_cons]
        simp [hc]
      have e1 : splitNonWordAux (c :: cs) false = [] :: splitNonWordAux cs true := by
        rw [splitNonWordAux, if_neg hc]
        simp
      have e3 : splitNonWordAux (c :: cs) true = splitNonWordAux cs true := by
        rw [splitNonWordAux, if_neg hc]
        simp
      refine ⟨⟨[], splitNonWordAux cs true, cs.splitOnP (fun c => !isWordChar c), e1, e2, h4⟩,
        ?_⟩
      rw [e3, e2, h4]
      simp

/-- The word tokens of a text are the non-empty pieces of `split(/\W+/)`. -/
theorem wordTokens_eq_filter (text : String) :
    wordTokens text = (splitNonWord text).filter (fun w => w != "") := by
  obtain ⟨⟨h, t, t', h1, h2, h3⟩, _⟩ := splitNonWordAux_runs text.toList
  unfold wordTokens splitNonWord
  rw [h1, h2, List.filter_map, List.filter_cons, List.filter_cons, ← h3]
  have hfun : ((fun w : String => w != "") ∘ String.mk)
      = fun run : List Char => !run.isEmpty := by
    funext run
    cases run <;> simp [String.ext_iff]
  rw [hfun]

theorem wordTokens_eq_of_no_empty_piece (text : String) (h : "" ∉ splitNonWord text) :
    wordTokens text = splitNonWord text := by
  rw [wordTokens_eq_filter, List.filter_eq_self]
  intro w hw
  have : w ≠ "" := fun e => h (e ▸ hw)
  simpa using this

/-- Where `split(/\W+/)` leaves no empty piece in either lower-cased text, the similarity
is the Jaccard quotient of the word tokens. -/
theorem calculateSimilarity_eq_jaccardOfTokens (toLowerCase : String → String)
    (text1 text2 : String) (h1 : "" ∉ splitNonWord (toLowerCase text1))
    (h2 : "" ∉ splitNonWord (toLowerCase text2)) :
    calculateSimilarity toLowerCase text1 text2 = jaccardOfTokens toLowerCase text1 text2 := by
  unfold jaccardOfTokens
  rw [wordTokens_eq_of_no_empty_piece _ h1, wordTokens_eq_of_no_empty_piece _ h2]
  rfl

/-- C11 (failing input): the trailing `!` of `"Garbage overflow!"` leaves an empty piece in
its word set, so the similarity with `"garbage overflow"` is 2/3, while the Jaccard
quotient of the word tokens of the two texts is 1. -/
theorem calculateSimilarity_trailing_punctuation :
    mkSet (splitNonWord (asciiLower "Garbage overflow!")) = ["garbage", "overflow", ""]
      ∧ mkSet (splitNonWord (asciiLower "garbage overflow")) = ["garbage", "overflow"]
      ∧ calculateSimilarity asciiLower "Garbage overflow!" "garbage overflow" = 2 / 3
      ∧ jaccardOfTokens asciiLower "Garbage overflow!" "garbage overflow" = 1 := by
  refine ⟨by decide, by decide, ?_, ?_⟩
  · have hi : (mkSet ((mkSet (splitNonWord (asciiLower "Garbage overflow!"))).filter
        (fun x => decide (x ∈ mkSet (splitNonWord (asciiLower "garbage overflow")))))).length
        = 2 := by decide
    have hu : (mkSet (mkSet (splitNonWord (asciiLower "Garbage overflow!"))
        ++ mkSet (splitNonWord (asciiLower "garbage overflow")))).length = 3 := by decide
    rw [calculateSimilarity_unfold, hi, hu]
    norm_num
  · have hi : (mkSet ((mkSet (wordTokens (asciiLower "Garbage overflow!"))).filter
        (fun x => decide (x ∈ mkSet (wordTokens (asciiLower "garbage overflow")))))).length
        = 2 := by decide
    have hu : (mkSet (mkSet (wordTokens (asciiLower "Garbage overflow!"))
        ++ mkSet (wordTokens (asciiLower "garbage overflow")))).length = 2 := by decide
    unfold jaccardOfTokens
    dsimp only
    rw [hi, hu]
    norm_num

/-! ## Duplicate check -/

theorem isCandidate_iff (draft : Draft) (p : Problem) :
    isCandidate draft p = true
      ↔ p.category = draft.category ∧ p.municipality = draft.municipality
          ∧ (p.status = "pending" ∨ p.status = "in_progress") := by
  simp [isCandidate, and_assoc]

theorem isSimilar_iff (toLowerCase : String → String) (draft : Draft) (p : Problem) :
    isSimilar toLowerCase draft p = true
      ↔ (calculateSimilarity toLowerCase draft.title p.title > 7 / 10
          ∨ calculateSimilarity toLowerCase draft.description p.description > 6 / 10) := by
  simp [isSimilar]

theorem isDuplicate_iff_exists (toLowerCase : String → String) (s : Store)
    (draft : Draft) :
    (checkDuplicates toLowerCase s draft).isDuplicate = true
      ↔ ∃ p ∈ s.problems,
          isCandidate draft p = true ∧ isSimilar toLowerCase draft p = true := by
  unfold checkDuplicates
  simp only [decide_eq_true_eq, gt_iff_lt]
  rw [List.length_pos_iff_exists_mem]
  constructor
  · rintro ⟨p, hp⟩
    rw [List.mem_filter, List.mem_filter] at hp
    exact ⟨p, hp.1.1, hp.1.2, hp.2⟩
  · rintro ⟨p, hp, hc, hs⟩
    exact ⟨p, List.mem_filter.2 ⟨List.mem_filter.2 ⟨hp, hc⟩, hs⟩⟩

/-- C12: `checkDuplicates` reports `isDuplicate` exactly when some stored problem of the
category and municipality of the draft, pending or in progress, has title similarity above
0.7 or description similarity above 0.6; the problems outside the query change nothing;
and a candidate with the very title of the draft is always flagged. -/
theorem checkDuplicates_isDuplicate_iff (toLowerCase : String → String) (s : Store)
    (draft : Draft) :
    ((checkDuplicates toLowerCase s draft).isDuplicate = true
        ↔ ∃ p ∈ s.problems,
            p.category = draft.category ∧ p.municipality = draft.municipality
              ∧ (p.status = "pending" ∨ p.status = "in_progress")
              ∧ (calculateSimilarity toLowerCase draft.title p.title > 7 / 10
                ∨ calculateSimilarity toLowerCase draft.description p.description > 6 / 10))
      ∧ checkDuplicates toLowerCase
            { problems := s.problems.filter (isCandidate draft), users := s.users } draft
          = checkDuplicates toLowerCase s draft
      ∧ (∀ p ∈ s.problems,
          p.category = draft.category → p.municipality = draft.municipality →
          (p.status = "pending" ∨ p.status = "in_progress") → p.title = draft.title →
          (checkDuplicates toLowerCase s draft).isDuplicate = true) := by
  refine ⟨?_, ?_, ?_⟩
  · rw [isDuplicate_iff_exists]
    constructor
    · rintro ⟨p, hp, hc, hs⟩
      rw [isCandidate_iff] at hc
      rw [isSimilar_iff] at hs
      exact ⟨p, hp, hc.1, hc.2.1, hc.2.2, hs⟩
    · rintro ⟨p, hp, h1, h2, h3, h4⟩
      exact ⟨p, hp, (isCandidate_iff draft p).2 ⟨h1, h2, h3⟩,
        (isSimilar_iff toLowerCase draft p).2 h4⟩
  · unfold checkDuplicates
    simp only [List.filter_filter, Bool.and_self]
  · intro p hp h1 h2 h3 h4
    rw [isDuplicate_iff_exists]
    refine ⟨p, hp, (isCandidate_iff draft p).2 ⟨h1, h2, h3⟩, ?_⟩
    rw [isSimilar_iff, h4, calculateSimilarity_same]
    left
    norm_num

/-- C12 (witness): `sampleProblem` has the title of `sampleDraft` and is flagged. -/
theorem checkDuplicates_isDuplicate_iff_witness :
    (checkDuplicates asciiLower sampleStore sampleDraft).isDuplicate = true :=
  (checkDuplicates_isDuplicate_iff asciiLower sampleStore sampleDraft).2.2 sampleProblem
    (by decide) (by decide) (by decide) (by decide) (by decide)

/-- C13 (as amended): `checkDuplicates` returns at most 3 matches, every returned match is
a stored candidate that satisfies the duplicate criterion, and the matches are the first
three flagged candidates in the order in which the store returned them: no similarity
orders or selects them. -/
theorem checkDuplicates_first_three (toLowerCase : String → String) (s : Store)
    (draft : Draft) :
    (checkDuplicates toLowerCase s draft).similarProblems.length ≤ 3
      ∧ (∀ p ∈ (checkDuplicates toLowerCase s draft).similarProblems,
          p ∈ s.problems ∧ isCandidate draft p = true
            ∧ (calculateSimilarity toLowerCase draft.title p.title > 7 / 10
              ∨ calculateSimilarity toLowerCase draft.description p.description > 6 / 10))
      ∧ (checkDuplicates toLowerCase s draft).similarProblems
          = (s.problems.filter
              (fun p => isCandidate draft p && isSimilar toLowerCase draft p)).take 3
      ∧ ((checkDuplicates toLowerCase s draft).similarProblems).Sublist s.problems := by
  have hsub : (checkDuplicates toLowerCase s draft).similarProblems
      = (s.problems.filter
          (fun p => isCandidate draft p && isSimilar toLowerCase draft p)).take 3 := by
    unfold checkDuplicates
    simp only [List.filter_filter]
    congr 2
    funext p
    exact Bool.and_comm _ _
  refine ⟨?_, ?_, hsub, ?_⟩
  · rw [hsub, List.length_take]
    exact Nat.min_le_left _ _
  · intro p hp
    rw [hsub] at hp
    have hp' := List.mem_filter.1 (List.mem_of_mem_take hp)
    rw [Bool.and_eq_true] at hp'
    exact ⟨hp'.1, hp'.2.1, (isSimilar_iff toLowerCase draft p).1 hp'.2.2⟩
  · rw [hsub]
    exact (List.take_sublist _ _).trans (List.filter_sublist _)

theorem calculateSimilarity_near_title :
    calculateSimilarity asciiLower "Garbage overflow near market"
      "Garbage overflow near the market" = 4 / 5 := by
  have hi : (mkSet ((mkSet (splitNonWord (asciiLower "Garbage overflow near market"))).filter
      (fun x => decide
        (x ∈ mkSet (splitNonWord (asciiLower "Garbage overflow near the market")))))).length
      = 4 := by decide
  have hu : (mkSet (mkSet (splitNonWord (asciiLower "Garbage overflow near market"))
      ++ mkSet (splitNonWord (asciiLower "Garbage overflow near the market")))).length
      = 5 := by decide
  rw [calculateSimilarity_unfold, hi, hu]
  norm_num

theorem calculateSimilarity_other_description :
    calculateSimilarity asciiLower "Bins are overflowing" "Smell" = 0 := by
  have hi : (mkSet ((mkSet (splitNonWord (asciiLower "Bins are overflowing"))).filter
      (fun x => decide (x ∈ mkSet (splitNonWord (asciiLower "Smell")))))).length = 0 := by
    decide
  rw [calculateSimilarity_unfold, hi]
  norm_num

theorem isSimilar_nearDuplicate (id : Nat) :
    isSimilar asciiLower sampleDraft (nearDuplicate id) = true := by
  rw [isSimilar_iff]
  left
  show calculateSimilarity asciiLower "Garbage overflow near market"
    "Garbage overflow near the market" > 7 / 10
  rw [calculateSimilarity_near_title]
  norm_num

theorem isSimilar_sampleProblem : isSimilar asciiLower sampleDraft sampleProblem = true := by
  rw [isSimilar_iff]
  left
  show calculateSimilarity asciiLower "Garbage overflow near market"
    "Garbage overflow near market" > 7 / 10
  rw [calculateSimilarity_same]
  norm_num

/-- C13 (counterexample): of the four flagged candidates of `duplicateStore` the three
returned are the near duplicates, in store order, each with title similarity 4/5 and
description similarity 0; `sampleProblem`, whose title and description have similarity 1
with the draft, comes fourth in the store and is not returned. -/
theorem checkDuplicates_not_most_similar :
    (checkDuplicates asciiLower duplicateStore sampleDraft).similarProblems
        = [nearDuplicate 2, nearDuplicate 3, nearDuplicate 4]
      ∧ isCandidate sampleDraft sampleProblem = true
      ∧ isSimilar asciiLower sampleDraft sampleProblem = true
      ∧ sampleProblem ∉ (checkDuplicates asciiLower duplicateStore sampleDraft).similarProblems
      ∧ (∀ id, calculateSimilarity asciiLower sampleDraft.title (nearDuplicate id).title = 4 / 5
          ∧ calculateSimilarity asciiLower sampleDraft.description
              (nearDuplicate id).description = 0)
      ∧ calculateSimilarity asciiLower sampleDraft.title sampleProblem.title = 1
      ∧ calculateSimilarity asciiLower sampleDraft.description sampleProblem.description
          = 1 := by
  have hres : (checkDuplicates asciiLower duplicateStore sampleDraft).similarProblems
      = [nearDuplicate 2, nearDuplicate 3, nearDuplicate 4] := by
    have hcand : duplicateStore.problems.filter (isCandidate sampleDraft)
        = [nearDuplicate 2, nearDuplicate 3, nearDuplicate 4, sampleProblem] := by decide
    unfold checkDuplicates
    simp only [hcand, List.filter_cons, List.filter_nil, isSimilar_nearDuplicate,
      isSimilar_sampleProblem, if_true, List.take]
  refine ⟨hres, by decide, isSimilar_sampleProblem, ?_, ?_, ?_, ?_⟩
  · rw [hres]
    decide
  · intro id
    exact ⟨calculateSimilarity_near_title, calculateSimilarity_other_description⟩
  · exact calculateSimilarity_same _ _
  · exact calculateSimilarity_same _ _

/-! ## Resolution time prediction -/

theorem multipliers_lookup :
    multipliers.lookup "critical" = some (1 / 2) ∧ multipliers.lookup "high" = some (7 / 10)
      ∧ multipliers.lookup "medium" = some 1 ∧ multipliers.lookup "low" = some (13 / 10) := by
  simp [multipliers, List.lookup]

theorem adjustForPriority_listed (avgDays : ℚ) :
    adjustForPriority avgDays (some "critical") = some (mathRound (avgDays * (1 / 2)))
      ∧ adjustForPriority avgDays (some "high") = some (mathRound (avgDays * (7 / 10)))
      ∧ adjustForPriority avgDays (some "medium") = some (mathRound (avgDays * 1))
      ∧ adjustForPriority avgDays (some "low") = some (mathRound (avgDays * (13 / 10))) := by
  obtain ⟨h1, h2, h3, h4⟩ := multipliers_lookup
  unfold adjustForPriority
  simp only [h1, h2, h3, h4]
  exact ⟨trivial, trivial, trivial, trivial⟩

theorem mathRound_eq_iff (x : ℚ) (n : Int) :
    mathRound x = n ↔ (n : ℚ) ≤ x + 1 / 2 ∧ x + 1 / 2 < (n : ℚ) + 1 := by
  unfold mathRound
  exact Int.floor_eq_iff

/-! ## Predictions in double precision -/

theorem foldl_addResolutionDaysDouble (pool : List Problem) (sum : Dbl) :
    pool.foldl addResolutionDaysDouble sum
      = (pool.filterMap resolutionDaysDouble).foldl Dbl.add sum := by
  induction pool generalizing sum with
  | nil => rfl
  | cons p pool ih =>
    rw [List.foldl_cons, ih]
    unfold addResolutionDaysDouble
    cases h : p.resolutionDetails.bind (fun d => d.resolvedAt) with
    | none =>
      have hp : resolutionDaysDouble p = none := by
        unfold resolutionDaysDouble
        rw [h]
        rfl
      rw [List.filterMap_cons_none hp]
    | some t =>
      have hp : resolutionDaysDouble p
          = some ((Dbl.ofInt (t - p.createdAt)).div (Dbl.ofInt 86400000)) := by
        unfold resolutionDaysDouble
        rw [h]
        rfl
      rw [List.filterMap_cons_some hp, List.foldl_cons, millisecondsPerDay_eq]

/-- On a non-empty pool `calculateAverageResolution` is the mean the engine forms,
rounded to an integer. -/
theorem calculateAverageResolutionDouble_of_ne_nil (pool : List Problem) (h : pool ≠ []) :
    calculateAverageResolutionDouble pool
      = Dbl.ofInt (Dbl.round (meanResolutionDaysDouble pool)) := by
  unfold calculateAverageResolutionDouble meanResolutionDaysDouble
  have hlen : ¬ pool.length = 0 := fun e => h (List.length_eq_zero.1 e)
  rw [if_neg hlen]
  dsimp only
  rw [foldl_addResolutionDaysDouble]

theorem multipliersDouble_lookup :
    multipliersDouble.lookup "critical" = some (roundRatio 1 2)
      ∧ multipliersDouble.lookup "high" = some (roundRatio 7 10)
      ∧ multipliersDouble.lookup "medium" = some (Dbl.ofInt 1)
      ∧ multipliersDouble.lookup "low" = some (roundRatio 13 10) := by
  simp [multipliersDouble, List.lookup]

theorem adjustForPriorityDouble_listed (avgDays : Dbl) :
    adjustForPriorityDouble avgDays (some "critical")
        = some (Dbl.round (avgDays.mul (roundRatio 1 2)))
      ∧ adjustForPriorityDouble avgDays (some "high")
        = some (Dbl.round (avgDays.mul (roundRatio 7 10)))
      ∧ adjustForPriorityDouble avgDays (some "medium")
        = some (Dbl.round (avgDays.mul (Dbl.ofInt 1)))
      ∧ adjustForPriorityDouble avgDays (some "low")
        = some (Dbl.round (avgDays.mul (roundRatio 13 10))) := by
  obtain ⟨h1, h2, h3, h4⟩ := multipliersDouble_lookup
  unfold adjustForPriorityDouble
  simp only [h1, h2, h3, h4]
  exact ⟨trivial, trivial, trivial, trivial⟩

set_option maxRecDepth 100000 in
theorem multipliersDouble_values :
    roundRatio 1 2 = { mant := 4503599627370496, exp := -53 }
      ∧ roundRatio 7 10 = { mant := 6305039478318694, exp := -53 }
      ∧ Dbl.ofInt 1 = { mant := 4503599627370496, exp := -52 }
      ∧ roundRatio 13 10 = { mant := 5854679515581645, exp := -52 } := by
  decide

set_option maxRecDepth 100000 in
theorem predictedDaysDouble_samples :
    predictedDaysDouble slowStore "waste" "Butwal" (some "high") = some 31
      ∧ meanResolutionDaysDouble (resolvedPool slowStore "waste" "Butwal") = Dbl.ofInt 45
      ∧ Dbl.round (meanResolutionDaysDouble (resolvedPool mixedStore "waste" "Butwal")) = 2
      ∧ predictedDaysDouble mixedStore "waste" "Butwal" (some "medium") = some 2
      ∧ meanResolutionDaysDouble (resolvedPool historyStore "waste" "Butwal") = roundRatio 3 2
      ∧ predictedDaysDouble historyStore "waste" "Butwal" (some "low") = some 3
      ∧ Dbl.round ((meanResolutionDaysDouble (resolvedPool historyStore "waste" "Butwal")).mul
          (roundRatio 13 10)) = 2 := by
  decide

set_option maxRecDepth 100000 in
/-- Where the pool is empty the predictions on doubles are those of exact arithmetic: 4,
5, 7 and 9 days. -/
theorem predictedDaysDouble_empty_pool (s : Store) (category municipality : String)
    (hpool : resolvedPool s category municipality = []) :
    predictedDaysDouble s category municipality (some "critical") = some 4
      ∧ predictedDaysDouble s category municipality (some "high") = some 5
      ∧ predictedDaysDouble s category municipality (some "medium") = some 7
      ∧ predictedDaysDouble s category municipality (some "low") = some 9 := by
  unfold predictedDaysDouble
  rw [hpool]
  decide

/-- A priority that names a property inherited from `Object.prototype` gives `NaN` on
doubles as well. -/
theorem adjustForPriorityDouble_inherited (avgDays : Dbl) (q : String)
    (hq : q ∈ objectPrototypeKeys) : adjustForPriorityDouble avgDays (some q) = none := by
  have hlookup : multipliersDouble.lookup q = none := by
    simp only [objectPrototypeKeys, List.mem_cons, List.mem_singleton, List.not_mem_nil,
      or_false] at hq
    rcases hq with h | h | h | h | h | h | h | h | h | h | h | h <;> subst h <;>
      simp [multipliersDouble, List.lookup]
  unfold adjustForPriorityDouble
  simp only [hlookup, if_pos hq]

theorem meanResolutionDays_samples :
    meanResolutionDays (resolvedPool historyStore "waste" "Butwal") = 3 / 2
      ∧ meanResolutionDays (resolvedPool slowStore "waste" "Butwal") = 45
      ∧ meanResolutionDays (resolvedPool mixedStore "waste" "Butwal") = 5 / 2 := by
  have h1 : resolvedPool historyStore "waste" "Butwal" = [resolvedProblem] := by decide
  have h2 : resolvedPool slowStore "waste" "Butwal" = slowStore.problems := by decide
  have h3 : resolvedPool mixedStore "waste" "Butwal" = mixedStore.problems := by decide
  rw [h1, h2, h3]
  refine ⟨?_, ?_, ?_⟩
  · simp [meanResolutionDays, resolutionDays, resolvedProblem, sampleProblem, samplePayload]
    norm_num
  · simp [meanResolutionDays, resolutionDays, slowStore, resolvedAfter, sampleProblem,
      samplePayload]
    norm_num
  · simp [meanResolutionDays, resolutionDays, mixedStore, resolvedAfter, sampleProblem,
      samplePayload]
    norm_num

/-- C14 (as amended): on a non-empty pool the mean of the resolution times in days, formed
in double precision, is rounded to whole days first, and the product of that rounded mean
with the multiplier of the priority (the doubles 0.5, 0.7, 1, 1.3), again a double, is
rounded a second time. One problem resolved after 45 days gives 31 days for priority
`high`, the product being just below 31.5, where exact arithmetic gives 32; three problems
resolved after 1.4, 2.8 and 3.3 days give 2 days for `medium`, their mean being just below
2.5, where exact arithmetic gives 3. -/
theorem predictedDaysDouble_rounds_twice :
    (∀ (s : Store) (category municipality : String),
        resolvedPool s category municipality ≠ [] →
        predictedDaysDouble s category municipality (some "critical")
            = some (Dbl.round
                ((Dbl.ofInt (Dbl.round
                    (meanResolutionDaysDouble (resolvedPool s category municipality)))).mul
                  (roundRatio 1 2)))
          ∧ predictedDaysDouble s category municipality (some "high")
            = some (Dbl.round
                ((Dbl.ofInt (Dbl.round
                    (meanResolutionDaysDouble (resolvedPool s category municipality)))).mul
                  (roundRatio 7 10)))
          ∧ predictedDaysDouble s category municipality (some "medium")
            = some (Dbl.round
                ((Dbl.ofInt (Dbl.round
                    (meanResolutionDaysDouble (resolvedPool s category municipality)))).mul
                  (Dbl.ofInt 1)))
          ∧ predictedDaysDouble s category municipality (some "low")
            = some (Dbl.round
                ((Dbl.ofInt (Dbl.round
                    (meanResolutionDaysDouble (resolvedPool s category municipality)))).mul
                  (roundRatio 13 10))))
      ∧ ((roundRatio 1 2).toRat = 1 / 2 ∧ (Dbl.ofInt 1).toRat = 1
          ∧ |(roundRatio 7 10).toRat - 7 / 10| < 1 / 2 ^ 53
          ∧ |(roundRatio 13 10).toRat - 13 / 10| < 1 / 2 ^ 52)
      ∧ (predictedDaysDouble slowStore "waste" "Butwal" (some "high") = some 31
          ∧ mathRound
              ((mathRound (meanResolutionDays (resolvedPool slowStore "waste" "Butwal")) : ℚ)
                * (7 / 10)) = 32)
      ∧ (predictedDaysDouble mixedStore "waste" "Butwal" (some "medium") = some 2
          ∧ mathRound
              ((mathRound (meanResolutionDays (resolvedPool mixedStore "waste" "Butwal")) : ℚ)
                * 1) = 3) := by
  obtain ⟨hslow, _, _, hmixed, _, _, _⟩ := predictedDaysDouble_samples
  obtain ⟨_, hmeanSlow, hmeanMixed⟩ := meanResolutionDays_samples
  obtain ⟨k1, k2, k3, k4⟩ := multipliersDouble_values
  refine ⟨?_, ⟨?_, ?_, ?_, ?_⟩, ⟨hslow, ?_⟩, ⟨hmixed, ?_⟩⟩
  · intro s category municipality hpool
    unfold predictedDaysDouble
    dsimp only
    rw [calculateAverageResolutionDouble_of_ne_nil _ hpool]
    exact adjustForPriorityDouble_listed _
  · rw [k1]; norm_num [Dbl.toRat]
  · rw [k3]; norm_num [Dbl.toRat]
  · rw [k2]; norm_num [Dbl.toRat, abs_lt]
  · rw [k4]; norm_num [Dbl.toRat, abs_lt]
  · rw [hmeanSlow]
    have h1 : mathRound (45 : ℚ) = 45 := by rw [mathRound_eq_iff]; norm_num
    rw [h1, mathRound_eq_iff]
    norm_num
  · rw [hmeanMixed]
    have h1 : mathRound (5 / 2 : ℚ) = 3 := by rw [mathRound_eq_iff]; norm_num
    rw [h1, mathRound_eq_iff]
    norm_num

/-- C14 (witness): the pool of `historyStore` has mean 1.5 days, which is rounded to 2
before the multiplier of `low` is applied. -/
theorem predictedDaysDouble_rounds_twice_witness :
    predictedDaysDouble historyStore "waste" "Butwal" (some "low")
      = some (Dbl.round
          ((Dbl.ofInt (Dbl.round
              (meanResolutionDaysDouble (resolvedPool historyStore "waste" "Butwal")))).mul
            (roundRatio 13 10))) :=
  (predictedDaysDouble_rounds_twice.1 historyStore "waste" "Butwal" (by decide)).2.2.2

/-- C14 (counterexample): the one problem of the pool of `historyStore` was resolved in
exactly 1.5 days, a mean that doubles represent exactly; for priority `low` the prediction
is 3 days, whereas the mean times 1.3, rounded once, is 2, in exact arithmetic and in
double precision alike. -/
theorem predictedDaysDouble_not_rounded_once :
    resolvedPool historyStore "waste" "Butwal" = [resolvedProblem]
      ∧ meanResolutionDays (resolvedPool historyStore "waste" "Butwal") = 3 / 2
      ∧ (meanResolutionDaysDouble (resolvedPool historyStore "waste" "Butwal")).toRat = 3 / 2
      ∧ predictedDaysDouble historyStore "waste" "Butwal" (some "low") = some 3
      ∧ mathRound (meanResolutionDays (resolvedPool historyStore "waste" "Butwal") * (13 / 10))
          = 2
      ∧ Dbl.round ((meanResolutionDaysDouble (resolvedPool historyStore "waste" "Butwal")).mul
          (roundRatio 13 10)) = 2 := by
  obtain ⟨_, _, _, _, hmeanD, hlow, honce⟩ := predictedDaysDouble_samples
  obtain ⟨hmean, _, _⟩ := meanResolutionDays_samples
  have h32 : roundRatio 3 2 = { mant := 6755399441055744, exp := -52 } := by decide
  refine ⟨by decide, hmean, ?_, hlow, ?_, honce⟩
  · rw [hmeanD, h32]
    norm_num [Dbl.toRat]
  · rw [hmean, mathRound_eq_iff]
    norm_num

/-- C15: when no resolved problem matches the category and municipality, the prediction
is made from an average of 7 days: 4 days for `critical`, 5 for `high`, 7 for `medium`
and 9 for `low`, each with confidence 0.3 and sample size 0. -/
theorem predictResolutionTime_empty_pool (s : Store) (category municipality : String)
    (hpool : resolvedPool s category municipality = []) :
    calculateAverageResolution (resolvedPool s category municipality) = 7
      ∧ predictResolutionTime s category municipality (some "critical")
          = { predictedDays := some 4, confidence := 3 / 10, basedOnPastCases := 0 }
      ∧ predictResolutionTime s category municipality (some "high")
          = { predictedDays := some 5, confidence := 3 / 10, basedOnPastCases := 0 }
      ∧ predictResolutionTime s category municipality (some "medium")
          = { predictedDays := some 7, confidence := 3 / 10, basedOnPastCases := 0 }
      ∧ predictResolutionTime s category municipality (some "low")
          = { predictedDays := some 9, confidence := 3 / 10, basedOnPastCases := 0 } := by
  have havg : calculateAverageResolution ([] : List Problem) = 7 := by
    simp [calculateAverageResolution]
  have hconf : calculateConfidence 0 = 3 / 10 := by
    unfold calculateConfidence
    norm_num
  obtain ⟨h1, h2, h3, h4⟩ := adjustForPriority_listed 7
  have r1 : mathRound ((7 : ℚ) * (1 / 2)) = 4 := by rw [mathRound_eq_iff]; norm_num
  have r2 : mathRound ((7 : ℚ) * (7 / 10)) = 5 := by rw [mathRound_eq_iff]; norm_num
  have r3 : mathRound ((7 : ℚ) * 1) = 7 := by rw [mathRound_eq_iff]; norm_num
  have r4 : mathRound ((7 : ℚ) * (13 / 10)) = 9 := by rw [mathRound_eq_iff]; norm_num
  unfold predictResolutionTime
  simp only [hpool, havg, hconf, List.length_nil, h1, h2, h3, h4, r1, r2, r3, r4]
  exact ⟨trivial, trivial, trivial, trivial, trivial⟩

/-- C15 (witness): `sampleStore` holds no resolved problem. -/
theorem predictResolutionTime_empty_pool_witness :
    predictResolutionTime sampleStore "waste" "Butwal" (some "critical")
      = { predictedDays := some 4, confidence := 3 / 10, basedOnPastCases := 0 } :=
  (predictResolutionTime_empty_pool sampleStore "waste" "Butwal" (by decide)).2.1

theorem calculateConfidence_mono {m n : Nat} (h : m ≤ n) :
    calculateConfidence m ≤ calculateConfidence n := by
  unfold calculateConfidence
  have h' : (m : ℚ) ≤ (n : ℚ) := by exact_mod_cast h
  exact min_le_min (by linarith) le_rfl

/-- C16: the reported confidence is `min(0.3 + 0.07 n, 0.95)` for the size `n` of the pool
and the reported sample size is `n`; the confidence lies in [0.3, 0.95], does not decrease
with `n`, and is 0.95 from `n = 10` on. -/
theorem predictResolutionTime_confidence (s : Store) (category municipality : String)
    (priority : Option String) :
    (predictResolutionTime s category municipality priority).basedOnPastCases
        = (resolvedPool s category municipality).length
      ∧ (predictResolutionTime s category municipality priority).confidence
        = min (3 / 10 + 7 / 100 * ((resolvedPool s category municipality).length : ℚ)) (95 / 100)
      ∧ (∀ n : Nat, 3 / 10 ≤ calculateConfidence n ∧ calculateConfidence n ≤ 95 / 100)
      ∧ (∀ m n : Nat, m ≤ n → calculateConfidence m ≤ calculateConfidence n)
      ∧ (∀ n : Nat, 10 ≤ n → calculateConfidence n = 95 / 100) := by
  refine ⟨rfl, ?_, ?_, ?_, ?_⟩
  · show calculateConfidence _ = _
    unfold calculateConfidence
    rw [mul_comm]
  · intro n
    unfold calculateConfidence
    have hn : (0 : ℚ) ≤ (n : ℚ) := Nat.cast_nonneg n
    exact ⟨le_min (by linarith) (by norm_num), min_le_right _ _⟩
  · intro m n h
    exact calculateConfidence_mono h
  · intro n h
    unfold calculateConfidence
    have hn : (10 : ℚ) ≤ (n : ℚ) := by exact_mod_cast h
    exact min_eq_right (by linarith)

/-! ## Department assignment -/

theorem orZero_some (v : ℚ) : orZero (some v) = v := by
  show (if v = 0 then 0 else v) = v
  by_cases h : v = 0
  · rw [if_pos h, h]
  · rw [if_neg h]

theorem calculateWorkloadScore_of_workload (department : User) (w : Workload)
    (h : department.workload = some w) :
    calculateWorkloadScore department
      = max 0 (100 - 5 * w.activeCases + 20 * w.completionRate) := by
  unfold calculateWorkloadScore
  rw [h]
  simp only [Option.map_some', orZero_some]
  rw [mul_comm w.activeCases 5, mul_comm w.completionRate 20]

theorem calculateWorkloadScore_nonneg (department : User) :
    0 ≤ calculateWorkloadScore department := by
  unfold calculateWorkloadScore
  exact le_max_left _ _

/-- C17: for a department with workload `{activeCases a, completionRate r}` the score is
`max(0, 100 - 5a + 20r)`, never negative; `(a, r) = (2, 0.9)` scores 108 and `(0, 0.5)`
scores 110. -/
theorem calculateWorkloadScore_eq (department : User) (w : Workload)
    (h : department.workload = some w) :
    calculateWorkloadScore department
        = max 0 (100 - 5 * w.activeCases + 20 * w.completionRate)
      ∧ 0 ≤ calculateWorkloadScore department
      ∧ (w.activeCases = 2 → w.completionRate = 9 / 10 →
          calculateWorkloadScore department = 108)
      ∧ (w.activeCases = 0 → w.completionRate = 1 / 2 →
          calculateWorkloadScore department = 110) := by
  have hscore := calculateWorkloadScore_of_workload department w h
  refine ⟨hscore, calculateWorkloadScore_nonneg department, ?_, ?_⟩
  · intro ha hr
    rw [hscore, ha, hr]
    norm_num
  · intro ha hr
    rw [hscore, ha, hr]
    norm_num

/-- C17 (witness): department A of the spec scores 108. -/
theorem calculateWorkloadScore_eq_witness : calculateWorkloadScore deptA = 108 :=
  (calculateWorkloadScore_eq deptA { activeCases := 2, completionRate := 9 / 10 } rfl).2.2.1
    rfl rfl

theorem betterOf_cases (best current : User) :
    (calculateWorkloadScore best < calculateWorkloadScore current
        ∧ betterOf best current = current)
      ∨ (calculateWorkloadScore current ≤ calculateWorkloadScore best
          ∧ betterOf best current = best) := by
  unfold betterOf
  by_cases h : calculateWorkloadScore current > calculateWorkloadScore best
  · left
    exact ⟨h, by simp [h]⟩
  · right
    exact ⟨le_of_not_gt h, by simp [h]⟩

/-- The reduce returns the earliest department of maximal score: everything before it
scores strictly less, everything after it scores at most as much. -/
theorem selectDepartment_first_max (first : User) (others : List User) :
    ∃ before after,
      first :: others = before ++ selectDepartment first others :: after
        ∧ (∀ d ∈ before,
            calculateWorkloadScore d < calculateWorkloadScore (selectDepartment first others))
        ∧ (∀ d ∈ after,
            calculateWorkloadScore d
              ≤ calculateWorkloadScore (selectDepartment first others)) := by
  induction others using List.reverseRecOn with
  | nil => exact ⟨[], [], rfl, by simp, by simp⟩
  | append_singleton others x ih =>
    obtain ⟨before, after, hsplit, hbefore, hafter⟩ := ih
    have hsel : selectDepartment first (others ++ [x])
        = betterOf (selectDepartment first others) x := by
      unfold selectDepartment
      rw [List.foldl_append]
      rfl
    rw [hsel]
    rcases betterOf_cases (selectDepartment first others) x with ⟨hlt, heq⟩ | ⟨hle, heq⟩
    · rw [heq]
      refine ⟨first :: others, [], by simp, ?_, by simp⟩
      intro d hd
      rw [hsplit, List.mem_append, List.mem_cons] at hd
      rcases hd with hd | rfl | hd
      · exact lt_trans (hbefore d hd) hlt
      · exact hlt
      · exact lt_of_le_of_lt (hafter d hd) hlt
    · rw [heq]
      refine ⟨before, after ++ [x], ?_, hbefore, ?_⟩
      · rw [← List.cons_append, hsplit]
        simp
      · intro d hd
        rw [List.mem_append, List.mem_singleton] at hd
        rcases hd with hd | rfl
        · exact hafter d hd
        · exact hle

theorem selectDepartment_mem_max (first : User) (others : List User) :
    selectDepartment first others ∈ first :: others
      ∧ ∀ d ∈ first :: others,
          calculateWorkloadScore d ≤ calculateWorkloadScore (selectDepartment first others) := by
  obtain ⟨before, after, hsplit, hbefore, hafter⟩ := selectDepartment_first_max first others
  constructor
  · rw [hsplit]
    simp
  · intro d hd
    rw [hsplit, List.mem_append, List.mem_cons] at hd
    rcases hd with hd | rfl | hd
    · exact le_of_lt (hbefore d hd)
    · exact le_rfl
    · exact hafter d hd

theorem suggestDepartmentAssignment_of_departments (s : Store) (id : Nat) (problem : Problem)
    (first : User) (others : List User)
    (hfind : findById s.problems id = some problem)
    (hdepts : findDepartments s problem = first :: others) :
    suggestDepartmentAssignment s id
      = SuggestResponse.ok
          { suggestedDepartment :=
              { id := (selectDepartment first others).id,
                name := (selectDepartment first others).name,
                department := (selectDepartment first others).department,
                workload := (selectDepartment first others).workload },
            assignmentScore := calculateWorkloadScore (selectDepartment first others),
            alternativeDepartments :=
              ((first :: others).take 3).map (fun dept =>
                { id := dept.id, name := dept.name, score := calculateWorkloadScore dept }) } := by
  unfold suggestDepartmentAssignment
  rw [hfind]
  dsimp only
  rw [hdepts]

theorem calculateWorkloadScore_samples :
    calculateWorkloadScore deptA = 108 ∧ calculateWorkloadScore deptB = 110
      ∧ calculateWorkloadScore deptBusy = 100 ∧ calculateWorkloadScore deptIdle = 100 := by
  refine ⟨?_, ?_, ?_, ?_⟩
  · rw [calculateWorkloadScore_of_workload deptA _ rfl]; norm_num
  · rw [calculateWorkloadScore_of_workload deptB _ rfl]; norm_num
  · rw [calculateWorkloadScore_of_workload deptBusy _ rfl]; norm_num
  · rw [calculateWorkloadScore_of_workload deptIdle _ rfl]; norm_num

/-- The handler sees no workload on a department, so every candidate scores the base 100. -/
theorem calculateWorkloadScore_hydrateUser (u : User) :
    calculateWorkloadScore (hydrateUser u) = 100 := by
  unfold calculateWorkloadScore hydrateUser
  simp [orZero]

theorem mem_findDepartments (s : Store) (problem : Problem) (d : User) :
    d ∈ findDepartments s problem
      ↔ ∃ u ∈ s.users, (u.role = "department" ∧ u.department = problem.category
          ∧ u.municipality = problem.municipality) ∧ hydrateUser u = d := by
  simp [findDepartments, and_assoc]

theorem findDepartments_samples :
    findDepartments deptStoreAB sampleProblem = [hydrateUser deptA, hydrateUser deptB]
      ∧ findDepartments deptStoreBA sampleProblem = [hydrateUser deptB, hydrateUser deptA]
      ∧ findDepartments deptStoreTie sampleProblem
          = [hydrateUser deptBusy, hydrateUser deptIdle] :=
  ⟨rfl, rfl, rfl⟩

theorem selectDepartment_of_hydrated (first second : User) :
    selectDepartment (hydrateUser first) [hydrateUser second] = hydrateUser first := by
  show betterOf (hydrateUser first) (hydrateUser second) = hydrateUser first
  unfold betterOf
  rw [calculateWorkloadScore_hydrateUser, calculateWorkloadScore_hydrateUser]
  simp

theorem suggestDepartmentAssignment_samples :
    suggestDepartmentAssignment deptStoreAB 1
        = SuggestResponse.ok
            { suggestedDepartment :=
                { id := 21, name := "A", department := "waste", workload := none },
              assignmentScore := 100,
              alternativeDepartments :=
                [{ id := 21, name := "A", score := 100 }, { id := 22, name := "B", score := 100 }] }
      ∧ suggestDepartmentAssignment deptStoreBA 1
        = SuggestResponse.ok
            { suggestedDepartment :=
                { id := 22, name := "B", department := "waste", workload := none },
              assignmentScore := 100,
              alternativeDepartments :=
                [{ id := 22, name := "B", score := 100 }, { id := 21, name := "A", score := 100 }] }
      ∧ suggestDepartmentAssignment deptStoreTie 1
        = SuggestResponse.ok
            { suggestedDepartment :=
                { id := 23, name := "Busy", department := "waste", workload := none },
              assignmentScore := 100,
              alternativeDepartments :=
                [{ id := 23, name := "Busy", score := 100 },
                  { id := 24, name := "Idle", score := 100 }] } := by
  refine ⟨?_, ?_, ?_⟩
  · rw [suggestDepartmentAssignment_of_departments deptStoreAB 1 sampleProblem
      (hydrateUser deptA) [hydrateUser deptB] rfl rfl, selectDepartment_of_hydrated]
    simp only [List.take, List.map, calculateWorkloadScore_hydrateUser]
    rfl
  · rw [suggestDepartmentAssignment_of_departments deptStoreBA 1 sampleProblem
      (hydrateUser deptB) [hydrateUser deptA] rfl rfl, selectDepartment_of_hydrated]
    simp only [List.take, List.map, calculateWorkloadScore_hydrateUser]
    rfl
  · rw [suggestDepartmentAssignment_of_departments deptStoreTie 1 sampleProblem
      (hydrateUser deptBusy) [hydrateUser deptIdle] rfl rfl, selectDepartment_of_hydrated]
    simp only [List.take, List.map, calculateWorkloadScore_hydrateUser]
    rfl

/-- C18: for a non-empty list of candidate departments the answer is 200, the suggested
department is a candidate, no candidate scores more than it, and `assignmentScore` is its
score. The scores are those of the documents the handler sees, and these carry no
workload: the stored departments A and B of the spec would score 108 and 110, but both
candidates score 100 and the first one is suggested, A when A is stored before B and B
when B is stored before A. -/
theorem suggestDepartmentAssignment_max :
    (∀ (s : Store) (id : Nat) (problem : Problem),
        findById s.problems id = some problem → findDepartments s problem ≠ [] →
        ∃ data d, suggestDepartmentAssignment s id = SuggestResponse.ok data
          ∧ d ∈ findDepartments s problem
          ∧ data.suggestedDepartment
              = { id := d.id, name := d.name, department := d.department,
                  workload := d.workload }
          ∧ data.assignmentScore = calculateWorkloadScore d
          ∧ ∀ c ∈ findDepartments s problem,
              calculateWorkloadScore c ≤ data.assignmentScore)
      ∧ (calculateWorkloadScore deptA = 108 ∧ calculateWorkloadScore deptB = 110)
      ∧ (∀ c ∈ findDepartments deptStoreAB sampleProblem, calculateWorkloadScore c = 100)
      ∧ (∃ data, suggestDepartmentAssignment deptStoreAB 1 = SuggestResponse.ok data
          ∧ data.suggestedDepartment.id = deptA.id ∧ data.suggestedDepartment.id ≠ deptB.id
          ∧ data.suggestedDepartment.workload = none ∧ data.assignmentScore = 100)
      ∧ (∃ data, suggestDepartmentAssignment deptStoreBA 1 = SuggestResponse.ok data
          ∧ data.suggestedDepartment.id = deptB.id ∧ data.assignmentScore = 100) := by
  refine ⟨?_, ⟨calculateWorkloadScore_samples.1, calculateWorkloadScore_samples.2.1⟩, ?_,
    ⟨_, suggestDepartmentAssignment_samples.1, rfl, by decide, rfl, rfl⟩,
    ⟨_, suggestDepartmentAssignment_samples.2.1, rfl, rfl⟩⟩
  · intro s id problem hfind hne
    obtain ⟨first, others, hdepts⟩ := List.exists_cons_of_ne_nil hne
    obtain ⟨hmem, hmax⟩ := selectDepartment_mem_max first others
    refine ⟨_, selectDepartment first others,
      suggestDepartmentAssignment_of_departments s id problem first others hfind hdepts,
      ?_, rfl, rfl, ?_⟩
    · rw [hdepts]; exact hmem
    · rw [hdepts]; exact hmax
  · intro c hc
    obtain ⟨u, _, _, rfl⟩ := (mem_findDepartments _ _ c).1 hc
    exact calculateWorkloadScore_hydrateUser u

/-- C18 (witness): in `deptStoreAB` the suggested department is a candidate of maximal
score among the documents the handler sees. -/
theorem suggestDepartmentAssignment_max_witness :
    ∃ data d, suggestDepartmentAssignment deptStoreAB 1 = SuggestResponse.ok data
      ∧ d ∈ findDepartments deptStoreAB sampleProblem
      ∧ data.suggestedDepartment
          = { id := d.id, name := d.name, department := d.department, workload := d.workload }
      ∧ data.assignmentScore = calculateWorkloadScore d
      ∧ ∀ c ∈ findDepartments deptStoreAB sampleProblem,
          calculateWorkloadScore c ≤ data.assignmentScore :=
  suggestDepartmentAssignment_max.1 deptStoreAB 1 sampleProblem rfl
    (by rw [findDepartments_samples.1]; simp)

/-- C19 (as amended): when several candidates share the maximum workload score, the
suggested department is the one earliest in input order among them: every candidate
before it scores strictly less, every candidate after it scores at most as much, and
`activeCases` plays no part in breaking the tie. -/
theorem suggestDepartmentAssignment_earliest_max (s : Store) (id : Nat) (problem : Problem)
    (hfind : findById s.problems id = some problem)
    (hne : findDepartments s problem ≠ []) :
    ∃ data d before after,
      suggestDepartmentAssignment s id = SuggestResponse.ok data
        ∧ data.suggestedDepartment
            = { id := d.id, name := d.name, department := d.department,
                workload := d.workload }
        ∧ findDepartments s problem = before ++ d :: after
        ∧ (∀ c ∈ before, calculateWorkloadScore c < calculateWorkloadScore d)
        ∧ (∀ c ∈ after, calculateWorkloadScore c ≤ calculateWorkloadScore d) := by
  obtain ⟨first, others, hdepts⟩ := List.exists_cons_of_ne_nil hne
  obtain ⟨before, after, hsplit, hbefore, hafter⟩ := selectDepartment_first_max first others
  exact ⟨_, selectDepartment first others, before, after,
    suggestDepartmentAssignment_of_departments s id problem first others hfind hdepts,
    rfl, by rw [hdepts, hsplit], hbefore, hafter⟩

/-- C19 (witness): the two departments of `deptStoreTie`. -/
theorem suggestDepartmentAssignment_earliest_max_witness :
    ∃ data d before after,
      suggestDepartmentAssignment deptStoreTie 1 = SuggestResponse.ok data
        ∧ data.suggestedDepartment
            = { id := d.id, name := d.name, department := d.department,
                workload := d.workload }
        ∧ findDepartments deptStoreTie sampleProblem = before ++ d :: after
        ∧ (∀ c ∈ before, calculateWorkloadScore c < calculateWorkloadScore d)
        ∧ (∀ c ∈ after, calculateWorkloadScore c ≤ calculateWorkloadScore d) :=
  suggestDepartmentAssignment_earliest_max deptStoreTie 1 sampleProblem rfl
    (by rw [findDepartments_samples.2.2]; simp)

/-- C19 (counterexample): the two candidates of `deptStoreTie` both score 100, the
maximum, as the handler sees them and as they are stored; the stored one with 4 active
cases comes first and is suggested, not the one with no active case. -/
theorem suggestDepartmentAssignment_tie_keeps_first :
    findDepartments deptStoreTie sampleProblem = [hydrateUser deptBusy, hydrateUser deptIdle]
      ∧ calculateWorkloadScore (hydrateUser deptBusy) = 100
      ∧ calculateWorkloadScore (hydrateUser deptIdle) = 100
      ∧ calculateWorkloadScore deptBusy = 100 ∧ calculateWorkloadScore deptIdle = 100
      ∧ deptBusy.workload = some { activeCases := 4, completionRate := 1 }
      ∧ deptIdle.workload = some { activeCases := 0, completionRate := 0 }
      ∧ (∃ data, suggestDepartmentAssignment deptStoreTie 1 = SuggestResponse.ok data
          ∧ data.suggestedDepartment.id = deptBusy.id
          ∧ data.suggestedDepartment.id ≠ deptIdle.id) :=
  ⟨rfl, calculateWorkloadScore_hydrateUser deptBusy, calculateWorkloadScore_hydrateUser deptIdle,
    calculateWorkloadScore_samples.2.2.1, calculateWorkloadScore_samples.2.2.2, rfl, rfl,
    _, suggestDepartmentAssignment_samples.2.2, rfl, by decide⟩

/-- C20: for an existing problem the answer is 404 exactly when no user of role
`department` has the category of the problem as department and its municipality as
municipality; in every other case the answer is 200 with a suggestion. -/
theorem suggestDepartmentAssignment_noDepartments_iff (s : Store) (id : Nat)
    (problem : Problem) (hfind : findById s.problems id = some problem) :
    (suggestDepartmentAssignment s id = SuggestResponse.noDepartments
        ↔ ¬ ∃ u ∈ s.users, u.role = "department" ∧ u.department = problem.category
            ∧ u.municipality = problem.municipality)
      ∧ (suggestDepartmentAssignment s id ≠ SuggestResponse.noDepartments →
          ∃ data, suggestDepartmentAssignment s id = SuggestResponse.ok data) := by
  cases hdepts : findDepartments s problem with
  | nil =>
    have hres : suggestDepartmentAssignment s id = SuggestResponse.noDepartments := by
      unfold suggestDepartmentAssignment
      rw [hfind]
      dsimp only
      rw [hdepts]
    refine ⟨⟨fun _ => ?_, fun _ => hres⟩, fun h => absurd hres h⟩
    rintro ⟨u, hu, h1, h2, h3⟩
    have := (mem_findDepartments s problem (hydrateUser u)).2 ⟨u, hu, ⟨h1, h2, h3⟩, rfl⟩
    rw [hdepts] at this
    exact List.not_mem_nil _ this
  | cons first others =>
    have hres := suggestDepartmentAssignment_of_departments s id problem first others hfind hdepts
    refine ⟨⟨fun h => ?_, fun h => ?_⟩, fun _ => ⟨_, hres⟩⟩
    · rw [hres] at h
      exact absurd h (by simp)
    · exfalso
      apply h
      have hfirst : first ∈ findDepartments s problem := by rw [hdepts]; simp
      obtain ⟨u, hu, ⟨h1, h2, h3⟩, _⟩ := (mem_findDepartments s problem first).1 hfirst
      exact ⟨u, hu, h1, h2, h3⟩

/-- C20 (witness): `sampleStore` has no department user, so the answer is 404. -/
theorem suggestDepartmentAssignment_noDepartments_iff_witness :
    suggestDepartmentAssignment sampleStore 1 = SuggestResponse.noDepartments :=
  (suggestDepartmentAssignment_noDepartments_iff sampleStore 1 sampleProblem rfl).1.2
    (by decide)

/-! ## Alternatives, status changes and points -/

/-- C21 (as amended): `suggestDepartmentAssignment` returns the selected department and at
most 3 alternatives, which are the first three candidates in input order, the selected
department included when it is one of them; each carries the id and name of its candidate
and a score equal to the workload score of that candidate. -/
theorem suggestDepartmentAssignment_alternatives (s : Store) (id : Nat) (problem : Problem)
    (hfind : findById s.problems id = some problem)
    (hne : findDepartments s problem ≠ []) :
    ∃ data, suggestDepartmentAssignment s id = SuggestResponse.ok data
      ∧ data.alternativeDepartments.length ≤ 3
      ∧ data.alternativeDepartments
          = ((findDepartments s problem).take 3).map (fun dept =>
              { id := dept.id, name := dept.name, score := calculateWorkloadScore dept })
      ∧ (∀ alt ∈ data.alternativeDepartments, ∃ d ∈ findDepartments s problem,
          alt.id = d.id ∧ alt.name = d.name ∧ alt.score = calculateWorkloadScore d) := by
  obtain ⟨first, others, hdepts⟩ := List.exists_cons_of_ne_nil hne
  refine ⟨_, suggestDepartmentAssignment_of_departments s id problem first others hfind hdepts,
    ?_, by rw [hdepts], ?_⟩
  · simp only [List.length_map, List.length_take]
    exact Nat.min_le_left _ _
  · intro alt halt
    simp only [List.mem_map] at halt
    obtain ⟨d, hd, rfl⟩ := halt
    exact ⟨d, by rw [hdepts]; exact List.mem_of_mem_take hd, rfl, rfl, rfl⟩

/-- C21 (witness): the alternatives for `deptStoreAB`. -/
theorem suggestDepartmentAssignment_alternatives_witness :
    ∃ data, suggestDepartmentAssignment deptStoreAB 1 = SuggestResponse.ok data
      ∧ data.alternativeDepartments.length ≤ 3
      ∧ data.alternativeDepartments
          = ((findDepartments deptStoreAB sampleProblem).take 3).map (fun dept =>
              { id := dept.id, name := dept.name, score := calculateWorkloadScore dept })
      ∧ (∀ alt ∈ data.alternativeDepartments,
          ∃ d ∈ findDepartments deptStoreAB sampleProblem,
          alt.id = d.id ∧ alt.name = d.name ∧ alt.score = calculateWorkloadScore d) :=
  suggestDepartmentAssignment_alternatives deptStoreAB 1 sampleProblem rfl
    (by rw [findDepartments_samples.1]; simp)

/-- C21 (counterexample): for `deptStoreAB` the suggested department is A (id 21), and A
is also the first of the alternatives. -/
theorem suggestDepartmentAssignment_alternative_is_selected :
    ∃ data, suggestDepartmentAssignment deptStoreAB 1 = SuggestResponse.ok data
      ∧ data.suggestedDepartment.id = 21
      ∧ data.alternativeDepartments
          = [{ id := 21, name := "A", score := 100 }, { id := 22, name := "B", score := 100 }]
      ∧ ∃ alt ∈ data.alternativeDepartments, alt.id = data.suggestedDepartment.id :=
  ⟨_, suggestDepartmentAssignment_samples.1, rfl, rfl,
    { id := 21, name := "A", score := 100 }, by simp, rfl⟩

theorem updateProblemStatus_ok_inv (s : Store) (id userId : Nat) (now : Int)
    (body : UpdateBody) (p p' : Problem) (hfind : findById s.problems id = some p)
    (hok : (updateProblemStatus s id userId now body).2 = Response.ok p') :
    validateProblem (applyUpdate p userId now body) = true
      ∧ p' = applyUpdate p userId now body := by
  unfold updateProblemStatus at hok
  rw [hfind] at hok
  dsimp only at hok
  by_cases hval : validateProblem (applyUpdate p userId now body) = true
  · rw [if_pos hval] at hok
    exact ⟨hval, (Response.ok.inj hok).symm⟩
  · rw [if_neg hval] at hok
    exact absurd hok (by simp)

theorem applyUpdate_resolve (p : Problem) (userId : Nat) (now : Int) (body : UpdateBody)
    (rd : ResolutionDetails) (hstatus : body.status = some "resolved")
    (hpayload : body.resolutionDetails = some rd) :
    (applyUpdate p userId now body).resolutionDetails
      = some { resolvedAt := some now, resolvedBy := some userId,
               resolutionImages := rd.resolutionImages,
               resolutionDescription := rd.resolutionDescription,
               costIncurred := rd.costIncurred } := by
  unfold applyUpdate
  rw [hstatus, hpayload]
  cases body.assignedTo <;> by_cases h2 : truthy body.priority = true <;> simp [h2, truthy]

/-- C22: after a successful status change to `resolved` with payload `rd` by the user
`userId` at time `now`, the stored problem has `resolvedAt = now` and `resolvedBy = userId`,
whatever `rd` says for these two fields, and the other fields of `rd` as they were sent. -/
theorem updateProblemStatus_stores_resolution (s : Store) (id userId : Nat) (now : Int)
    (body : UpdateBody) (p p' : Problem) (rd : ResolutionDetails)
    (hfind : findById s.problems id = some p)
    (hstatus : body.status = some "resolved") (hpayload : body.resolutionDetails = some rd)
    (hok : (updateProblemStatus s id userId now body).2 = Response.ok p') :
    findById (updateProblemStatus s id userId now body).1.problems id = some p'
      ∧ p'.resolutionDetails
          = some { resolvedAt := some now, resolvedBy := some userId,
                   resolutionImages := rd.resolutionImages,
                   resolutionDescription := rd.resolutionDescription,
                   costIncurred := rd.costIncurred } := by
  obtain ⟨hval, hp'⟩ := updateProblemStatus_ok_inv s id userId now body p p' hfind hok
  rw [updateProblemStatus_of_valid s id userId now body p hfind hval, hp']
  exact ⟨findById_saveProblem hfind (applyUpdate_id _ _ _ _),
    applyUpdate_resolve p userId now body rd hstatus hpayload⟩

/-- C22 (witness): `forgedPayload` claims to be resolved at time 1 by user 99; what is
stored is the time 1000 of the request and its user 9. -/
theorem updateProblemStatus_stores_resolution_witness :
    findById (updateProblemStatus sampleStore 1 9 1000 forgedResolveBody).1.problems 1
        = some { sampleProblem with
                  status := "resolved",
                  resolutionDetails :=
                    some { forgedPayload with resolvedAt := some 1000, resolvedBy := some 9 } }
      ∧ ({ sampleProblem with
            status := "resolved",
            resolutionDetails :=
              some { forgedPayload with resolvedAt := some 1000, resolvedBy := some 9 }
          } : Problem).resolutionDetails
          = some { resolvedAt := some 1000, resolvedBy := some 9,
                   resolutionImages := forgedPayload.resolutionImages,
                   resolutionDescription := forgedPayload.resolutionDescription,
                   costIncurred := forgedPayload.costIncurred } :=
  updateProblemStatus_stores_resolution sampleStore 1 9 1000 forgedResolveBody sampleProblem
    _ forgedPayload rfl rfl rfl rfl

theorem pointsOf_incPoints_of_ne (users : List User) (id id' : Nat) (n : Int)
    (h : id' ≠ id) : pointsOf (incPoints users id n) id' = pointsOf users id' := by
  unfold pointsOf incPoints
  induction users with
  | nil => rfl
  | cons a l ih =>
    by_cases ha : a.id = id
    · have hb : (a.id == id') = false := by
        rw [ha]; simpa using fun e => h e.symm
      simp only [List.map_cons, if_pos ha, List.find?_cons, hb]
      exact ih
    · simp only [List.map_cons, if_neg ha, List.find?_cons]
      cases hb : (a.id == id')
      · exact ih
      · rfl

theorem updateProblemStatus_users (s : Store) (id userId : Nat) (now : Int)
    (body : UpdateBody) (p : Problem) (hfind : findById s.problems id = some p) :
    (updateProblemStatus s id userId now body).1.users
      = if isResolveRequest body then incPoints s.users p.reporter 10 else s.users := by
  unfold updateProblemStatus
  rw [hfind]
  dsimp only
  by_cases hval : validateProblem (applyUpdate p userId now body) = true
  · rw [if_pos hval]
  · rw [if_neg hval]

theorem updateProblemStatus_not_found (s : Store) (id userId : Nat) (now : Int)
    (body : UpdateBody) (hfind : findById s.problems id = none) :
    updateProblemStatus s id userId now body = (s, Response.notFound) := by
  unfold updateProblemStatus
  rw [hfind]

/-- C23: a resolve request (status `resolved` with a payload) for a stored problem adds
exactly 10 to the balance of its reporter and leaves the balance of every other user as
it was; a status change to `pending`, `in_progress` or `rejected` leaves the users, and
so every balance, unchanged. -/
theorem updateProblemStatus_points :
    (∀ (s : Store) (id userId : Nat) (now : Int) (body : UpdateBody) (p : Problem),
        findById s.problems id = some p → isResolveRequest body = true →
        ((∃ u ∈ s.users, u.id = p.reporter) →
            pointsOf (updateProblemStatus s id userId now body).1.users p.reporter
              = pointsOf s.users p.reporter + 10)
          ∧ ∀ other, other ≠ p.reporter →
              pointsOf (updateProblemStatus s id userId now body).1.users other
                = pointsOf s.users other)
      ∧ (∀ (s : Store) (id userId : Nat) (now : Int) (body : UpdateBody) (t : String),
          body.status = some t → t ∈ ["pending", "in_progress", "rejected"] →
          (updateProblemStatus s id userId now body).1.users = s.users) := by
  constructor
  · intro s id userId now body p hfind hres
    rw [updateProblemStatus_users s id userId now body p hfind, if_pos hres]
    exact ⟨fun hrep => pointsOf_incPoints _ _ _ hrep,
      fun other hne => pointsOf_incPoints_of_ne _ _ _ _ hne⟩
  · intro s id userId now body t hstatus ht
    have hnot : isResolveRequest body = false := by
      unfold isResolveRequest
      rw [hstatus]
      simp only [List.mem_cons, List.mem_singleton, List.not_mem_nil, or_false] at ht
      rcases ht with h | h | h <;> subst h <;> simp
    cases hfind : findById s.problems id with
    | none => rw [updateProblemStatus_not_found s id userId now body hfind]
    | some p => rw [updateProblemStatus_users s id userId now body p hfind, hnot]; rfl

/-- C23 (witness): the resolve request on `sampleStore` gives the reporter, user 7, ten
points. -/
theorem updateProblemStatus_points_witness :
    pointsOf (updateProblemStatus sampleStore 1 9 1000 resolveBody).1.users 7
      = pointsOf sampleStore.users 7 + 10 :=
  (updateProblemStatus_points.1 sampleStore 1 9 1000 resolveBody sampleProblem rfl rfl).1
    (by decide)

/-- C24: a request that supplies only `assignedTo = d` for a stored problem is answered
200; the stored problem is the old one with `assignedTo = d`, so its status, priority and
resolution details are unchanged, and no user gains a point. -/
theorem updateProblemStatus_assign_only (s : Store) (id userId : Nat) (now : Int)
    (p : Problem) (d : Nat) (hfind : findById s.problems id = some p)
    (hvalid : validateProblem p = true) :
    (updateProblemStatus s id userId now (assignOnly d)).2
        = Response.ok { p with assignedTo := some d }
      ∧ findById (updateProblemStatus s id userId now (assignOnly d)).1.problems id
        = some { p with assignedTo := some d }
      ∧ ({ p with assignedTo := some d } : Problem).status = p.status
      ∧ ({ p with assignedTo := some d } : Problem).priority = p.priority
      ∧ ({ p with assignedTo := some d } : Problem).resolutionDetails = p.resolutionDetails
      ∧ (updateProblemStatus s id userId now (assignOnly d)).1.users = s.users := by
  have happly : applyUpdate p userId now (assignOnly d) = { p with assignedTo := some d } := by
    simp [applyUpdate, assignOnly, truthy]
  have hval : validateProblem (applyUpdate p userId now (assignOnly d)) = true := by
    rw [happly]; exact hvalid
  rw [updateProblemStatus_of_valid s id userId now (assignOnly d) p hfind hval, happly]
  refine ⟨rfl, findById_saveProblem hfind rfl, rfl, rfl, rfl, ?_⟩
  simp [isResolveRequest, assignOnly]

/-- C24 (witness): `sampleProblem` assigned to department 21. -/
theorem updateProblemStatus_assign_only_witness :
    (updateProblemStatus sampleStore 1 9 1000 (assignOnly 21)).2
        = Response.ok { sampleProblem with assignedTo := some 21 }
      ∧ findById (updateProblemStatus sampleStore 1 9 1000 (assignOnly 21)).1.problems 1
        = some { sampleProblem with assignedTo := some 21 }
      ∧ ({ sampleProblem with assignedTo := some 21 } : Problem).status = sampleProblem.status
      ∧ ({ sampleProblem with assignedTo := some 21 } : Problem).priority
          = sampleProblem.priority
      ∧ ({ sampleProblem with assignedTo := some 21 } : Problem).resolutionDetails
          = sampleProblem.resolutionDetails
      ∧ (updateProblemStatus sampleStore 1 9 1000 (assignOnly 21)).1.users
          = sampleStore.users :=
  updateProblemStatus_assign_only sampleStore 1 9 1000 sampleProblem 21 rfl rfl

/-- C25: for a problem id that is not in the store the answer is 404 and the store, its
problems and the balances of its users, is left as it was. -/
theorem updateProblemStatus_unknown_id (s : Store) (id userId : Nat) (now : Int)
    (body : UpdateBody) (hunknown : ∀ p ∈ s.problems, p.id ≠ id) :
    (updateProblemStatus s id userId now body).2 = Response.notFound
      ∧ (updateProblemStatus s id userId now body).1 = s
      ∧ (updateProblemStatus s id userId now body).1.problems = s.problems
      ∧ ∀ user, pointsOf (updateProblemStatus s id userId now body).1.users user
          = pointsOf s.users user := by
  have hfind : findById s.problems id = none := by
    unfold findById
    rw [List.find?_eq_none]
    intro p hp
    simpa using hunknown p hp
  rw [updateProblemStatus_not_found s id userId now body hfind]
  exact ⟨rfl, rfl, rfl, fun _ => rfl⟩

/-- C25 (witness): `sampleStore` has no problem of id 2. -/
theorem updateProblemStatus_unknown_id_witness :
    (updateProblemStatus sampleStore 2 9 1000 resolveBody).2 = Response.notFound
      ∧ (updateProblemStatus sampleStore 2 9 1000 resolveBody).1 = sampleStore
      ∧ (updateProblemStatus sampleStore 2 9 1000 resolveBody).1.problems
          = sampleStore.problems
      ∧ ∀ user, pointsOf (updateProblemStatus sampleStore 2 9 1000 resolveBody).1.users user
          = pointsOf sampleStore.users user :=
  updateProblemStatus_unknown_id sampleStore 2 9 1000 resolveBody (by decide)

/-! ## Bounds and monotonicity -/

/-- C26: for all texts the union of the two word sets is not empty, so the quotient is a
quotient by a positive number, and it lies between 0 and 1. -/
theorem calculateSimilarity_bounds (toLowerCase : String → String) (a b : String) :
    0 < (mkSet (mkSet (splitNonWord (toLowerCase a))
          ++ mkSet (splitNonWord (toLowerCase b)))).length
      ∧ 0 ≤ calculateSimilarity toLowerCase a b
      ∧ calculateSimilarity toLowerCase a b ≤ 1 := by
  have hw1 := mkSet_ne_nil _ (splitNonWord_ne_nil (toLowerCase a))
  have hunion : mkSet (mkSet (splitNonWord (toLowerCase a))
      ++ mkSet (splitNonWord (toLowerCase b))) ≠ [] := by
    apply mkSet_ne_nil
    intro h
    exact hw1 (List.append_eq_nil.1 h).1
  have hpos : 0 < (mkSet (mkSet (splitNonWord (toLowerCase a))
      ++ mkSet (splitNonWord (toLowerCase b)))).length := List.length_pos.2 hunion
  have hsub : mkSet ((mkSet (splitNonWord (toLowerCase a))).filter
        (fun x => decide (x ∈ mkSet (splitNonWord (toLowerCase b)))))
      ⊆ mkSet (mkSet (splitNonWord (toLowerCase a))
        ++ mkSet (splitNonWord (toLowerCase b))) := by
    intro x hx
    rw [mem_mkSet] at hx ⊢
    exact List.mem_append_left _ (List.mem_of_mem_filter hx)
  have hle : (mkSet ((mkSet (splitNonWord (toLowerCase a))).filter
        (fun x => decide (x ∈ mkSet (splitNonWord (toLowerCase b)))))).length
      ≤ (mkSet (mkSet (splitNonWord (toLowerCase a))
        ++ mkSet (splitNonWord (toLowerCase b)))).length :=
    ((mkSet_nodup _).subperm hsub).length_le
  have hposq : (0 : ℚ) < ((mkSet (mkSet (splitNonWord (toLowerCase a))
      ++ mkSet (splitNonWord (toLowerCase b)))).length : ℚ) := by exact_mod_cast hpos
  refine ⟨hpos, ?_, ?_⟩
  · rw [calculateSimilarity_unfold]
    exact div_nonneg (Nat.cast_nonneg _) (le_of_lt hposq)
  · rw [calculateSimilarity_unfold, div_le_one hposq]
    exact_mod_cast hle

/-- The score before rounding: upvotes, category weight, capped age term, comments. -/
theorem calculatePriorityScore_unfold (now : Int) (problem : Problem) :
    calculatePriorityScore now problem
      = ((mathRound ((0 + (problem.upvoteCount : ℚ) * 2
            + (categoryWeights.lookup problem.category).getD 0
            + min (((now - problem.createdAt : Int) : ℚ) / (1000 * 60 * 60 * 24) * (1 / 2)) 10
            + (problem.comments.length : ℚ) * (1 / 2)) * 100) : Int) : ℚ) / 100 :=
  rfl

theorem mathRound_mono {x y : ℚ} (h : x ≤ y) : mathRound x ≤ mathRound y := by
  unfold mathRound
  exact Int.floor_mono (by linarith)

/-- C27: with the category fixed, a problem with at least as many upvotes, at least as
many comments and at least the age of another scores at least as much; and two problems
of one category with equal upvotes and comments, both at least 20 days old, score the
same. -/
theorem calculatePriorityScore_monotone :
    (∀ (now now' : Int) (p p' : Problem),
        p.category = p'.category → p.upvoteCount ≤ p'.upvoteCount →
        p.comments.length ≤ p'.comments.length →
        now - p.createdAt ≤ now' - p'.createdAt →
        calculatePriorityScore now p ≤ calculatePriorityScore now' p')
      ∧ (∀ (now now' : Int) (p p' : Problem),
          p.category = p'.category → p.upvoteCount = p'.upvoteCount →
          p.comments.length = p'.comments.length →
          20 * 86400000 ≤ now - p.createdAt → 20 * 86400000 ≤ now' - p'.createdAt →
          calculatePriorityScore now p = calculatePriorityScore now' p') := by
  constructor
  · intro now now' p p' hcat hup hcom hage
    rw [calculatePriorityScore_unfold, calculatePriorityScore_unfold, hcat]
    have hup' : (p.upvoteCount : ℚ) ≤ (p'.upvoteCount : ℚ) := by exact_mod_cast hup
    have hcom' : (p.comments.length : ℚ) ≤ (p'.comments.length : ℚ) := by exact_mod_cast hcom
    have hage' : ((now - p.createdAt : Int) : ℚ) ≤ ((now' - p'.createdAt : Int) : ℚ) := by
      exact_mod_cast hage
    have hmin : min (((now - p.createdAt : Int) : ℚ) / (1000 * 60 * 60 * 24) * (1 / 2)) 10
        ≤ min (((now' - p'.createdAt : Int) : ℚ) / (1000 * 60 * 60 * 24) * (1 / 2)) 10 := by
      apply min_le_min _ le_rfl
      apply mul_le_mul_of_nonneg_right _ (by norm_num)
      exact div_le_div_of_nonneg_right hage' (by norm_num)
    apply div_le_div_of_nonneg_right _ (by norm_num)
    have := @mathRound_mono
      ((0 + (p.upvoteCount : ℚ) * 2 + (categoryWeights.lookup p'.category).getD 0
        + min (((now - p.createdAt : Int) : ℚ) / (1000 * 60 * 60 * 24) * (1 / 2)) 10
        + (p.comments.length : ℚ) * (1 / 2)) * 100)
      ((0 + (p'.upvoteCount : ℚ) * 2 + (categoryWeights.lookup p'.category).getD 0
        + min (((now' - p'.createdAt : Int) : ℚ) / (1000 * 60 * 60 * 24) * (1 / 2)) 10
        + (p'.comments.length : ℚ) * (1 / 2)) * 100)
      (by linarith)
    exact_mod_cast this
  · intro now now' p p' hcat hup hcom hage hage'
    have hcap : ∀ (t : Int), 20 * 86400000 ≤ t →
        min ((t : ℚ) / (1000 * 60 * 60 * 24) * (1 / 2)) 10 = 10 := by
      intro t ht
      have ht' : (20 * 86400000 : ℚ) ≤ (t : ℚ) := by exact_mod_cast ht
      apply min_eq_right
      rw [div_mul_eq_mul_div, le_div_iff₀ (by norm_num)]
      linarith
    rw [calculatePriorityScore_unfold, calculatePriorityScore_unfold, hcat, hup, hcom,
      hcap _ hage, hcap _ hage']

/-- C27 (witness): `scoredProblem` scores no less after thirty days than after four. -/
theorem calculatePriorityScore_monotone_witness :
    calculatePriorityScore (4 * 86400000) scoredProblem
      ≤ calculatePriorityScore thirtyDays scoredProblem :=
  calculatePriorityScore_monotone.1 (4 * 86400000) thirtyDays scoredProblem scoredProblem
    rfl (le_refl _) (le_refl _) (by decide)

/-- C28: `prioritizeProblems` returns `min(10, n)` entries for `n` pending problems and
reports `totalCount = n`; the entries returned and the entries left out are together the
scored pending problems, and an entry left out scores at most as much as any entry
returned. -/
theorem prioritizeProblems_top_ten (s : Store) (now : Int) :
    (prioritizeProblems s now).prioritizedProblems.length
        = min 10 (s.problems.filter (fun p => p.status == "pending")).length
      ∧ (prioritizeProblems s now).totalCount
        = (s.problems.filter (fun p => p.status == "pending")).length
      ∧ ((prioritizeProblems s now).prioritizedProblems ++ (prioritized s now).drop 10).Perm
          ((s.problems.filter (fun p => p.status == "pending")).map (attachPriority now))
      ∧ (∀ out ∈ (prioritized s now).drop 10,
          ∀ listed ∈ (prioritizeProblems s now).prioritizedProblems,
            out.priorityScore ≤ listed.priorityScore) := by
  have hlen : (prioritized s now).length
      = (s.problems.filter (fun p => p.status == "pending")).length := by
    unfold prioritized sortByScore
    rw [List.length_insertionSort, List.length_map]
  have hsorted : (prioritized s now).Sorted rankedBefore := by
    unfold prioritized sortByScore
    exact List.sorted_insertionSort rankedBefore _
  refine ⟨?_, hlen, ?_, ?_⟩
  · show ((prioritized s now).take 10).length = _
    rw [List.length_take, hlen]
  · show (((prioritized s now).take 10) ++ (prioritized s now).drop 10).Perm _
    rw [List.take_append_drop]
    unfold prioritized sortByScore
    exact List.perm_insertionSort rankedBefore _
  · intro out hout listed hlisted
    exact hsorted.rel_of_mem_take_of_mem_drop hlisted hout

/-! ## Priority multipliers -/

theorem adjustForPriority_unlisted (avgDays : ℚ) :
    adjustForPriority avgDays none = some (mathRound (avgDays * 1))
      ∧ (∀ q, multipliers.lookup q = none → q ∉ objectPrototypeKeys →
          adjustForPriority avgDays (some q) = some (mathRound (avgDays * 1)))
      ∧ (∀ q, q ∈ objectPrototypeKeys → adjustForPriority avgDays (some q) = none) := by
  refine ⟨rfl, ?_, ?_⟩
  · intro q hq hkey
    unfold adjustForPriority
    simp only [hq, if_neg hkey]
  · intro q hkey
    have hq : multipliers.lookup q = none := by
      simp only [objectPrototypeKeys, List.mem_cons, List.mem_singleton, List.not_mem_nil,
        or_false] at hkey
      rcases hkey with h | h | h | h | h | h | h | h | h | h | h | h <;> subst h <;>
        simp [multipliers, List.lookup]
    unfold adjustForPriority
    simp only [hq, if_pos hkey]

/-- C29 (failing input): for a non-negative average the predictions for `critical`,
`high`, `medium` and `low` are in non-decreasing order, and a missing priority, or one
that is no property name of the object `multipliers` at all, gives the prediction of
`medium`; but for the priority `toString`, a name `multipliers` inherits, the prediction
is not a number, while `medium` predicts 7 days on an empty pool. -/
theorem adjustForPriority_inherited_key :
    (∀ (s : Store) (category municipality : String),
        0 ≤ calculateAverageResolution (resolvedPool s category municipality) →
        ∃ c h m l : Int,
          (predictResolutionTime s category municipality (some "critical")).predictedDays
              = some c
            ∧ (predictResolutionTime s category municipality (some "high")).predictedDays
              = some h
            ∧ (predictResolutionTime s category municipality (some "medium")).predictedDays
              = some m
            ∧ (predictResolutionTime s category municipality (some "low")).predictedDays
              = some l
            ∧ c ≤ h ∧ h ≤ m ∧ m ≤ l)
      ∧ (∀ (s : Store) (category municipality : String),
          predictResolutionTime s category municipality none
            = predictResolutionTime s category municipality (some "medium"))
      ∧ (∀ (s : Store) (category municipality q : String),
          multipliers.lookup q = none → q ∉ objectPrototypeKeys →
          predictResolutionTime s category municipality (some q)
            = predictResolutionTime s category municipality (some "medium"))
      ∧ multipliers.lookup "toString" = none
      ∧ (predictResolutionTime sampleStore "waste" "Butwal" (some "toString")).predictedDays
          = none
      ∧ (predictResolutionTime sampleStore "waste" "Butwal" (some "medium")).predictedDays
          = some 7 := by
  refine ⟨?_, ?_, ?_, ?_, ?_, ?_⟩
  · intro s category municipality havg
    obtain ⟨h1, h2, h3, h4⟩ :=
      adjustForPriority_listed (calculateAverageResolution (resolvedPool s category municipality))
    refine ⟨_, _, _, _, h1, h2, h3, h4, ?_, ?_, ?_⟩ <;>
      exact mathRound_mono (by linarith)
  · intro s category municipality
    unfold predictResolutionTime
    dsimp only
    rw [(adjustForPriority_unlisted _).1, (adjustForPriority_listed _).2.2.1]
  · intro s category municipality q hq hkey
    unfold predictResolutionTime
    dsimp only
    rw [(adjustForPriority_unlisted _).2.1 q hq hkey, (adjustForPriority_listed _).2.2.1]
  · simp [multipliers, List.lookup]
  · exact (adjustForPriority_unlisted
      (calculateAverageResolution (resolvedPool sampleStore "waste" "Butwal"))).2.2
      "toString" (by decide)
  · have hpool : resolvedPool sampleStore "waste" "Butwal" = [] := by decide
    have havg : calculateAverageResolution ([] : List Problem) = 7 := by
      simp [calculateAverageResolution]
    have r3 : mathRound ((7 : ℚ) * 1) = 7 := by rw [mathRound_eq_iff]; norm_num
    show adjustForPriority
      (calculateAverageResolution (resolvedPool sampleStore "waste" "Butwal")) (some "medium")
      = some 7
    rw [hpool, havg, (adjustForPriority_listed _).2.2.1, r3]

/-! ## Comment sentiment -/

theorem foldl_countWord_unlisted (words : List String) (counts : Nat × Nat)
    (h : ∀ w ∈ words, w ∉ positiveWords ∧ w ∉ negativeWords) :
    words.foldl countWord counts = counts := by
  induction words generalizing counts with
  | nil => rfl
  | cons w words ih =>
    have hw := h w (List.mem_cons_self w words)
    have hstep : countWord counts w = counts := by
      unfold countWord
      rw [if_neg hw.1, if_neg hw.2]
    rw [List.foldl_cons, hstep]
    exact ih counts (fun v hv => h v (List.mem_cons_of_mem w hv))

theorem sentimentScore_bounds (positiveCount negativeCount : Nat) :
    -1 ≤ (if positiveCount + negativeCount > 0 then
            ((positiveCount : ℚ) - (negativeCount : ℚ))
              / ((positiveCount + negativeCount : Nat) : ℚ)
          else 0)
      ∧ (if positiveCount + negativeCount > 0 then
            ((positiveCount : ℚ) - (negativeCount : ℚ))
              / ((positiveCount + negativeCount : Nat) : ℚ)
          else 0) ≤ 1 := by
  by_cases htotal : positiveCount + negativeCount > 0
  · rw [if_pos htotal]
    have hpos : (0 : ℚ) < ((positiveCount + negativeCount : Nat) : ℚ) := by
      exact_mod_cast htotal
    have hp : (0 : ℚ) ≤ (positiveCount : ℚ) := Nat.cast_nonneg _
    have hn : (0 : ℚ) ≤ (negativeCount : ℚ) := Nat.cast_nonneg _
    have hsum : ((positiveCount + negativeCount : Nat) : ℚ)
        = (positiveCount : ℚ) + (negativeCount : ℚ) := by push_cast; ring
    constructor
    · rw [le_div_iff₀ hpos, hsum]; linarith
    · rw [div_le_one hpos, hsum]; linarith
  · rw [if_neg htotal]
    norm_num

theorem analyzeSentimentWithAI_score (toLowerCase : String → String) (text : String) :
    (analyzeSentimentWithAI toLowerCase text).score
      = if ((splitNonWord (toLowerCase text)).foldl countWord (0, 0)).1
            + ((splitNonWord (toLowerCase text)).foldl countWord (0, 0)).2 > 0 then
          ((((splitNonWord (toLowerCase text)).foldl countWord (0, 0)).1 : ℚ)
              - (((splitNonWord (toLowerCase text)).foldl countWord (0, 0)).2 : ℚ))
            / ((((splitNonWord (toLowerCase text)).foldl countWord (0, 0)).1
                + ((splitNonWord (toLowerCase text)).foldl countWord (0, 0)).2 : Nat) : ℚ)
        else 0 :=
  rfl

/-- C30: for every text the sentiment score lies in [-1, 1]; exactly one of the flags
`isPositive`, `isNegative` and `isNeutral` of `analyzeCommentSentiment` is true; and a text
none of whose words is in the positive or the negative list has score 0, the label
`neutral` and the flag `isNeutral`. -/
theorem analyzeCommentSentiment_flags (toLowerCase : String → String) (text : String) :
    (analyzeCommentSentiment toLowerCase text).score
        = (analyzeSentimentWithAI toLowerCase text).score
      ∧ -1 ≤ (analyzeSentimentWithAI toLowerCase text).score
      ∧ (analyzeSentimentWithAI toLowerCase text).score ≤ 1
      ∧ (((analyzeCommentSentiment toLowerCase text).isPositive = true
            ∧ (analyzeCommentSentiment toLowerCase text).isNegative = false
            ∧ (analyzeCommentSentiment toLowerCase text).isNeutral = false)
          ∨ ((analyzeCommentSentiment toLowerCase text).isPositive = false
            ∧ (analyzeCommentSentiment toLowerCase text).isNegative = true
            ∧ (analyzeCommentSentiment toLowerCase text).isNeutral = false)
          ∨ ((analyzeCommentSentiment toLowerCase text).isPositive = false
            ∧ (analyzeCommentSentiment toLowerCase text).isNegative = false
            ∧ (analyzeCommentSentiment toLowerCase text).isNeutral = true))
      ∧ ((∀ w ∈ splitNonWord (toLowerCase text),
            w ∉ positiveWords ∧ w ∉ negativeWords) →
          (analyzeCommentSentiment toLowerCase text).score = 0
            ∧ (analyzeCommentSentiment toLowerCase text).sentiment = "neutral"
            ∧ (analyzeCommentSentiment toLowerCase text).isNeutral = true) := by
  have hbounds : -1 ≤ (analyzeSentimentWithAI toLowerCase text).score
      ∧ (analyzeSentimentWithAI toLowerCase text).score ≤ 1 := by
    rw [analyzeSentimentWithAI_score]
    exact sentimentScore_bounds _ _
  refine ⟨rfl, hbounds.1, hbounds.2, ?_, ?_⟩
  · show (decide ((analyzeSentimentWithAI toLowerCase text).score > 3 / 10) = true
          ∧ decide ((analyzeSentimentWithAI toLowerCase text).score < -(3 / 10)) = false
          ∧ (decide ((analyzeSentimentWithAI toLowerCase text).score ≥ -(3 / 10))
              && decide ((analyzeSentimentWithAI toLowerCase text).score ≤ 3 / 10)) = false)
        ∨ (decide ((analyzeSentimentWithAI toLowerCase text).score > 3 / 10) = false
          ∧ decide ((analyzeSentimentWithAI toLowerCase text).score < -(3 / 10)) = true
          ∧ (decide ((analyzeSentimentWithAI toLowerCase text).score ≥ -(3 / 10))
              && decide ((analyzeSentimentWithAI toLowerCase text).score ≤ 3 / 10)) = false)
        ∨ (decide ((analyzeSentimentWithAI toLowerCase text).score > 3 / 10) = false
          ∧ decide ((analyzeSentimentWithAI toLowerCase text).score < -(3 / 10)) = false
          ∧ (decide ((analyzeSentimentWithAI toLowerCase text).score ≥ -(3 / 10))
              && decide ((analyzeSentimentWithAI toLowerCase text).score ≤ 3 / 10)) = true)
    generalize (analyzeSentimentWithAI toLowerCase text).score = x
    simp only [decide_eq_true_eq, decide_eq_false_iff_not, Bool.and_eq_true,
      Bool.and_eq_false_iff, not_lt, not_le, gt_iff_lt, ge_iff_le]
    by_cases h1 : 3 / 10 < x
    · left
      exact ⟨h1, by linarith, Or.inr h1⟩
    · by_cases h2 : x < -(3 / 10)
      · right; left
        exact ⟨le_of_not_lt h1, h2, Or.inl h2⟩
      · right; right
        exact ⟨le_of_not_lt h1, le_of_not_lt h2, le_of_not_lt h2, le_of_not_lt h1⟩
  · intro hnone
    have hcounts := foldl_countWord_unlisted _ (0, 0) hnone
    have hscore : (analyzeSentimentWithAI toLowerCase text).score = 0 := by
      rw [analyzeSentimentWithAI_score, hcounts]
      simp
    have hlabel : (analyzeSentimentWithAI toLowerCase text).sentiment = "neutral" := by
      show (if (analyzeSentimentWithAI toLowerCase text).score > 0 then "positive"
        else if (analyzeSentimentWithAI toLowerCase text).score < 0 then "negative"
        else "neutral") = "neutral"
      rw [hscore]
      simp
    refine ⟨hscore, hlabel, ?_⟩
    show (decide ((analyzeSentimentWithAI toLowerCase text).score ≥ -(3 / 10))
      && decide ((analyzeSentimentWithAI toLowerCase text).score ≤ 3 / 10)) = true
    rw [hscore]
    norm_num

/-- C30 (witness): no word of `"the bin is full"` is in either list. -/
theorem analyzeCommentSentiment_flags_witness :
    (analyzeCommentSentiment asciiLower "the bin is full").score = 0
      ∧ (analyzeCommentSentiment asciiLower "the bin is full").sentiment = "neutral"
      ∧ (analyzeCommentSentiment asciiLower "the bin is full").isNeutral = true :=
  (analyzeCommentSentiment_flags asciiLower "the bin is full").2.2.2.2 (by decide)

end CodeFest
